import Mathlib

/-!
# TabVerse Ultimate: license gate and overlay window manager

A shallow embedding of `src/tabverse-ultimate/license.js` and
`src/tabverse-ultimate/overlay.js`, of the `saveLayout` handler of
`src/tabverse-ultimate/background.js` and of the request methods of
`src/tabverse-ultimate/ai.js`.

* JavaScript property values that the license gate reads are `JSVal`s; an
  object literal is an association list of its own properties.
* An `async` method is embedded as the function from the state at the call to
  the resolved value, which is what a call does that is awaited before the
  next is made. `addWindow` and `splitPane` read their count in front of the
  `await` and push behind it; they are also given in these two parts, with
  the calls made back to back.
* DOM elements live in a heap indexed by a node handle (object identity);
  a `style` length `"<v>px"` is represented by the number `v` the string
  shows, and the style keeps no negative `width` or `height`.
* Values drawn from `Date.now()` / `Math.random()` and readings of the layout
  engine (`getBoundingClientRect`, `offsetWidth`) are explicit inputs; the
  position `createWindow` computes from its draws is rounded as doubles are.
-/

namespace TabVerse

/-! ## JavaScript values read by the license gate -/

/-- The JavaScript values that occur as properties of a tier entry, together
with `undefined` and a token for any function or object value. -/
inductive JSVal
  | undefined
  | bool (b : Bool)
  | num (n : Nat)
  | infinity
  | object
  deriving DecidableEq, Repr

/-- An object literal: its own properties in source order. -/
abbrev JSObject := List (String × JSVal)

/-- Property names every plain object inherits from `Object.prototype`. -/
def objectPrototypeKeys : List String :=
  ["constructor", "__proto__", "hasOwnProperty", "isPrototypeOf",
   "propertyIsEnumerable", "toLocaleString", "toString", "valueOf",
   "__defineGetter__", "__defineSetter__", "__lookupGetter__", "__lookupSetter__"]

/-- Property read `obj[key]`: an own property, else an inherited function or
object, else `undefined`. -/
def JSObject.get (obj : JSObject) (key : String) : JSVal :=
  match obj.lookup key with
  | some v => v
  | none => if key ∈ objectPrototypeKeys then JSVal.object else JSVal.undefined

/-- The comparison `count < v` for a non-negative integer `count`
(`undefined` and objects convert to `NaN`, booleans to `0`/`1`). -/
def JSVal.gtNat (v : JSVal) (count : Nat) : Bool :=
  match v with
  | JSVal.num m => decide (count < m)
  | JSVal.infinity => true
  | JSVal.bool b => decide (count < (if b then 1 else 0))
  | JSVal.undefined => false
  | JSVal.object => false

/-- JavaScript `a || b` for a possibly missing string `a`: `null`,
`undefined` and the empty string are falsy. -/
def orElse (a : Option String) (b : String) : String :=
  match a with
  | some s => if s = "" then b else s
  | none => b

/-! ## license.js -/

/-- The entry `this.tiers.free` of the constructor. -/
def tiersFree : JSObject :=
  [("maxWindows", JSVal.num 3), ("maxPanes", JSVal.num 1),
   ("syncEnabled", JSVal.bool false), ("aiEnabled", JSVal.bool false),
   ("advancedCustomization", JSVal.bool false)]

/-- The entry `this.tiers.premium` of the constructor. -/
def tiersPremium : JSObject :=
  [("maxWindows", JSVal.infinity), ("maxPanes", JSVal.infinity),
   ("syncEnabled", JSVal.bool true), ("aiEnabled", JSVal.bool true),
   ("advancedCustomization", JSVal.bool true), ("price", JSVal.num 5)]

/-- The read `this.tiers[tier]`: `none` when the result is `undefined`. A name
inherited from `Object.prototype` yields a truthy function or object that has
none of the limit properties, represented by the empty object. -/
def tiersLookup (tier : String) : Option JSObject :=
  if tier = "free" then some tiersFree
  else if tier = "premium" then some tiersPremium
  else if tier ∈ objectPrototypeKeys then some []
  else none

/-- The state of a `LicenseManager`: the cached tier (`null` until
`initialize` has run). -/
structure LicenseManager where
  currentTier : Option String
  deriving DecidableEq, Repr

/-- The method `getCurrentTier`: the stored `license` value, `'free'` when it is
missing or empty. `stored` is the value under the key `license` in
`chrome.storage.sync`. -/
def getCurrentTier (stored : Option String) : String :=
  orElse stored "free"

/-- The method `getTierLimits(tier = null)`. -/
def getTierLimits (lm : LicenseManager) (stored : Option String)
    (tier : Option String) : JSObject :=
  let tier : String :=
    match tier with
    | some t => if t = "" then orElse lm.currentTier (getCurrentTier stored) else t
    | none => orElse lm.currentTier (getCurrentTier stored)
  match tiersLookup tier with
  | some limits => limits
  | none => tiersFree

/-- The method `canAddWindow(currentCount)`. -/
def canAddWindow (lm : LicenseManager) (stored : Option String) (currentCount : Nat) : Bool :=
  let limits := getTierLimits lm stored lm.currentTier
  (limits.get "maxWindows").gtNat currentCount

/-- The method `canAddPane(currentCount)`. -/
def canAddPane (lm : LicenseManager) (stored : Option String) (currentCount : Nat) : Bool :=
  let limits := getTierLimits lm stored lm.currentTier
  (limits.get "maxPanes").gtNat currentCount

/-- The method `isFeatureEnabled(feature)`: `limits[feature] === true`. -/
def isFeatureEnabled (lm : LicenseManager) (stored : Option String) (feature : String) : Bool :=
  let limits := getTierLimits lm stored none
  decide (limits.get feature = JSVal.bool true)

/-! ## overlay.js: data -/

/-- A pair of pixel coordinates `{x, y}`. -/
structure Point where
  x : Rat
  y : Rat
  deriving DecidableEq, Repr

/-- A pixel extent `{width, height}`. -/
structure Size where
  width : Rat
  height : Rat
  deriving DecidableEq, Repr

/-- What the `.window-content` child of a window element shows. -/
inductive Content
  | custom (html : String)
  | emptyWindow
  | loading
  | widget (type : String)
  | widgetError (type : String)
  deriving DecidableEq, Repr

/-- What the `span.window-title` of a window shows: a text, or the engine's
rendering of the function or object that a type name finds on
`Object.prototype`. -/
inductive WindowTitle
  | text (s : String)
  | inherited (name : String)
  deriving DecidableEq, Repr

/-- The `div.floating-window` built by `createWindow`, with the variables its
three `setup...` calls close over.

`left`, `top`, `width`, `height` are the inline style lengths in pixels;
`minimized`, `maximized`, `dragging` are membership of the class of that name
in `classList`; `isDragging`, `currentX`, `currentY` are the locals of
`setupWindowDragging`, and `isResizing`, `currentWidth`, `currentHeight` those
of `setupWindowResizing` (`none` is `undefined`). -/
structure WindowEl where
  windowId : String
  dataType : String
  left : Rat
  top : Rat
  width : Rat
  height : Rat
  minimized : Bool
  maximized : Bool
  dragging : Bool
  willChange : String
  title : WindowTitle
  content : Content
  isDragging : Bool
  currentX : Option Rat
  currentY : Option Rat
  isResizing : Bool
  currentWidth : Option Rat
  currentHeight : Option Rat
  deriving DecidableEq, Repr

instance : Inhabited WindowEl :=
  ⟨⟨"", "", 0, 0, 0, 0, false, false, false, "", WindowTitle.text "", Content.emptyWindow,
    false, none, none, false, none, none⟩⟩

/-- The record `createWindow` returns and `this.windows` holds; `element` is
the handle of the window's element in the heap. -/
structure Window where
  id : String
  type : String
  element : Nat
  position : Point
  size : Size
  minimized : Bool
  deriving DecidableEq, Repr

/-- An entry of `this.panes`; `number` is the `Pane n` label of its element. -/
structure Pane where
  number : Nat
  direction : String
  deriving DecidableEq, Repr

/-- A window record of a layout snapshot. -/
structure WindowRecord where
  id : String
  type : String
  position : Point
  size : Size
  minimized : Bool
  maximized : Bool
  deriving DecidableEq, Repr

/-- A pane record of a layout snapshot. -/
structure PaneRecord where
  direction : String
  deriving DecidableEq, Repr

/-- A layout snapshot (the `detail` of a `tabverse-save-layout` or
`tabverse-load-layout` event); `windows` may be missing from a stored value. -/
structure Layout where
  windows : Option (List WindowRecord)
  panes : List PaneRecord
  deriving DecidableEq, Repr

/-- One `mousedown` registers a `mousemove` and a `mouseup` handler on the
document as a pair; a resize pair closes over the start pointer and size. -/
inductive Listener
  | drag (node : Nat)
  | resize (node : Nat) (startX startY startWidth startHeight : Rat)
  deriving DecidableEq, Repr

/-- A callback waiting in the animation-frame queue. -/
inductive FrameCallback
  | drag (node : Nat)
  | resize (node : Nat)
  deriving DecidableEq, Repr

/-- The state of a `TabVerseOverlay` with the part of its environment the
methods touch: the element heap, the `hidden` class of `#upgrade-prompt`
(`none` when the shadow root has no such element), the document listeners,
the animation-frame queue, the `tabverse-save-layout` events dispatched so far
(oldest first) and the `loadWidget` calls made so far. -/
structure Overlay where
  windows : List Window
  panes : List Pane
  isVisible : Bool
  draggedElement : Option Nat
  dragOffset : Point
  resizeHandle : Option Nat
  heap : Nat → WindowEl
  nextNode : Nat
  upgradePromptHidden : Option Bool
  docListeners : List Listener
  frameQueue : List FrameCallback
  dispatched : List Layout
  loadRequests : List (Nat × String)

/-- The values `createWindow` draws from the clock and the random source:
`Date.now()`, the base-36 id suffix, and the two `Math.random()` draws for the
position. -/
structure Entropy where
  now : Nat
  idSuffix : String
  rx : Rat
  ry : Rat
  deriving DecidableEq, Repr

/-- The overlay as the constructor leaves it, over a shadow root whose upgrade
prompt starts hidden. -/
def Overlay.fresh : Overlay :=
  { windows := [], panes := [], isVisible := false, draggedElement := none,
    dragOffset := ⟨0, 0⟩, resizeHandle := none, heap := fun _ => default,
    nextNode := 0, upgradePromptHidden := some true, docListeners := [],
    frameQueue := [], dispatched := [], loadRequests := [] }

/-! ## Double-precision arithmetic -/

/-- Rounding to the nearest integer, a tie going to the even one. -/
def roundHalfEven (t : Rat) : Int :=
  if t - ⌊t⌋ < 1 / 2 then ⌊t⌋
  else if 1 / 2 < t - ⌊t⌋ then ⌊t⌋ + 1
  else if ⌊t⌋ % 2 = 0 then ⌊t⌋ else ⌊t⌋ + 1

/-- The exponent of the spacing of the doubles around `x`: 52 below the binary
exponent of `x`, and `-1074` for a subnormal `x`. -/
def ulpExponent (x : Rat) : Int :=
  max (Int.log 2 |x|) (-1022) - 52

/-- The double nearest to `x`, a tie going to the even significand: the result
of a JavaScript `+` or `*` whose exact value is `x`. Values beyond the largest
double, which round to `Infinity`, do not occur where this is used. -/
def roundDouble (x : Rat) : Rat :=
  roundHalfEven (x / (2 : Rat) ^ ulpExponent x) * (2 : Rat) ^ ulpExponent x

/-! ## overlay.js: windows, snapshots -/

/-- The method `getWindowTitle`: `titles[type] || 'Window'`. A type that names
a property every object inherits finds that function or object, which is
truthy, and the title is its rendering. -/
def getWindowTitle (type : String) : WindowTitle :=
  if type = "empty" then WindowTitle.text "New Window"
  else if type = "clock" then WindowTitle.text "🕐 Clock"
  else if type = "todo" then WindowTitle.text "✓ To-Do List"
  else if type = "stats" then WindowTitle.text "📊 Stats Counter"
  else if type = "webview" then WindowTitle.text "🌐 Web View"
  else if type ∈ objectPrototypeKeys then WindowTitle.inherited type
  else WindowTitle.text "Window"

/-- The method `getDefaultContent`. -/
def getDefaultContent (type : String) : Content :=
  if type = "empty" then Content.emptyWindow else Content.loading

/-- The method `showUpgradePrompt`: remove `hidden` from `#upgrade-prompt`. -/
def showUpgradePrompt (o : Overlay) : Overlay :=
  { o with upgradePromptHidden := o.upgradePromptHidden.map (fun _ => false) }

/-- The method `createWindow`: a new element in the heap and the window record
for it. The position is computed in doubles: each of the product and the sum
is rounded. -/
def createWindow (o : Overlay) (type : String) (content : Option String)
    (e : Entropy) : Window × Overlay :=
  let windowId := "window-" ++ toString e.now ++ "-" ++ e.idSuffix
  let x := roundDouble (100 + roundDouble (e.rx * 300))
  let y := roundDouble (100 + roundDouble (e.ry * 200))
  let windowEl : WindowEl :=
    { windowId := windowId, dataType := type, left := x, top := y,
      width := 400, height := 300,
      minimized := false, maximized := false, dragging := false, willChange := "",
      title := getWindowTitle type,
      content := (match content with
        | some html => if html = "" then getDefaultContent type else Content.custom html
        | none => getDefaultContent type),
      isDragging := false, currentX := none, currentY := none,
      isResizing := false, currentWidth := none, currentHeight := none }
  ({ id := windowId, type := type, element := o.nextNode,
     position := ⟨x, y⟩, size := ⟨400, 300⟩, minimized := false },
   { o with heap := Function.update o.heap o.nextNode windowEl,
            nextNode := o.nextNode + 1 })

/-- The first significant decimal digit of a positive number `v`: the integer
part of `v / 10 ^ e` for the exponent `e` with `10 ^ e ≤ v < 10 ^ (e + 1)`. -/
def leadingDigit (v : Rat) : Int :=
  ⌊v / (10 : Rat) ^ Int.log 10 v⌋

/-- The call `parseInt(s)` on a style length `s = "<v>px"`, where `v` is the
number the string shows. A number that is zero or of magnitude from `1e-6` up
to below `1e21` is written in plain decimal notation, and `parseInt` reads its
integer part: `v` truncated toward zero. Any other number is written in
exponent notation (`1.5e-7`, `-2e+21`), and `parseInt` reads the sign and the
one digit in front of the point or the `e`. -/
def parseInt (v : Rat) : Int :=
  if v = 0 ∨ (1 / 10 ^ 6 ≤ |v| ∧ |v| < 10 ^ 21) then
    if 0 ≤ v then ⌊v⌋ else ⌈v⌉
  else if 0 < v then leadingDigit v
  else -leadingDigit (-v)

/-- The record `saveLayout` builds for one window. -/
def windowRecord (o : Overlay) (w : Window) : WindowRecord :=
  let el := o.heap w.element
  { id := w.id, type := w.type,
    position := ⟨parseInt el.left, parseInt el.top⟩,
    size := ⟨parseInt el.width, parseInt el.height⟩,
    minimized := el.minimized, maximized := el.maximized }

/-- The `layout` object `saveLayout` builds. -/
def currentLayout (o : Overlay) : Layout :=
  { windows := some (o.windows.map (windowRecord o)),
    panes := o.panes.map (fun p => ⟨p.direction⟩) }

/-- The method `saveLayout`: dispatch the layout as one
`tabverse-save-layout` event. -/
def saveLayout (o : Overlay) : Overlay :=
  { o with dispatched := o.dispatched ++ [currentLayout o] }

/-- The method `addWindow(type = 'empty', content = null)`, with the license
manager the overlay holds; returns the new window, or `none` for `null`. -/
def addWindow (lm : LicenseManager) (stored : Option String) (o : Overlay)
    (type : String) (content : Option String) (e : Entropy) : Option Window × Overlay :=
  if canAddWindow lm stored o.windows.length then
    let created := createWindow o type content e
    let win := created.1
    let o1 := created.2
    let o2 := { o1 with windows := o1.windows ++ [win] }
    (some win, saveLayout o2)
  else
    (none, showUpgradePrompt o)

/-- The method `loadWidget` up to its dynamic `import`: the request for the
widget module of `type` for the window. -/
def loadWidget (o : Overlay) (window : Window) (type : String) : Overlay :=
  { o with loadRequests := o.loadRequests ++ [(window.element, type)] }

/-- The body of the `forEach` callback of `applyLayout` for one saved window,
up to its `await`. The style accepts any length for `left` and `top` but no
negative length for `width` or `height`: the assignment of a negative width or
height is dropped and the element keeps the value `createWindow` gave it. -/
def restoreWindow (o : Overlay) (savedWindow : WindowRecord) (e : Entropy) : Overlay :=
  let created := createWindow o savedWindow.type none e
  let window := created.1
  let o1 := created.2
  let el := o1.heap window.element
  let el := { el with left := savedWindow.position.x, top := savedWindow.position.y }
  let el := if 0 ≤ savedWindow.size.width then { el with width := savedWindow.size.width }
    else el
  let el := if 0 ≤ savedWindow.size.height then { el with height := savedWindow.size.height }
    else el
  let el := if savedWindow.minimized then { el with minimized := true } else el
  let el := if savedWindow.maximized then { el with maximized := true } else el
  let o2 := { o1 with heap := Function.update o1.heap window.element el,
                      windows := o1.windows ++ [window] }
  if savedWindow.type ≠ "empty" then loadWidget o2 window savedWindow.type else o2

/-- The loop `layout.windows.forEach(...)`: the saved windows in order, the
`i`-th restored with the draws `ent i`. -/
def restoreWindows (o : Overlay) : List WindowRecord → (Nat → Entropy) → Overlay
  | [], _ => o
  | savedWindow :: rest, ent =>
    restoreWindows (restoreWindow o savedWindow (ent 0)) rest (fun i => ent (i + 1))

/-- The method `applyLayout(layout)`; `none` is a missing layout. -/
def applyLayout (o : Overlay) (layout : Option Layout) (ent : Nat → Entropy) : Overlay :=
  match layout with
  | none => o
  | some l =>
    let o0 := { o with windows := [] }
    match l.windows with
    | none => o0
    | some saved => restoreWindows o0 saved ent

/-- Calling `addWindow` once per entry of `calls`, each call resolved before
the next is made. -/
def addWindows (lm : LicenseManager) (stored : Option String) (o : Overlay) :
    List (String × Option String × Entropy) → Overlay
  | [] => o
  | (type, content, e) :: calls =>
    addWindows lm stored (addWindow lm stored o type content e).2 calls

/-! ## overlay.js: the drag and resize handlers -/

/-- The `mousedown` listener `setupWindowDragging` puts on the header of the
element `node`. `onButton` is `e.target.closest('.window-btn')` being
non-null, `client` is `(e.clientX, e.clientY)` and `rect` the top-left corner
`getBoundingClientRect()` reports for the element. -/
def headerMouseDown (o : Overlay) (node : Nat) (onButton : Bool)
    (client rect : Point) : Overlay :=
  if onButton then o
  else
    let el := o.heap node
    let el := { el with isDragging := true, currentX := some rect.x,
                        currentY := some rect.y, dragging := true,
                        willChange := "transform" }
    { o with draggedElement := some node,
             dragOffset := ⟨client.x - rect.x, client.y - rect.y⟩,
             heap := Function.update o.heap node el,
             docListeners := o.docListeners ++ [Listener.drag node] }

/-- The closure `handleDrag` of the element `node` on a `mousemove` at
`client`: recompute the position from the shared `this.dragOffset` and
replace the element's pending animation-frame callback. -/
def handleDrag (o : Overlay) (node : Nat) (client : Point) : Overlay :=
  let el := o.heap node
  if el.isDragging then
    let el := { el with currentX := some (client.x - o.dragOffset.x),
                        currentY := some (client.y - o.dragOffset.y) }
    { o with heap := Function.update o.heap node el,
             frameQueue := o.frameQueue.filter (fun c => c ≠ FrameCallback.drag node)
                             ++ [FrameCallback.drag node] }
  else o

/-- The closure `handleDragEnd` of the element `node`. -/
def handleDragEnd (o : Overlay) (node : Nat) : Overlay :=
  let el := o.heap node
  let el := { el with isDragging := false, dragging := false, willChange := "auto" }
  let o1 := { o with heap := Function.update o.heap node el,
                     frameQueue := o.frameQueue.filter (fun c => c ≠ FrameCallback.drag node) }
  let o2 := saveLayout o1
  { o2 with draggedElement := none,
            docListeners := o2.docListeners.erase (Listener.drag node) }

/-- The `mousedown` listener `setupWindowResizing` puts on the resize handle of
the element `node`; `offset` is `(offsetWidth, offsetHeight)` of the element. -/
def resizeMouseDown (o : Overlay) (node : Nat) (client : Point) (offset : Size) : Overlay :=
  let el := o.heap node
  let el := { el with isResizing := true, willChange := "width, height" }
  { o with resizeHandle := some node,
           heap := Function.update o.heap node el,
           docListeners := o.docListeners ++
             [Listener.resize node client.x client.y offset.width offset.height] }

/-- The closure `handleResize` of the element `node` on a `mousemove` at
`client`. -/
def handleResize (o : Overlay) (node : Nat) (startX startY startWidth startHeight : Rat)
    (client : Point) : Overlay :=
  let el := o.heap node
  if el.isResizing then
    let el := { el with currentWidth := some (startWidth + (client.x - startX)),
                        currentHeight := some (startHeight + (client.y - startY)) }
    { o with heap := Function.update o.heap node el,
             frameQueue := o.frameQueue.filter (fun c => c ≠ FrameCallback.resize node)
                             ++ [FrameCallback.resize node] }
  else o

/-- The closure `handleResizeEnd` of the element `node`. -/
def handleResizeEnd (o : Overlay) (node : Nat) (startX startY startWidth startHeight : Rat) :
    Overlay :=
  let el := o.heap node
  let el := { el with isResizing := false, willChange := "auto" }
  let o1 := { o with heap := Function.update o.heap node el,
                     frameQueue := o.frameQueue.filter (fun c => c ≠ FrameCallback.resize node) }
  let o2 := saveLayout o1
  { o2 with resizeHandle := none,
            docListeners := o2.docListeners.erase
              (Listener.resize node startX startY startWidth startHeight) }

/-- The move handler of one registered pair, called for a `mousemove` at
`client`. -/
def moveHandler (client : Point) (o : Overlay) (l : Listener) : Overlay :=
  match l with
  | Listener.drag node => handleDrag o node client
  | Listener.resize node sx sy sw sh => handleResize o node sx sy sw sh client

/-- The end handler of one registered pair. -/
def endHandler (o : Overlay) (l : Listener) : Overlay :=
  match l with
  | Listener.drag node => handleDragEnd o node
  | Listener.resize node sx sy sw sh => handleResizeEnd o node sx sy sw sh

/-- A `mousemove` on the document at `client`: every registered move handler
runs, in registration order. -/
def mouseMove (o : Overlay) (client : Point) : Overlay :=
  o.docListeners.foldl (moveHandler client) o

/-- A `mouseup` on the document: every end handler registered when the event
is dispatched runs, in registration order. -/
def mouseUp (o : Overlay) : Overlay :=
  o.docListeners.foldl endHandler o

/-- One animation-frame callback: the drag callback writes `currentX`,
`currentY` to `style.left`, `style.top`; the resize callback writes the
clamped `currentWidth`, `currentHeight` to `style.width`, `style.height`. -/
def runFrameCallback (o : Overlay) (c : FrameCallback) : Overlay :=
  match c with
  | FrameCallback.drag node =>
    let el := o.heap node
    let el := match el.currentX with
      | some x => { el with left := x }
      | none => el
    let el := match el.currentY with
      | some y => { el with top := y }
      | none => el
    { o with heap := Function.update o.heap node el }
  | FrameCallback.resize node =>
    let el := o.heap node
    let el := match el.currentWidth with
      | some w => { el with width := max 200 w }
      | none => el
    let el := match el.currentHeight with
      | some h => { el with height := max 150 h }
      | none => el
    { o with heap := Function.update o.heap node el }

/-- An animation frame: the queued callbacks run in order and the queue is
emptied. -/
def animationFrame (o : Overlay) : Overlay :=
  { o.frameQueue.foldl runFrameCallback o with frameQueue := [] }

/-- What a window shows: its type, the inline geometry of its element and the
two flags. -/
structure WindowView where
  type : String
  left : Rat
  top : Rat
  width : Rat
  height : Rat
  minimized : Bool
  maximized : Bool
  deriving DecidableEq, Repr

/-- The view of the window `w` of the overlay `o`. -/
def viewOf (o : Overlay) (w : Window) : WindowView :=
  let el := o.heap w.element
  { type := w.type, left := el.left, top := el.top, width := el.width,
    height := el.height, minimized := el.minimized, maximized := el.maximized }

/-- A view with its geometry truncated toward zero to whole pixels. -/
def WindowView.truncated (v : WindowView) : WindowView :=
  { v with left := parseInt v.left, top := parseInt v.top,
           width := parseInt v.width, height := parseInt v.height }

/-- The view a window record describes. -/
def WindowRecord.view (r : WindowRecord) : WindowView :=
  { type := r.type, left := r.position.x, top := r.position.y,
    width := r.size.width, height := r.size.height,
    minimized := r.minimized, maximized := r.maximized }

/-- The view of the window `applyLayout` restores from a record: a negative
width or height is not accepted by the style, and the window keeps the 400 by
300 of `createWindow` in that dimension. -/
def WindowRecord.restoredView (r : WindowRecord) : WindowView :=
  { type := r.type, left := r.position.x, top := r.position.y,
    width := if 0 ≤ r.size.width then r.size.width else 400,
    height := if 0 ≤ r.size.height then r.size.height else 300,
    minimized := r.minimized, maximized := r.maximized }

/-- The geometry of a view is in whole pixels, each of magnitude below `1e21`
(an integer that the style writes in plain decimal notation). -/
def WindowView.wholePixels (v : WindowView) : Prop :=
  (∃ n : Int, v.left = n ∧ |n| < 10 ^ 21) ∧ (∃ n : Int, v.top = n ∧ |n| < 10 ^ 21)
    ∧ (∃ n : Int, v.width = n ∧ |n| < 10 ^ 21) ∧ (∃ n : Int, v.height = n ∧ |n| < 10 ^ 21)

/-- The views of all windows of an overlay, in registry order. -/
def Overlay.views (o : Overlay) : List WindowView :=
  o.windows.map (viewOf o)

/-- The element `n` carries the position computed for a pointer at `client`
and its drag callback is queued. -/
def DragComputed (client : Point) (n : Nat) (o : Overlay) : Prop :=
  (o.heap n).currentX = some (client.x - o.dragOffset.x)
    ∧ (o.heap n).currentY = some (client.y - o.dragOffset.y)
    ∧ FrameCallback.drag n ∈ o.frameQueue

/-! ## overlay.js: closing, panes, window controls -/

/-- The method `closeWindow(windowId)`: `findIndex` by id, then `splice` and
`saveLayout` when an index was found. -/
def closeWindow (o : Overlay) (windowId : String) : Overlay :=
  match o.windows.findIdx? (fun w => decide (w.id = windowId)) with
  | some index => saveLayout { o with windows := o.windows.eraseIdx index }
  | none => o

/-- The method `splitPane(direction)`, with the license manager the overlay
holds; the new pane is labelled `Pane n` for `n` one more than the panes held. -/
def splitPane (lm : LicenseManager) (stored : Option String) (o : Overlay)
    (direction : String) : Overlay :=
  if canAddPane lm stored o.panes.length then
    saveLayout { o with panes := o.panes ++ [⟨o.panes.length + 1, direction⟩] }
  else
    showUpgradePrompt o

/-- Calling `splitPane` once per direction of the list, each call resolved
before the next is made. -/
def splitPanes (lm : LicenseManager) (stored : Option String) (o : Overlay) :
    List String → Overlay
  | [] => o
  | direction :: rest => splitPanes lm stored (splitPane lm stored o direction) rest

/-- The `click` listener `setupWindowControls` puts on the minimize button of
the element `node`. -/
def minimizeClick (o : Overlay) (node : Nat) : Overlay :=
  let el := o.heap node
  saveLayout
    { o with heap := Function.update o.heap node ({ el with minimized := !el.minimized }) }

/-- The `click` listener `setupWindowControls` puts on the maximize button of
the element `node`. -/
def maximizeClick (o : Overlay) (node : Nat) : Overlay :=
  let el := o.heap node
  saveLayout
    { o with heap := Function.update o.heap node ({ el with maximized := !el.maximized }) }

/-- The `click` listener `setupWindowControls` puts on the close button of the
element `node`. -/
def closeClick (o : Overlay) (node : Nat) : Overlay :=
  closeWindow o (o.heap node).windowId

/-! ## Runs of registry operations -/

/-- The id `createWindow` builds from its draws. -/
def Entropy.windowId (e : Entropy) : String :=
  "window-" ++ toString e.now ++ "-" ++ e.idSuffix

/-- A call of one of the three methods that add windows to or remove windows
from the registry. -/
inductive RegistryOp
  | add (lm : LicenseManager) (stored : Option String) (type : String)
      (content : Option String) (e : Entropy)
  | close (windowId : String)
  | apply (layout : Option Layout) (ent : Nat → Entropy)

/-- The state after one operation. -/
def RegistryOp.run (o : Overlay) (op : RegistryOp) : Overlay :=
  match op with
  | RegistryOp.add lm stored type content e => (addWindow lm stored o type content e).2
  | RegistryOp.close windowId => closeWindow o windowId
  | RegistryOp.apply layout ent => applyLayout o layout ent

/-- The ids of the windows `createWindow` builds while the operation runs from
the state `o`, in creation order. -/
def RegistryOp.drawnIds (o : Overlay) (op : RegistryOp) : List String :=
  match op with
  | RegistryOp.add lm stored _ _ e =>
    if canAddWindow lm stored o.windows.length then [e.windowId] else []
  | RegistryOp.close _ => []
  | RegistryOp.apply layout ent =>
    match layout with
    | none => []
    | some l =>
      match l.windows with
      | none => []
      | some saved => (List.range saved.length).map (fun i => (ent i).windowId)

/-- The state after a sequence of operations. -/
def runOps (o : Overlay) : List RegistryOp → Overlay
  | [] => o
  | op :: ops => runOps (op.run o) ops

/-- The ids of all windows created during a sequence of operations from the
state `o`, in creation order. -/
def drawnAlong (o : Overlay) : List RegistryOp → List String
  | [] => []
  | op :: ops => op.drawnIds o ++ drawnAlong (op.run o) ops

/-- Every window of the registry stands on an element that has been created:
its handle is below the next handle to be given out. -/
def Overlay.ElementsAllocated (o : Overlay) : Prop :=
  ∀ w ∈ o.windows, w.element < o.nextNode

/-! ## overlay.js: calls made back to back -/

/-- An `addWindow` call that has been made and waits at its `await`: the
arguments of the call and the answer of the gate, which was asked with the
number of windows held when the call was made. -/
structure PendingAdd where
  canAdd : Bool
  type : String
  content : Option String
  deriving DecidableEq, Repr

/-- The part of `addWindow` in front of its `await`, run when the call is
made: `this.windows.length` is read and handed to `canAddWindow`. -/
def addWindowStart (lm : LicenseManager) (stored : Option String) (o : Overlay)
    (type : String) (content : Option String) : PendingAdd :=
  ⟨canAddWindow lm stored o.windows.length, type, content⟩

/-- The part of `addWindow` behind its `await`, run in the state `o` the
overlay is in when the call resumes. -/
def addWindowResume (o : Overlay) (p : PendingAdd) (e : Entropy) : Option Window × Overlay :=
  if p.canAdd then
    let created := createWindow o p.type p.content e
    let win := created.1
    let o1 := created.2
    let o2 := { o1 with windows := o1.windows ++ [win] }
    (some win, saveLayout o2)
  else
    (none, showUpgradePrompt o)

/-- Calls of `addWindow` made one right after the other, none awaited before
the next is made (two `click` events dispatched in one task, or a caller that
does not `await`): every call reads the count and asks the gate in the state
`o`, and the calls then resume in the order they were made. -/
def addWindowsBackToBack (lm : LicenseManager) (stored : Option String) (o : Overlay)
    (calls : List (String × Option String × Entropy)) : Overlay :=
  (calls.map (fun c => (addWindowStart lm stored o c.1 c.2.1, c.2.2))).foldl
    (fun o1 p => (addWindowResume o1 p.1 p.2).2) o

/-- The part of `splitPane` in front of its `await`: `this.panes.length` is
read and handed to `canAddPane`; the value is the answer of the gate. -/
def splitPaneStart (lm : LicenseManager) (stored : Option String) (o : Overlay) : Bool :=
  canAddPane lm stored o.panes.length

/-- The part of `splitPane` behind its `await`, run in the state `o` the
overlay is in when the call resumes. -/
def splitPaneResume (o : Overlay) (canAdd : Bool) (direction : String) : Overlay :=
  if canAdd then
    saveLayout { o with panes := o.panes ++ [⟨o.panes.length + 1, direction⟩] }
  else
    showUpgradePrompt o

/-- Calls of `splitPane` made one right after the other, none awaited before
the next is made: every call asks the gate in the state `o`, and the calls
then resume in the order they were made. -/
def splitPanesBackToBack (lm : LicenseManager) (stored : Option String) (o : Overlay)
    (directions : List String) : Overlay :=
  (directions.map (fun d => (splitPaneStart lm stored o, d))).foldl
    (fun o1 p => splitPaneResume o1 p.1 p.2) o

/-! ## Sessions: registry calls and pointer events -/

/-- One event of a session on the overlay: a registry call, a `mousedown` on a
window header or on a resize handle, a `mousemove` or `mouseup` on the
document, an animation frame, or a click on a minimize or maximize control. -/
inductive SessionEvent
  | registry (op : RegistryOp)
  | headerDown (node : Nat) (onButton : Bool) (client rect : Point)
  | resizeDown (node : Nat) (client : Point) (offset : Size)
  | move (client : Point)
  | up
  | frame
  | minimize (node : Nat)
  | maximize (node : Nat)

/-- The state after one event. -/
def SessionEvent.run (o : Overlay) (ev : SessionEvent) : Overlay :=
  match ev with
  | SessionEvent.registry op => op.run o
  | SessionEvent.headerDown node onButton client rect =>
    headerMouseDown o node onButton client rect
  | SessionEvent.resizeDown node client offset => resizeMouseDown o node client offset
  | SessionEvent.move client => mouseMove o client
  | SessionEvent.up => mouseUp o
  | SessionEvent.frame => animationFrame o
  | SessionEvent.minimize node => minimizeClick o node
  | SessionEvent.maximize node => maximizeClick o node

/-- The state after a sequence of events. -/
def runSession (o : Overlay) (events : List SessionEvent) : Overlay :=
  events.foldl SessionEvent.run o

/-- Every window of the registry stands on a created element whose inline size
is at least 200 by 150. -/
def Overlay.MinSized (o : Overlay) : Prop :=
  ∀ w ∈ o.windows, w.element < o.nextNode
    ∧ 200 ≤ (o.heap w.element).width ∧ 150 ≤ (o.heap w.element).height

/-- Every window of the registry stands on a created element whose inline
width and height are not negative. -/
def Overlay.SizesValid (o : Overlay) : Prop :=
  ∀ w ∈ o.windows, w.element < o.nextNode
    ∧ 0 ≤ (o.heap w.element).width ∧ 0 ≤ (o.heap w.element).height

/-- The records of a snapshot all have a size of at least 200 by 150. -/
def Layout.MinSized (l : Layout) : Prop :=
  ∀ r ∈ l.windows.getD [], 200 ≤ r.size.width ∧ 150 ≤ r.size.height

/-- The event restores no snapshot with a record below 200 by 150. -/
def SessionEvent.RestoresMinSized (ev : SessionEvent) : Prop :=
  match ev with
  | SessionEvent.registry (RegistryOp.apply (some l) _) => l.MinSized
  | _ => True

/-! ## license.js: initialization, change notifications, license keys -/

/-- The method `initialize`, up to the registration of the change listener:
the tier it caches over a store whose `license` value is `stored`. -/
def licenseInit (stored : Option String) : LicenseManager :=
  ⟨some (getCurrentTier stored)⟩

/-- The entry `changes.license` of a `chrome.storage.onChanged` notification;
a value that is not there is `none`. -/
structure StorageChange where
  oldValue : Option String
  newValue : Option String
  deriving DecidableEq, Repr

/-- The `chrome.storage.onChanged` listener that `initialize` registers.
`licenseChange` is `changes.license` (`none` when the notification has no such
key). The result is the manager afterwards and the tiers carried by the
`tabverse-license-changed` events the listener dispatches, in order. -/
def onStorageChanged (lm : LicenseManager) (licenseChange : Option StorageChange)
    (areaName : String) : LicenseManager × List String :=
  if areaName = "sync" then
    match licenseChange with
    | some change =>
      let tier := orElse change.newValue "free"
      (⟨some tier⟩, [tier])
    | none => (lm, [])
  else (lm, [])

/-- What `verifyLicenseKey` resolves to: `{ success: true, tier }` or
`{ success: false, error }`. -/
inductive VerifyResult
  | success (tier : String)
  | failure (error : String)
  deriving DecidableEq, Repr

/-- The method `upgradeToPremium`: the manager and the stored `license` value
once the `chrome.storage.sync.set` callback has run. -/
def upgradeToPremium (_lm : LicenseManager) (_stored : Option String) :
    LicenseManager × Option String :=
  (⟨some "premium"⟩, some "premium")

/-- The method `verifyLicenseKey(key)`: what it resolves to, the manager and the
stored `license` value afterwards. -/
def verifyLicenseKey (lm : LicenseManager) (stored : Option String) (key : String) :
    VerifyResult × LicenseManager × Option String :=
  if key = "TABVERSE-PREMIUM-DEMO" then
    (VerifyResult.success "premium", upgradeToPremium lm stored)
  else
    (VerifyResult.failure "Invalid license key", lm, stored)

/-! ## overlay.js: the end of a widget load -/

/-- The rest of `loadWidget` once its `import` has settled, for the request
made for the element `node`. `attempt` is how the `try` block ends:
`Except.ok` when the module was imported and the widget constructed and
rendered into the content of the element, `Except.error` with the error
thrown otherwise, in which case the `catch` block writes the placeholder. The
result is how the promise of `loadWidget` settles: `Except.ok` is resolved,
`Except.error` rejected. -/
def loadWidgetSettle (o : Overlay) (node : Nat) (type : String)
    (attempt : Except String Unit) : Except String Overlay :=
  let el := o.heap node
  match attempt with
  | Except.ok _ =>
    let el := { el with content := Content.widget type }
    Except.ok { o with heap := Function.update o.heap node el }
  | Except.error _ =>
    let el := { el with content := Content.widgetError type }
    Except.ok { o with heap := Function.update o.heap node el }

/-- The pending loads settling one after the other, in the order of
`settled`; `attempt node` is how the load for the element `node` ends. A
rejected `loadWidget` would leave the overlay as it is. -/
def settleLoads (o : Overlay) : List (Nat × String) → (Nat → Except String Unit) → Overlay
  | [], _ => o
  | (node, type) :: settled, attempt =>
    match loadWidgetSettle o node type (attempt node) with
    | Except.ok o1 => settleLoads o1 settled attempt
    | Except.error _ => settleLoads o settled attempt

/-- What the content of a window shows once the loads have settled. -/
def settledContent (type : String) (attempt : Except String Unit) : Content :=
  if type = "empty" then Content.emptyWindow
  else match attempt with
    | Except.ok _ => Content.widget type
    | Except.error _ => Content.widgetError type

/-! ## background.js: the stored layouts -/

/-- The stored `layouts` object: its own properties, one per domain. -/
abbrev LayoutsMap := List (String × Layout)

/-- Setting the own property `key` of a layouts object: the value of an
existing property is replaced, a new property is added at the end. -/
def LayoutsMap.setOwn : LayoutsMap → String → Layout → LayoutsMap
  | [], key, value => [(key, value)]
  | (k, v) :: rest, key, value =>
    if k = key then (key, value) :: rest
    else (k, v) :: LayoutsMap.setOwn rest key value

/-- The assignment `layouts[key] = value` on a plain object. The name
`__proto__` is the accessor inherited from `Object.prototype`: assigning to it
replaces the prototype of the object and creates no own property, so what is
stored afterwards has the same own properties as before. -/
def LayoutsMap.assign (layouts : LayoutsMap) (key : String) (value : Layout) : LayoutsMap :=
  if key = "__proto__" then layouts else layouts.setOwn key value

/-- The handler of the `saveLayout` message in background.js: from the value
`result.layouts` read from the store (`none` when there is none) and the
request's `domain` and `layout`, the value it writes back under `layouts`. -/
def handleSaveLayout (stored : Option LayoutsMap) (domain : String) (layout : Layout) :
    LayoutsMap :=
  let layouts : LayoutsMap := stored.getD []
  layouts.assign domain layout

/-! ## ai.js: requests -/

/-- A JavaScript value as far as the assistant tells values apart: `undefined`,
`null`, a boolean, a number, a string, or an object (an array included). -/
inductive JsonValue
  | undefined
  | null
  | bool (b : Bool)
  | num (q : Rat)
  | str (s : String)
  | object
  deriving DecidableEq, Repr

/-- Truthiness of a value. -/
def JsonValue.truthy (v : JsonValue) : Bool :=
  match v with
  | JsonValue.bool b => b
  | JsonValue.num q => decide (q ≠ 0)
  | JsonValue.str s => decide (s ≠ "")
  | JsonValue.object => true
  | JsonValue.undefined => false
  | JsonValue.null => false

/-- The fields of `this.settings` of the assistant; `enabled` and `useAPI` are
the truthiness of the stored values. -/
structure AISettings where
  enabled : Bool
  useAPI : Bool
  apiKey : String
  promptStyle : String
  deriving DecidableEq, Repr

/-- The parsed response body as far as `processWithAPI` reads it: either
`data.choices` cannot be indexed (it is `undefined` or `null`, or `data` is
`null`), or it can, given by the value of `?.message?.content` for each entry
(`undefined` where the chain ends early). -/
inductive ApiData
  | noChoices
  | choices (contents : List JsonValue)
  deriving DecidableEq, Repr

/-- How the `fetch` of `processWithAPI` ends: the promise rejects, or it
resolves to a response with its `ok` flag and its body (`none` when
`response.json()` rejects). -/
inductive FetchOutcome
  | networkError
  | response (ok : Bool) (body : Option ApiData)
  deriving DecidableEq, Repr

/-- What `processLocally` takes from the engine and the page: the built-ins
`String.prototype.toLowerCase` and `Number.prototype.toLocaleString`, the
array of trimmed sentences that the scoring of `summarizePage` selects from a
text (at most three; `match`, `split`, `sort`, `slice`, `map` and `trim` give
an array of strings for every string), the number of `a` elements of the
document, and the `h1`, `h2` and `h3` elements of the document in document
order, each with its tag name and its trimmed `textContent`. -/
structure PageEnv where
  toLowerCase : String → String
  toLocaleString : Nat → String
  topSentences : String → List String
  linkCount : Nat
  headings : List (String × String)

/-- The call `s.includes(needle)`. -/
def includes (s needle : String) : Bool :=
  decide (needle.toList <:+: s.toList)

/-- The characters the pattern `\s` matches. -/
def jsWhitespace (c : Char) : Bool :=
  let n := c.toNat
  (9 ≤ n && n ≤ 13) || n = 32 || n = 160 || n = 5760 || (8192 ≤ n && n ≤ 8202)
    || n = 8232 || n = 8233 || n = 8239 || n = 8287 || n = 12288 || n = 65279

/-- The number of maximal runs of whitespace in a text; `inRun` tells whether
the character before was whitespace. -/
def whitespaceRuns : List Char → Bool → Nat
  | [], _ => 0
  | c :: cs, inRun =>
    if jsWhitespace c then (if inRun then 0 else 1) + whitespaceRuns cs true
    else whitespaceRuns cs false

/-- The value `pageText.split(/\s+/).length`: one more than the number of
separators found. -/
def splitWhitespaceLength (pageText : String) : Nat :=
  whitespaceRuns pageText.toList false + 1

/-- The method `summarizePage`, from the sentences its scoring selects. -/
def summarizePage (env : PageEnv) (pageText : String) : String :=
  let topSentences := env.topSentences pageText
  if topSentences.length = 0 then
    "This page appears to have minimal text content."
  else
    "Summary: " ++ " ".intercalate topSentences

/-- The method `extractKeyPoints`. -/
def extractKeyPoints (env : PageEnv) : String :=
  let headings := ((env.headings.map Prod.snd).filter (fun text => text ≠ "")).take 5
  if headings.length = 0 then
    "No clear headings found on this page."
  else
    "Key points:\n"
      ++ "\n".intercalate (headings.enum.map (fun p => toString (p.1 + 1) ++ ". " ++ p.2))

/-- The method `extractHeadings`. -/
def extractHeadings (env : PageEnv) : String :=
  let headings : List (String × List String) :=
    ["h1", "h2", "h3"].filterMap (fun tag =>
      let elements := (env.headings.filter (fun h => h.1 = tag)).map Prod.snd
      if elements.length > 0 then some (tag, elements.take 5) else none)
  if headings.length = 0 then
    "No headings found on this page."
  else
    headings.foldl
      (fun result entry =>
        entry.2.foldl (fun result text => result ++ "- " ++ text ++ "\n")
          (result ++ "\n" ++ entry.1.toUpper ++ ":\n"))
      "Page structure:\n"

/-- The method `generateGenericResponse`; `draw` is the value of
`Math.random()`. The result is `undefined` when the index is outside the
array. -/
def generateGenericResponse (message : String) (draw : Rat) : JsonValue :=
  let responses : List String :=
    ["I analyzed your question about \"" ++ message
        ++ "\". For more advanced AI responses, consider upgrading to Premium and "
        ++ "connecting your OpenAI API key in settings.",
     "I can help with basic page analysis locally. For detailed answers, enable the AI "
        ++ "API in settings.",
     "Based on this page's content, I'd need more context. Try asking me to "
        ++ "\"summarize this page\" or \"extract key points\"."]
  let index : Int := ⌊roundDouble (draw * responses.length)⌋
  if 0 ≤ index then
    match responses.get? index.toNat with
    | some response => JsonValue.str response
    | none => JsonValue.undefined
  else JsonValue.undefined

/-- The method `processLocally(message, pageText)`: the value it returns, or
the message of the `TypeError` it throws when `message`, or in the two
branches that read it `pageText`, is not a string. -/
def processLocally (env : PageEnv) (draw : Rat) (message pageText : JsonValue) :
    Except String JsonValue :=
  match message with
  | JsonValue.str m =>
    let lowerMessage := env.toLowerCase m
    if includes lowerMessage "summarize" || includes lowerMessage "summary" then
      match pageText with
      | JsonValue.str text => Except.ok (JsonValue.str (summarizePage env text))
      | _ => Except.error "TypeError: pageText.toLowerCase is not a function"
    else if includes lowerMessage "key points" || includes lowerMessage "main points" then
      Except.ok (JsonValue.str (extractKeyPoints env))
    else if includes lowerMessage "word count" || includes lowerMessage "how many words" then
      match pageText with
      | JsonValue.str text =>
        Except.ok (JsonValue.str ("This page contains approximately "
          ++ env.toLocaleString (splitWhitespaceLength text) ++ " words."))
      | _ => Except.error "TypeError: pageText.split is not a function"
    else if includes lowerMessage "links" || includes lowerMessage "how many links" then
      Except.ok (JsonValue.str ("This page has " ++ toString env.linkCount ++ " links."))
    else if includes lowerMessage "headings" || includes lowerMessage "sections" then
      Except.ok (JsonValue.str (extractHeadings env))
    else
      Except.ok (generateGenericResponse m draw)
  | _ => Except.error "TypeError: message.toLowerCase is not a function"

/-- The `try` block of `processWithAPI`: the value it returns, or the message
of the error thrown inside it. The request body is built first, and
`pageText.substring` throws when `pageText` is not a string. -/
def callAPI (pageText : JsonValue) (outcome : FetchOutcome) : Except String JsonValue :=
  match pageText with
  | JsonValue.str _ =>
    match outcome with
    | FetchOutcome.networkError => Except.error "Failed to fetch"
    | FetchOutcome.response false _ => Except.error "API request failed"
    | FetchOutcome.response true none => Except.error "Unexpected end of JSON input"
    | FetchOutcome.response true (some ApiData.noChoices) =>
      Except.error "Cannot read properties of undefined (reading '0')"
    | FetchOutcome.response true (some (ApiData.choices contents)) =>
      let content := contents.head?.getD JsonValue.undefined
      Except.ok (if content.truthy then content else JsonValue.str "No response from API")
  | _ => Except.error "TypeError: pageText.substring is not a function"

/-- The method `processWithAPI`: `Except.ok` is the value the promise resolves
to, `Except.error` a rejection. -/
def processWithAPI (pageText : JsonValue) (outcome : FetchOutcome) :
    Except String JsonValue :=
  match callAPI pageText outcome with
  | Except.ok answer => Except.ok answer
  | Except.error _ =>
    Except.ok (JsonValue.str "Failed to connect to AI API. Check your API key in settings.")

/-- The method `processRequest(message, pageText)`: `Except.ok` is the value
the promise resolves to, `Except.error` a rejection. `outcome` is how the
remote call ends if one is made, `draw` the value of `Math.random()` if one is
drawn. -/
def processRequest (settings : AISettings) (env : PageEnv) (draw : Rat)
    (outcome : FetchOutcome) (message pageText : JsonValue) : Except String JsonValue :=
  if !settings.enabled then
    Except.ok (JsonValue.str "AI Assistant is disabled. Enable it in settings.")
  else if settings.useAPI && decide (settings.apiKey ≠ "") then
    processWithAPI pageText outcome
  else
    processLocally env draw message pageText

/-! ## Concrete inputs -/

/-- Four `addWindow` calls (a clock twice, a to-do list, a default window). -/
def fourCalls : List (String × Option String × Entropy) :=
  [("clock", none, ⟨1700000000000, "k3j9x0a1b", 1/2, 1/4⟩),
   ("todo", none, ⟨1700000000500, "p0q8w7e6r", 1/3, 2/3⟩),
   ("empty", none, ⟨1700000001000, "z1x2c3v4b", 0, 0⟩),
   ("clock", none, ⟨1700000001500, "m5n6b7v8c", 9/10, 1/10⟩)]

/-- An overlay holding three windows: the constructor's overlay after the
first three of `fourCalls` under tier `'free'`. -/
def threeWindows : Overlay :=
  addWindows ⟨some "free"⟩ none Overlay.fresh (fourCalls.take 3)

/-- One clock window whose `Math.random()` draw for `x` was the double nearest
to `0.0025`, so that `style.left` is `100.75px`. -/
def fractionalWindow : Overlay :=
  (addWindow ⟨some "free"⟩ none Overlay.fresh "clock" none
    ⟨1700000000000, "k3j9x0a1b", 5764607523034235 / 2 ^ 61, 0⟩).2

/-- One clock window whose draws put it at `(250, 150)`. -/
def wholePixelWindow : Overlay :=
  (addWindow ⟨some "free"⟩ none Overlay.fresh "clock" none
    ⟨1700000000000, "k3j9x0a1b", 1/2, 1/4⟩).2

/-- A fixed stream of draws. -/
def constantDraws : Nat → Entropy :=
  fun _ => ⟨1700000002000, "a1s2d3f4g", 1/2, 1/2⟩

/-- The clock window of `wholePixelWindow` (at `(250, 150)`, 400 by 300) with
its resize handle pressed at `(645, 445)`. -/
def resizeStarted : Overlay :=
  resizeMouseDown wholePixelWindow 0 ⟨645, 445⟩ ⟨400, 300⟩

/-- The pointer of `resizeStarted` moved to `(345, 145)`: the size asked for is
100 by 0. -/
def resizeMoved : Overlay :=
  mouseMove resizeStarted ⟨345, 145⟩

/-- Two windows under tier `'free'`: a clock at `(250, 150)` with element 0 and
a to-do list at `(100, 200)` with element 1. -/
def twoWindows : Overlay :=
  addWindows ⟨some "free"⟩ none Overlay.fresh
    [("clock", none, ⟨1700000000000, "k3j9x0a1b", 1/2, 1/4⟩),
     ("todo", none, ⟨1700000000500, "p0q8w7e6r", 0, 1/2⟩)]

/-- The header of the clock window of `twoWindows` pressed at `(600, 160)`: the
drag offset is `(350, 10)`. -/
def clockPressed : Overlay :=
  headerMouseDown twoWindows 0 false ⟨600, 160⟩ ⟨250, 150⟩

/-- The pointer of `clockPressed` moved to `(300, 210)`, over the header of the
to-do window, and a frame painted: the clock window is mid-drag at
`(-50, 200)`. -/
def clockDragged : Overlay :=
  animationFrame (mouseMove clockPressed ⟨300, 210⟩)

/-- The header of the to-do window pressed at `(300, 210)` while the clock
window of `clockDragged` is still being dragged. -/
def bothPressed : Overlay :=
  headerMouseDown clockDragged 1 false ⟨300, 210⟩ ⟨100, 200⟩

/-- The pointer of `clockPressed` moved to `(495, 495)`, over the resize handle
of the to-do window, and a frame painted: the clock window is mid-drag. -/
def clockOverHandle : Overlay :=
  animationFrame (mouseMove clockPressed ⟨495, 495⟩)

/-- The resize handle of the to-do window (400 by 300) pressed at `(495, 495)`
while the clock window of `clockOverHandle` is still being dragged. -/
def dragAndResize : Overlay :=
  resizeMouseDown clockOverHandle 1 ⟨495, 495⟩ ⟨400, 300⟩

/-- The header of the clock window of `wholePixelWindow` (at `(250, 150)`)
pressed at `(260, 160)`: the drag offset is `(10, 10)`. -/
def dragStarted : Overlay :=
  headerMouseDown wholePixelWindow 0 false ⟨260, 160⟩ ⟨250, 150⟩

/-- The pointer of `dragStarted` moved to `(360, 210)`: the position computed
is `(350, 200)`. -/
def dragMoved : Overlay :=
  mouseMove dragStarted ⟨360, 210⟩

/-- Two window records of whole-pixel geometry: a minimized to-do list and a
maximized clock. -/
def todoClockRecords : List WindowRecord :=
  [⟨"window-1-a", "todo", ⟨120, 80⟩, ⟨500, 350⟩, true, false⟩,
   ⟨"window-2-b", "clock", ⟨-30, 40⟩, ⟨220, 160⟩, false, true⟩]

/-- Draws in which `Date.now()` and the id suffix come out the same for every
window (the position draws differ). -/
def collidingDraws : Nat → Entropy :=
  fun i => ⟨1700000002000, "a1s2d3f4g", if i = 0 then 1/4 else 3/4, 1/2⟩

/-- Two admitted `addWindow` calls under tier `'free'`, then the closing of the
first window. -/
def addAddClose : List RegistryOp :=
  [RegistryOp.add ⟨some "free"⟩ none "clock" none ⟨1700000000000, "k3j9x0a1b", 1/2, 1/4⟩,
   RegistryOp.add ⟨some "free"⟩ none "todo" none ⟨1700000000500, "p0q8w7e6r", 0, 1/2⟩,
   RegistryOp.close "window-1700000000000-k3j9x0a1b"]

/-- Four window records, all clocks of 400 by 300 at the origin side by side. -/
def fourRecords : List WindowRecord :=
  [⟨"window-1-a", "clock", ⟨0, 0⟩, ⟨400, 300⟩, false, false⟩,
   ⟨"window-2-b", "clock", ⟨400, 0⟩, ⟨400, 300⟩, false, false⟩,
   ⟨"window-3-c", "clock", ⟨800, 0⟩, ⟨400, 300⟩, false, false⟩,
   ⟨"window-4-d", "clock", ⟨1200, 0⟩, ⟨400, 300⟩, false, false⟩]

/-- A layout of one clock window and no panes. -/
def clockLayout : Layout :=
  ⟨some [⟨"window-1-a", "clock", ⟨250, 150⟩, ⟨400, 300⟩, false, false⟩], []⟩

/-- A stored layouts object with snapshots for two domains. -/
def storedLayouts : LayoutsMap :=
  [("example.com", ⟨some [], []⟩), ("news.example.org", ⟨some fourRecords, []⟩)]

/-- Settings with the assistant enabled and the remote interface in use. -/
def remoteSettings : AISettings := ⟨true, true, "sk-demo", "helpful"⟩

/-- A snapshot of a clock, a widget type `stocks`, an empty window and a todo
list. -/
def mixedRecords : List WindowRecord :=
  [⟨"window-1-a", "clock", ⟨0, 0⟩, ⟨400, 300⟩, false, false⟩,
   ⟨"window-2-b", "stocks", ⟨400, 0⟩, ⟨320, 240⟩, true, false⟩,
   ⟨"window-3-c", "empty", ⟨800, 0⟩, ⟨400, 300⟩, false, false⟩,
   ⟨"window-4-d", "todo", ⟨0, 300⟩, ⟨400, 300⟩, false, true⟩]

/-- Loads in which the module for element 1 cannot be imported. -/
def stocksFails (node : Nat) : Except String Unit :=
  if node = 1 then Except.error "Failed to fetch dynamically imported module" else Except.ok ()

/-- A snapshot with one clock window of 120 by 80. -/
def smallLayout : Layout :=
  ⟨some [⟨"window-1-a", "clock", ⟨100, 100⟩, ⟨120, 80⟩, false, false⟩], []⟩

/-- A session: a window is added, resized by its handle far below the minimum
with a frame before the release, and a snapshot of whole clocks is restored. -/
def resizeSession : List SessionEvent :=
  [SessionEvent.registry (RegistryOp.add ⟨some "free"⟩ (some "free") "clock" none
     ⟨1700000000000, "k3j9x0a1b", 1/2, 1/4⟩),
   SessionEvent.resizeDown 0 ⟨645, 445⟩ ⟨400, 300⟩,
   SessionEvent.move ⟨100, 100⟩,
   SessionEvent.frame,
   SessionEvent.up,
   SessionEvent.registry (RegistryOp.apply (some ⟨some fourRecords, []⟩) constantDraws)]

/-- A snapshot of one clock record with the integer width `-5`. -/
def negativeWidthRecords : List WindowRecord :=
  [⟨"window-1-a", "clock", ⟨10, 20⟩, ⟨-5, 300⟩, false, false⟩]

/-- A snapshot of one clock record at the integer `x = 1e21`. -/
def farRecords : List WindowRecord :=
  [⟨"window-1-a", "clock", ⟨10 ^ 21, 20⟩, ⟨400, 300⟩, false, false⟩]

/-- Two `addWindow` calls. -/
def twoCalls : List (String × Option String × Entropy) :=
  [("empty", none, ⟨1700000001000, "z1x2c3v4b", 0, 0⟩),
   ("clock", none, ⟨1700000001500, "m5n6b7v8c", 1/4, 1/8⟩)]

/-- Settings with the assistant enabled and the remote interface off. -/
def localSettings : AISettings := ⟨true, false, "", "concise"⟩

/-- A page with three links, a title and two section headings, in an engine
whose built-ins are the ASCII ones. -/
def samplePage : PageEnv :=
  { toLowerCase := String.toLower,
    toLocaleString := toString,
    topSentences := fun _ => ["TabVerse adds floating windows to every page."],
    linkCount := 3,
    headings := [("h1", "TabVerse"), ("h2", "Install"), ("h2", "Usage")] }

/-! ## The license gate -/

theorem getTierLimits_free (lm : LicenseManager) (stored : Option String) :
    getTierLimits lm stored (some "free") = tiersFree := by
  simp [getTierLimits, tiersLookup]

theorem getTierLimits_premium (lm : LicenseManager) (stored : Option String) :
    getTierLimits lm stored (some "premium") = tiersPremium := by
  simp [getTierLimits, tiersLookup]

theorem getTierLimits_cached_free (stored tier : Option String)
    (h : tier = none ∨ tier = some "" ∨ tier = some "free") :
    getTierLimits ⟨some "free"⟩ stored tier = tiersFree := by
  rcases h with h | h | h <;> subst h <;> simp [getTierLimits, tiersLookup, orElse]

theorem getTierLimits_cached_premium (stored tier : Option String)
    (h : tier = none ∨ tier = some "" ∨ tier = some "premium") :
    getTierLimits ⟨some "premium"⟩ stored tier = tiersPremium := by
  rcases h with h | h | h <;> subst h <;> simp [getTierLimits, tiersLookup, orElse]

theorem canAddWindow_free (stored : Option String) (n : Nat) :
    canAddWindow ⟨some "free"⟩ stored n = decide (n < 3) := by
  simp [canAddWindow, getTierLimits_free, tiersFree, JSObject.get, List.lookup, JSVal.gtNat]

theorem canAddWindow_premium (stored : Option String) (n : Nat) :
    canAddWindow ⟨some "premium"⟩ stored n = true := by
  simp [canAddWindow, getTierLimits_premium, tiersPremium, JSObject.get, List.lookup,
    JSVal.gtNat]

/-- C3: `canAddWindow(n)` is the comparison `n < limits.maxWindows` against the
limits of the cached tier; with `'free'` cached it is true exactly when
`n < 3`, and with `'premium'` cached it is true for every `n`. -/
theorem canAddWindow_spec (lm : LicenseManager) (stored : Option String) (n : Nat) :
    canAddWindow lm stored n
        = ((getTierLimits lm stored lm.currentTier).get "maxWindows").gtNat n
      ∧ (canAddWindow ⟨some "free"⟩ stored n = true ↔ n < 3)
      ∧ (getTierLimits ⟨some "free"⟩ stored (some "free")).get "maxWindows" = JSVal.num 3
      ∧ canAddWindow ⟨some "premium"⟩ stored n = true
      ∧ (getTierLimits ⟨some "premium"⟩ stored (some "premium")).get "maxWindows"
          = JSVal.infinity := by
  refine ⟨rfl, ?_, ?_, canAddWindow_premium stored n, ?_⟩
  · simp [canAddWindow_free]
  · simp [getTierLimits_free, tiersFree, JSObject.get, List.lookup]
  · simp [getTierLimits_premium, tiersPremium, JSObject.get, List.lookup]

/-- C4: the tier table. The limits of `'free'` are `maxWindows = 3`,
`maxPanes = 1`, those of `'premium'` are `Infinity` for both, and each of the
flags `syncEnabled`, `aiEnabled`, `advancedCustomization` is reported disabled
with `'free'` cached and enabled with `'premium'` cached. -/
theorem tier_table (lm : LicenseManager) (stored : Option String) :
    ((getTierLimits lm stored (some "free")).get "maxWindows" = JSVal.num 3
      ∧ (getTierLimits lm stored (some "free")).get "maxPanes" = JSVal.num 1
      ∧ (getTierLimits lm stored (some "premium")).get "maxWindows" = JSVal.infinity
      ∧ (getTierLimits lm stored (some "premium")).get "maxPanes" = JSVal.infinity)
    ∧ (isFeatureEnabled ⟨some "free"⟩ stored "syncEnabled" = false
      ∧ isFeatureEnabled ⟨some "free"⟩ stored "aiEnabled" = false
      ∧ isFeatureEnabled ⟨some "free"⟩ stored "advancedCustomization" = false)
    ∧ (isFeatureEnabled ⟨some "premium"⟩ stored "syncEnabled" = true
      ∧ isFeatureEnabled ⟨some "premium"⟩ stored "aiEnabled" = true
      ∧ isFeatureEnabled ⟨some "premium"⟩ stored "advancedCustomization" = true) := by
  refine ⟨⟨?_, ?_, ?_, ?_⟩, ⟨?_, ?_, ?_⟩, ⟨?_, ?_, ?_⟩⟩ <;>
    simp [isFeatureEnabled, getTierLimits_free, getTierLimits_premium,
      getTierLimits_cached_free, getTierLimits_cached_premium,
      tiersFree, tiersPremium, JSObject.get, List.lookup]

/-! ## Rounding to a double -/

theorem roundHalfEven_intCast (n : Int) : roundHalfEven (n : Rat) = n := by
  simp [roundHalfEven]

theorem roundHalfEven_le (t : Rat) (b : Int) (h : t ≤ b) : roundHalfEven t ≤ b := by
  have hf : ⌊t⌋ ≤ b := Int.floor_le_floor h |>.trans (by simp)
  unfold roundHalfEven
  by_cases h1 : t - ⌊t⌋ < 1 / 2
  · rw [if_pos h1]; exact hf
  · have hlt : ⌊t⌋ < b := by
      rcases lt_or_eq_of_le hf with h2 | h2
      · exact h2
      · exfalso
        have : t - ⌊t⌋ ≤ 0 := by rw [h2]; linarith
        linarith
    rw [if_neg h1]
    split
    · omega
    · split <;> omega

theorem le_roundHalfEven (t : Rat) (a : Int) (h : (a : Rat) ≤ t) : a ≤ roundHalfEven t := by
  have hf : a ≤ ⌊t⌋ := Int.le_floor.mpr h
  unfold roundHalfEven
  split
  · exact hf
  · split
    · omega
    · split <;> omega

theorem ulpExponent_nonpos (x : Rat) (hx : |x| < 2 ^ 53) : ulpExponent x ≤ 0 := by
  unfold ulpExponent
  have hlog : Int.log 2 |x| < 53 := by
    by_cases h0 : x = 0
    · subst h0; simp [Int.log_of_right_le_zero]
    · have hpos : 0 < |x| := abs_pos.mpr h0
      rw [← Int.lt_zpow_iff_log_lt (by norm_num) hpos]
      norm_num
      exact hx
  omega

theorem roundDouble_bounds (x : Rat) (a b : Int) (hx : |x| < 2 ^ 53)
    (ha : (a : Rat) ≤ x) (hb : x ≤ b) :
    (a : Rat) ≤ roundDouble x ∧ roundDouble x ≤ b := by
  have hu := ulpExponent_nonpos x hx
  obtain ⟨k, hk⟩ : ∃ k : Nat, ulpExponent x = -(k : Int) := ⟨(-ulpExponent x).toNat, by omega⟩
  have hpow : (2 : Rat) ^ ulpExponent x = 1 / 2 ^ k := by
    rw [hk, zpow_neg, zpow_natCast, one_div]
  have hpos : (0 : Rat) < 2 ^ k := by positivity
  unfold roundDouble
  rw [hpow]
  have hdiv : x / (1 / 2 ^ k) = x * 2 ^ k := by field_simp
  rw [hdiv]
  have h1 : ((a * 2 ^ k : Int) : Rat) ≤ x * 2 ^ k := by
    push_cast
    exact mul_le_mul_of_nonneg_right ha hpos.le
  have h2 : x * 2 ^ k ≤ ((b * 2 ^ k : Int) : Rat) := by
    push_cast
    exact mul_le_mul_of_nonneg_right hb hpos.le
  have r1 := le_roundHalfEven _ _ h1
  have r2 := roundHalfEven_le _ _ h2
  have r1q : ((a * 2 ^ k : Int) : Rat) ≤ (roundHalfEven (x * 2 ^ k) : Rat) := by exact_mod_cast r1
  have r2q : (roundHalfEven (x * 2 ^ k) : Rat) ≤ ((b * 2 ^ k : Int) : Rat) := by exact_mod_cast r2
  push_cast at r1q r2q
  constructor
  · rw [mul_one_div, le_div_iff₀ hpos]; exact r1q
  · rw [mul_one_div, div_le_iff₀ hpos]; exact r2q

theorem ulpExponent_of_binade (x : Rat) (e : Int) (he : -1022 ≤ e)
    (h1 : (2 : Rat) ^ e ≤ |x|) (h2 : |x| < (2 : Rat) ^ (e + 1)) :
    ulpExponent x = e - 52 := by
  have hpos : 0 < |x| := lt_of_lt_of_le (zpow_pos (by norm_num) e) h1
  have hlog : Int.log 2 |x| = e := by
    have a1 : e ≤ Int.log 2 |x| := by
      rw [← Int.zpow_le_iff_le_log (by norm_num) hpos]
      simpa using h1
    have a2 : Int.log 2 |x| < e + 1 := by
      rw [← Int.lt_zpow_iff_log_lt (by norm_num) hpos]
      simpa using h2
    omega
  unfold ulpExponent
  rw [hlog, max_eq_left he]

theorem roundDouble_eval (x : Rat) (e n : Int) (he : -1022 ≤ e)
    (h1 : (2 : Rat) ^ e ≤ |x|) (h2 : |x| < (2 : Rat) ^ (e + 1))
    (hn : roundHalfEven (x / (2 : Rat) ^ (e - 52)) = n) :
    roundDouble x = n * (2 : Rat) ^ (e - 52) := by
  unfold roundDouble
  rw [ulpExponent_of_binade x e he h1 h2, hn]

theorem roundDouble_dyadic (m : Int) (k : Nat) (hm : |m| < 2 ^ 53) (hk : k ≤ 1074) :
    roundDouble ((m : Rat) / 2 ^ k) = (m : Rat) / 2 ^ k := by
  by_cases h0 : m = 0
  · subst h0
    simp [roundDouble, roundHalfEven]
  have hxpos : 0 < |(m : Rat) / 2 ^ k| := by
    apply abs_pos.mpr
    have : (m : Rat) ≠ 0 := by exact_mod_cast h0
    positivity
  have hlog : Int.log 2 |(m : Rat) / 2 ^ k| < 53 - k := by
    rw [← Int.lt_zpow_iff_log_lt (by norm_num) hxpos]
    have hmq : |(m : Rat)| < 2 ^ 53 := by exact_mod_cast hm
    rw [abs_div, abs_of_pos (show (0 : Rat) < 2 ^ k by positivity), div_lt_iff₀ (by positivity)]
    have : ((2 : Nat) : Rat) ^ ((53 : Int) - k) * 2 ^ k = 2 ^ 53 := by
      rw [Nat.cast_ofNat, ← zpow_natCast (2 : Rat) k, ← zpow_add₀ (by norm_num)]
      norm_num
    rw [this]
    exact hmq
  have hu : ulpExponent ((m : Rat) / 2 ^ k) + k ≤ 0 := by
    unfold ulpExponent
    omega
  obtain ⟨j, hj⟩ : ∃ j : Nat, ulpExponent ((m : Rat) / 2 ^ k) = -((j : Int) + k) :=
    ⟨(-(ulpExponent ((m : Rat) / 2 ^ k) + k)).toNat, by omega⟩
  unfold roundDouble
  rw [hj]
  have hpow : (2 : Rat) ^ (-((j : Int) + k)) = 1 / (2 ^ j * 2 ^ k) := by
    rw [zpow_neg, zpow_add₀ (by norm_num), zpow_natCast, zpow_natCast, one_div]
  rw [hpow]
  have hdiv : (m : Rat) / 2 ^ k / (1 / (2 ^ j * 2 ^ k)) = ((m * 2 ^ j : Int) : Rat) := by
    push_cast
    field_simp
    ring
  rw [hdiv, roundHalfEven_intCast]
  push_cast
  field_simp
  ring

theorem roundHalfEven_eval (t : Rat) (f : Int) (hf : ⌊t⌋ = f) :
    roundHalfEven t = if t - f < 1 / 2 then f
      else if 1 / 2 < t - f then f + 1 else if f % 2 = 0 then f else f + 1 := by
  unfold roundHalfEven
  rw [hf]

theorem roundDouble_zero : roundDouble 0 = 0 := by
  simp [roundDouble, roundHalfEven]

theorem roundDouble_50 : roundDouble 50 = 50 := by
  have := roundDouble_dyadic 50 0 (by norm_num) (by norm_num)
  norm_num at this
  exact this

theorem roundDouble_100 : roundDouble 100 = 100 := by
  have := roundDouble_dyadic 100 0 (by norm_num) (by norm_num)
  norm_num at this
  exact this

theorem roundDouble_150 : roundDouble 150 = 150 := by
  have := roundDouble_dyadic 150 0 (by norm_num) (by norm_num)
  norm_num at this
  exact this

theorem roundDouble_250 : roundDouble 250 = 250 := by
  have := roundDouble_dyadic 250 0 (by norm_num) (by norm_num)
  norm_num at this
  exact this

theorem roundDouble_three_quarters : roundDouble (3 / 4) = 3 / 4 := by
  have := roundDouble_dyadic 3 2 (by norm_num) (by norm_num)
  norm_num at this
  exact this

theorem roundDouble_403_quarters : roundDouble (403 / 4) = 403 / 4 := by
  have := roundDouble_dyadic 403 2 (by norm_num) (by norm_num)
  norm_num at this
  exact this

/-! ## Admission of windows -/

theorem addWindow_windows_length_le (stored : Option String) (o : Overlay)
    (type : String) (content : Option String) (e : Entropy)
    (h : o.windows.length ≤ 3) :
    (addWindow ⟨some "free"⟩ stored o type content e).2.windows.length ≤ 3 := by
  unfold addWindow
  rw [canAddWindow_free]
  by_cases hn : o.windows.length < 3
  · simp [hn, createWindow, saveLayout]
    omega
  · simp [hn, showUpgradePrompt]
    exact h

theorem addWindows_windows_length_le (stored : Option String)
    (calls : List (String × Option String × Entropy)) :
    ∀ o : Overlay, o.windows.length ≤ 3 →
      (addWindows ⟨some "free"⟩ stored o calls).windows.length ≤ 3 := by
  induction calls with
  | nil => intro o h; simpa [addWindows] using h
  | cons c calls ih =>
    intro o h
    obtain ⟨type, content, e⟩ := c
    simp only [addWindows]
    exact ih _ (addWindow_windows_length_le stored o type content e h)

/-- For calls that are each resolved before the next is made, the capacity
holds: from a registry of at most three windows, with the cached tier
`'free'`, after the first `k` calls of any sequence of `addWindow` calls the
registry holds at most three windows. -/
theorem addWindow_capacity_sequential (stored : Option String) (o : Overlay)
    (calls : List (String × Option String × Entropy)) (k : Nat)
    (h : o.windows.length ≤ 3) :
    (addWindows ⟨some "free"⟩ stored o (calls.take k)).windows.length ≤ 3 :=
  addWindows_windows_length_le stored (calls.take k) o h

theorem addWindow_capacity_sequential_example :
    Overlay.fresh.windows.length ≤ 3
      ∧ (addWindows ⟨some "free"⟩ none Overlay.fresh (fourCalls.take 4)).windows.length ≤ 3 :=
  ⟨by decide, addWindow_capacity_sequential none Overlay.fresh fourCalls 4 (by decide)⟩

theorem addWindow_eq_resume (lm : LicenseManager) (stored : Option String) (o : Overlay)
    (type : String) (content : Option String) (e : Entropy) :
    addWindow lm stored o type content e
      = addWindowResume o (addWindowStart lm stored o type content) e := rfl

theorem threeWindows_length : threeWindows.windows.length = 3 := by
  simp [threeWindows, fourCalls, addWindows, addWindow, canAddWindow_free, createWindow,
    saveLayout, Overlay.fresh]

/-- C2: denied admission is a no-op. With `'free'` cached and exactly three
windows, `addWindow('clock')` returns `null`; the resulting state is the state
before with `hidden` removed from the upgrade prompt, so the windows, the
panes, every element and the list of dispatched save events are unchanged. -/
theorem addWindow_denied_noop (stored : Option String) (o : Overlay) (e : Entropy)
    (h : o.windows.length = 3) :
    addWindow ⟨some "free"⟩ stored o "clock" none e
        = (none, { o with upgradePromptHidden := o.upgradePromptHidden.map (fun _ => false) })
      ∧ (addWindow ⟨some "free"⟩ stored o "clock" none e).2.windows = o.windows
      ∧ (addWindow ⟨some "free"⟩ stored o "clock" none e).2.panes = o.panes
      ∧ (addWindow ⟨some "free"⟩ stored o "clock" none e).2.heap = o.heap
      ∧ (addWindow ⟨some "free"⟩ stored o "clock" none e).2.dispatched = o.dispatched
      ∧ (addWindow ⟨some "free"⟩ stored o "clock" none e).2.upgradePromptHidden
          ≠ some true := by
  have hadd : addWindow ⟨some "free"⟩ stored o "clock" none e
      = (none, { o with upgradePromptHidden := o.upgradePromptHidden.map (fun _ => false) }) := by
    unfold addWindow
    rw [canAddWindow_free]
    simp [h, showUpgradePrompt]
  refine ⟨hadd, ?_⟩
  rw [hadd]
  refine ⟨rfl, rfl, rfl, rfl, ?_⟩
  cases o.upgradePromptHidden <;> simp

/-- Witness for C2: the fourth call on `threeWindows`. -/
theorem addWindow_denied_noop_witness :
    threeWindows.windows.length = 3
      ∧ (addWindow ⟨some "free"⟩ none threeWindows "clock" none
            ⟨1700000001500, "m5n6b7v8c", 9/10, 1/10⟩).1 = none
      ∧ (addWindow ⟨some "free"⟩ none threeWindows "clock" none
            ⟨1700000001500, "m5n6b7v8c", 9/10, 1/10⟩).2.windows = threeWindows.windows :=
  ⟨threeWindows_length,
   congrArg Prod.fst (addWindow_denied_noop none threeWindows
      ⟨1700000001500, "m5n6b7v8c", 9/10, 1/10⟩ threeWindows_length).1,
   (addWindow_denied_noop none threeWindows
      ⟨1700000001500, "m5n6b7v8c", 9/10, 1/10⟩ threeWindows_length).2.1⟩

/-! ## Restoring a layout -/

theorem createWindow_element (o : Overlay) (type : String) (content : Option String)
    (e : Entropy) : (createWindow o type content e).1.element = o.nextNode := rfl

theorem createWindow_type (o : Overlay) (type : String) (content : Option String)
    (e : Entropy) : (createWindow o type content e).1.type = type := rfl

theorem restoreWindow_windows (o : Overlay) (r : WindowRecord) (e : Entropy) :
    (restoreWindow o r e).windows = o.windows ++ [(createWindow o r.type none e).1] := by
  by_cases hty : r.type = "empty" <;> simp [restoreWindow, createWindow, loadWidget, hty]

theorem restoreWindow_nextNode (o : Overlay) (r : WindowRecord) (e : Entropy) :
    (restoreWindow o r e).nextNode = o.nextNode + 1 := by
  by_cases hty : r.type = "empty" <;> simp [restoreWindow, createWindow, loadWidget, hty]

theorem restoreWindow_heap_of_ne (o : Overlay) (r : WindowRecord) (e : Entropy) (n : Nat)
    (h : n ≠ o.nextNode) : (restoreWindow o r e).heap n = o.heap n := by
  by_cases hty : r.type = "empty" <;>
    simp [restoreWindow, createWindow, loadWidget, hty, Function.update, h]

theorem restoreWindow_view_new (o : Overlay) (r : WindowRecord) (e : Entropy) :
    viewOf (restoreWindow o r e) (createWindow o r.type none e).1 = r.restoredView := by
  by_cases hty : r.type = "empty" <;> cases hmin : r.minimized <;> cases hmax : r.maximized <;>
    by_cases hw : 0 ≤ r.size.width <;> by_cases hh : 0 ≤ r.size.height <;>
    simp [restoreWindow, createWindow, loadWidget, viewOf, WindowRecord.restoredView, hty, hmin,
      hmax, hw, hh]

theorem WindowRecord.restoredView_of_nonneg (r : WindowRecord)
    (h : 0 ≤ r.size.width ∧ 0 ≤ r.size.height) : r.restoredView = r.view := by
  simp [WindowRecord.restoredView, WindowRecord.view, h.1, h.2]

theorem restoreWindow_loadRequests (o : Overlay) (r : WindowRecord) (e : Entropy) :
    (restoreWindow o r e).loadRequests
      = o.loadRequests ++ (if r.type ≠ "empty" then [(o.nextNode, r.type)] else []) := by
  by_cases hty : r.type = "empty" <;> simp [restoreWindow, createWindow, loadWidget, hty]

theorem restoreWindow_frame (o : Overlay) (r : WindowRecord) (e : Entropy) :
    (restoreWindow o r e).panes = o.panes
      ∧ (restoreWindow o r e).dispatched = o.dispatched := by
  by_cases hty : r.type = "empty" <;> simp [restoreWindow, createWindow, loadWidget, hty]

theorem viewOf_congr (o o' : Overlay) (w : Window) (h : o'.heap w.element = o.heap w.element) :
    viewOf o' w = viewOf o w := by
  simp [viewOf, h]

theorem restoreWindows_views (saved : List WindowRecord) :
    ∀ (o : Overlay) (ent : Nat → Entropy), (∀ w ∈ o.windows, w.element < o.nextNode) →
      (restoreWindows o saved ent).windows.map (viewOf (restoreWindows o saved ent))
        = o.windows.map (viewOf o) ++ saved.map WindowRecord.restoredView := by
  induction saved with
  | nil => intro o ent _; simp [restoreWindows]
  | cons r rest ih =>
    intro o ent hlt
    simp only [restoreWindows]
    have hlt1 : ∀ w ∈ (restoreWindow o r (ent 0)).windows,
        w.element < (restoreWindow o r (ent 0)).nextNode := by
      intro w hw
      rw [restoreWindow_windows, List.mem_append, List.mem_singleton] at hw
      rw [restoreWindow_nextNode]
      rcases hw with hw | hw
      · exact Nat.lt_succ_of_lt (hlt w hw)
      · rw [hw, createWindow_element]; exact Nat.lt_succ_self _
    rw [ih _ _ hlt1, restoreWindow_windows, List.map_append, List.map_cons, List.map_nil,
      List.map_cons, restoreWindow_view_new, List.append_assoc, List.singleton_append]
    congr 1
    apply List.map_congr_left
    intro w hw
    exact viewOf_congr _ _ _
      (restoreWindow_heap_of_ne o r (ent 0) w.element (Nat.ne_of_lt (hlt w hw)))

theorem restoreWindows_requests (saved : List WindowRecord) :
    ∀ (o : Overlay) (ent : Nat → Entropy),
      ∃ ws : List Window,
        (restoreWindows o saved ent).windows = o.windows ++ ws
          ∧ ws.map (fun w => w.type) = saved.map (fun r => r.type)
          ∧ (restoreWindows o saved ent).loadRequests
              = o.loadRequests
                ++ (ws.filter (fun w => w.type ≠ "empty")).map (fun w => (w.element, w.type))
          ∧ (restoreWindows o saved ent).panes = o.panes
          ∧ (restoreWindows o saved ent).dispatched = o.dispatched := by
  induction saved with
  | nil => intro o ent; exact ⟨[], by simp [restoreWindows]⟩
  | cons r rest ih =>
    intro o ent
    obtain ⟨ws, hw, ht, hl, hp, hd⟩ := ih (restoreWindow o r (ent 0)) (fun i => ent (i + 1))
    refine ⟨(createWindow o r.type none (ent 0)).1 :: ws, ?_, ?_, ?_, ?_, ?_⟩
    · simp only [restoreWindows]
      rw [hw, restoreWindow_windows, List.append_assoc, List.singleton_append]
    · simp [ht, createWindow_type]
    · simp only [restoreWindows]
      rw [hl, restoreWindow_loadRequests]
      by_cases hty : r.type = "empty"
      · simp [hty, List.filter_cons, createWindow_type]
      · simp [hty, List.filter_cons, createWindow_type, createWindow_element]
    · simp only [restoreWindows]
      rw [hp, (restoreWindow_frame o r (ent 0)).1]
    · simp only [restoreWindows]
      rw [hd, (restoreWindow_frame o r (ent 0)).2]

theorem parseInt_of_plain (v : Rat) (h : v = 0 ∨ (1 / 10 ^ 6 ≤ |v| ∧ |v| < 10 ^ 21)) :
    parseInt v = if 0 ≤ v then ⌊v⌋ else ⌈v⌉ := by
  unfold parseInt
  rw [if_pos h]

theorem parseInt_intCast (n : Int) (h : |n| < 10 ^ 21) : parseInt (n : Rat) = n := by
  have hplain : (n : Rat) = 0 ∨ (1 / 10 ^ 6 ≤ |(n : Rat)| ∧ |(n : Rat)| < 10 ^ 21) := by
    by_cases hn : n = 0
    · left; exact_mod_cast hn
    · right
      have h1 : (1 : Int) ≤ |n| := Int.one_le_abs hn
      have h1q : (1 : Rat) ≤ |(n : Rat)| := by exact_mod_cast h1
      have h2q : |(n : Rat)| < 10 ^ 21 := by exact_mod_cast h
      exact ⟨le_trans (by norm_num) h1q, h2q⟩
  rw [parseInt_of_plain _ hplain]
  split <;> simp

theorem parseInt_truncates (v : Rat) (hplain : v = 0 ∨ (1 / 10 ^ 6 ≤ |v| ∧ |v| < 10 ^ 21)) :
    (0 ≤ v → (parseInt v : Rat) ≤ v ∧ v < (parseInt v : Rat) + 1)
      ∧ (v < 0 → v ≤ (parseInt v : Rat) ∧ (parseInt v : Rat) - 1 < v) := by
  rw [parseInt_of_plain v hplain]
  constructor
  · intro h
    simp only [h, if_true]
    exact ⟨Int.floor_le v, Int.lt_floor_add_one v⟩
  · intro h
    have hn : ¬ (0 ≤ v) := not_le.mpr h
    simp only [hn, if_false]
    refine ⟨Int.le_ceil v, ?_⟩
    have := Int.ceil_lt_add_one v
    linarith

theorem leadingDigit_bounds (v : Rat) (h : 0 < v) :
    1 ≤ leadingDigit v ∧ leadingDigit v ≤ 9 := by
  have h1 : ((10 : Nat) : Rat) ^ Int.log 10 v ≤ v := Int.zpow_log_le_self (by norm_num) h
  have h2 : v < ((10 : Nat) : Rat) ^ (Int.log 10 v + 1) :=
    Int.lt_zpow_succ_log_self (by norm_num) v
  have hpos : (0 : Rat) < (10 : Rat) ^ Int.log 10 v := zpow_pos (by norm_num) _
  simp only [Nat.cast_ofNat] at h1 h2
  rw [zpow_add_one₀ (by norm_num)] at h2
  unfold leadingDigit
  constructor
  · apply Int.le_floor.mpr
    rw [le_div_iff₀ hpos]
    simpa using h1
  · have hlt : v / (10 : Rat) ^ Int.log 10 v < 10 := by
      rw [div_lt_iff₀ hpos]
      linarith
    have := Int.floor_lt.mpr (show v / (10 : Rat) ^ Int.log 10 v < ((10 : Int) : Rat) by
      simpa using hlt)
    omega

theorem parseInt_nonneg (v : Rat) (h : 0 ≤ v) : 0 ≤ parseInt v := by
  by_cases hp : v = 0 ∨ (1 / 10 ^ 6 ≤ |v| ∧ |v| < 10 ^ 21)
  · rw [parseInt_of_plain v hp, if_pos h]
    exact Int.floor_nonneg.mpr h
  · have hpos : 0 < v := lt_of_le_of_ne h (fun h0 => hp (Or.inl h0.symm))
    unfold parseInt
    rw [if_neg hp, if_pos hpos]
    exact le_trans (by norm_num) (leadingDigit_bounds v hpos).1

theorem parseInt_of_exponent (v : Rat) (h : ¬ (v = 0 ∨ (1 / 10 ^ 6 ≤ |v| ∧ |v| < 10 ^ 21))) :
    (0 < v → parseInt v = leadingDigit v ∧ 1 ≤ parseInt v ∧ parseInt v ≤ 9)
      ∧ (v < 0 → parseInt v = -leadingDigit (-v) ∧ -9 ≤ parseInt v ∧ parseInt v ≤ -1) := by
  constructor
  · intro hpos
    have he : parseInt v = leadingDigit v := by
      unfold parseInt
      rw [if_neg h, if_pos hpos]
    rw [he]
    exact ⟨rfl, leadingDigit_bounds v hpos⟩
  · intro hneg
    have he : parseInt v = -leadingDigit (-v) := by
      unfold parseInt
      rw [if_neg h, if_neg (not_lt.mpr hneg.le)]
    have hb := leadingDigit_bounds (-v) (by linarith)
    rw [he]
    exact ⟨rfl, by omega, by omega⟩

theorem leadingDigit_zpow (e : Int) : leadingDigit ((10 : Rat) ^ e) = 1 := by
  unfold leadingDigit
  have h := Int.log_zpow (R := Rat) (b := 10) (by norm_num) e
  simp only [Nat.cast_ofNat] at h
  rw [h, div_self (zpow_ne_zero _ (by norm_num))]
  simp

theorem parseInt_exponent_small : parseInt (1 / 10 ^ 7) = 1 := by
  have hv : (1 / 10 ^ 7 : Rat) = (10 : Rat) ^ (-7 : Int) := by norm_num [zpow_neg]
  unfold parseInt
  rw [if_neg (by norm_num [abs_of_pos]), if_pos (by norm_num), hv]
  exact leadingDigit_zpow _

theorem parseInt_exponent_large : parseInt (10 ^ 21) = 1 := by
  have hv : (10 ^ 21 : Rat) = (10 : Rat) ^ (21 : Int) := by norm_num
  unfold parseInt
  rw [if_neg (by norm_num [abs_of_pos]), if_pos (by norm_num), hv]
  exact leadingDigit_zpow _

theorem WindowView.truncated_of_wholePixels (v : WindowView) (h : v.wholePixels) :
    v.truncated = v := by
  obtain ⟨⟨a, ha, ha'⟩, ⟨b, hb, hb'⟩, ⟨c, hc, hc'⟩, ⟨d, hd, hd'⟩⟩ := h
  cases v
  simp only [WindowView.truncated] at *
  subst ha hb hc hd
  rw [parseInt_intCast a ha', parseInt_intCast b hb', parseInt_intCast c hc',
    parseInt_intCast d hd']

theorem windowRecord_view (o : Overlay) (w : Window) :
    (windowRecord o w).view = (viewOf o w).truncated := by
  simp [windowRecord, WindowRecord.view, viewOf, WindowView.truncated]

theorem saveLayout_last (o : Overlay) :
    (saveLayout o).dispatched.getLast? = some (currentLayout o) := by
  simp [saveLayout]

theorem applyLayout_saved_views (o R : Overlay) (ent : Nat → Entropy)
    (hsize : ∀ w ∈ R.windows,
      0 ≤ (R.heap w.element).width ∧ 0 ≤ (R.heap w.element).height) :
    (applyLayout o (saveLayout R).dispatched.getLast? ent).views
      = R.windows.map (fun w => (viewOf R w).truncated) := by
  rw [saveLayout_last]
  simp only [applyLayout, currentLayout, Overlay.views]
  rw [restoreWindows_views _ _ _ (by simp)]
  simp only [List.map_nil, List.nil_append, List.map_map]
  apply List.map_congr_left
  intro w hw
  have hnn : 0 ≤ (windowRecord R w).size.width ∧ 0 ≤ (windowRecord R w).size.height := by
    simp only [windowRecord]
    exact ⟨by exact_mod_cast parseInt_nonneg _ (hsize w hw).1,
      by exact_mod_cast parseInt_nonneg _ (hsize w hw).2⟩
  simp only [Function.comp]
  rw [(windowRecord R w).restoredView_of_nonneg hnn, windowRecord_view]

/-- C5 (amended): the layout round trip keeps the windows, their order, types
and flags, and gives each window the geometry `saveLayout` recorded. For a
registry state `R` whose windows have a non-negative width and height, the
snapshot that `saveLayout` dispatches, applied by `applyLayout` to the overlay
the constructor leaves, yields windows whose views are those of `R` with
`parseInt` of each of left, top, width and height; `parseInt` truncates toward
zero every length that is zero or of magnitude from `1e-6` up to below `1e21`;
when the geometry of `R` is in whole pixels of magnitude below `1e21`, the
views are exactly those of `R`. -/
theorem layout_round_trip (R : Overlay) (ent : Nat → Entropy)
    (hsize : ∀ w ∈ R.windows,
      0 ≤ (R.heap w.element).width ∧ 0 ≤ (R.heap w.element).height) :
    (applyLayout Overlay.fresh (saveLayout R).dispatched.getLast? ent).views
        = R.windows.map (fun w => (viewOf R w).truncated)
      ∧ (applyLayout Overlay.fresh (saveLayout R).dispatched.getLast? ent).windows.length
        = R.windows.length
      ∧ (∀ v : Rat, (v = 0 ∨ (1 / 10 ^ 6 ≤ |v| ∧ |v| < 10 ^ 21)) →
          (0 ≤ v → (parseInt v : Rat) ≤ v ∧ v < (parseInt v : Rat) + 1)
            ∧ (v < 0 → v ≤ (parseInt v : Rat) ∧ (parseInt v : Rat) - 1 < v))
      ∧ ((∀ w ∈ R.windows, (viewOf R w).wholePixels) →
          (applyLayout Overlay.fresh (saveLayout R).dispatched.getLast? ent).views
            = R.views) := by
  have h := applyLayout_saved_views Overlay.fresh R ent hsize
  refine ⟨h, ?_, parseInt_truncates, ?_⟩
  · have hl := congrArg List.length h
    simpa [Overlay.views] using hl
  · intro hw
    rw [h, Overlay.views]
    apply List.map_congr_left
    intro w hmem
    exact WindowView.truncated_of_wholePixels _ (hw w hmem)

theorem wholePixelWindow_views :
    wholePixelWindow.views = [⟨"clock", 250, 150, 400, 300, false, false⟩] := by
  simp [wholePixelWindow, Overlay.views, addWindow, canAddWindow_free, createWindow, saveLayout,
    Overlay.fresh, viewOf]
  norm_num [roundDouble_zero, roundDouble_50, roundDouble_100, roundDouble_150,
    roundDouble_250, roundDouble_three_quarters, roundDouble_403_quarters]

theorem roundDouble_draw_product :
    roundDouble (5764607523034235 / 2 ^ 61 * 300) = 3 / 4 := by
  rw [roundDouble_eval _ (-1) (3 * 2 ^ 51) (by norm_num) (by norm_num [abs_of_pos])
    (by norm_num [abs_of_pos]) ?_]
  · norm_num
  · rw [roundHalfEven_eval _ (3 * 2 ^ 51) (by norm_num [Int.floor_eq_iff])]
    norm_num

theorem fractionalWindow_views :
    fractionalWindow.views = [⟨"clock", 403/4, 100, 400, 300, false, false⟩] := by
  simp only [fractionalWindow, Overlay.views, addWindow, canAddWindow_free, createWindow,
    saveLayout, Overlay.fresh, roundDouble_draw_product]
  norm_num [roundDouble_zero, roundDouble_50, roundDouble_100, roundDouble_150,
    roundDouble_250, roundDouble_three_quarters, roundDouble_403_quarters]
  simp [viewOf]

theorem parseInt_fraction : parseInt (403/4) = 100 := by
  rw [parseInt_of_plain _ (Or.inr ⟨by norm_num [abs_of_pos], by norm_num [abs_of_pos]⟩)]
  norm_num [Int.floor_eq_iff]

theorem wholePixelWindow_sizes :
    ∀ w ∈ wholePixelWindow.windows,
      0 ≤ (wholePixelWindow.heap w.element).width
        ∧ 0 ≤ (wholePixelWindow.heap w.element).height := by
  intro w hmem
  have hv : viewOf wholePixelWindow w ∈ wholePixelWindow.views :=
    List.mem_map_of_mem _ hmem
  rw [wholePixelWindow_views, List.mem_singleton] at hv
  have hw := congrArg WindowView.width hv
  have hh := congrArg WindowView.height hv
  simp only [viewOf] at hw hh
  rw [hw, hh]
  norm_num

theorem fractionalWindow_sizes :
    ∀ w ∈ fractionalWindow.windows,
      0 ≤ (fractionalWindow.heap w.element).width
        ∧ 0 ≤ (fractionalWindow.heap w.element).height := by
  intro w hmem
  have hv : viewOf fractionalWindow w ∈ fractionalWindow.views :=
    List.mem_map_of_mem _ hmem
  rw [fractionalWindow_views, List.mem_singleton] at hv
  have hw := congrArg WindowView.width hv
  have hh := congrArg WindowView.height hv
  simp only [viewOf] at hw hh
  rw [hw, hh]
  norm_num

/-- Witness for C5 (amended): a clock window at `(250, 150)` comes back with
the same view. -/
theorem layout_round_trip_witness :
    (∀ w ∈ wholePixelWindow.windows,
        0 ≤ (wholePixelWindow.heap w.element).width
          ∧ 0 ≤ (wholePixelWindow.heap w.element).height)
      ∧ (∀ w ∈ wholePixelWindow.windows, (viewOf wholePixelWindow w).wholePixels)
      ∧ (applyLayout Overlay.fresh (saveLayout wholePixelWindow).dispatched.getLast?
            constantDraws).views
          = [⟨"clock", 250, 150, 400, 300, false, false⟩] := by
  have hw : ∀ w ∈ wholePixelWindow.windows, (viewOf wholePixelWindow w).wholePixels := by
    intro w hmem
    have hv : viewOf wholePixelWindow w ∈ wholePixelWindow.views :=
      List.mem_map_of_mem _ hmem
    rw [wholePixelWindow_views, List.mem_singleton] at hv
    rw [hv]
    exact ⟨⟨250, by norm_num⟩, ⟨150, by norm_num⟩, ⟨400, by norm_num⟩, ⟨300, by norm_num⟩⟩
  refine ⟨wholePixelWindow_sizes, hw, ?_⟩
  rw [(layout_round_trip wholePixelWindow constantDraws wholePixelWindow_sizes).2.2.2 hw,
    wholePixelWindow_views]

theorem truncated_fractional :
    (⟨"clock", 403/4, 100, 400, 300, false, false⟩ : WindowView).truncated
      = ⟨"clock", 100, 100, 400, 300, false, false⟩ := by
  have h100 := parseInt_intCast 100 (by norm_num)
  have h400 := parseInt_intCast 400 (by norm_num)
  have h300 := parseInt_intCast 300 (by norm_num)
  simp only [Int.cast_ofNat] at h100 h400 h300
  simp [WindowView.truncated, parseInt_fraction, h100, h400, h300]

/-- C5 as stated fails: a window that `createWindow` placed at `left = 100.75px`
comes back from the round trip at `left = 100px`. -/
theorem layout_round_trip_counterexample :
    fractionalWindow.views = [⟨"clock", 403/4, 100, 400, 300, false, false⟩]
      ∧ (applyLayout Overlay.fresh (saveLayout fractionalWindow).dispatched.getLast?
            constantDraws).views
          = [⟨"clock", 100, 100, 400, 300, false, false⟩]
      ∧ (applyLayout Overlay.fresh (saveLayout fractionalWindow).dispatched.getLast?
            constantDraws).views
          ≠ fractionalWindow.views := by
  have h : (applyLayout Overlay.fresh (saveLayout fractionalWindow).dispatched.getLast?
      constantDraws).views = [⟨"clock", 100, 100, 400, 300, false, false⟩] := by
    rw [applyLayout_saved_views _ _ _ fractionalWindow_sizes]
    have hv := fractionalWindow_views
    rw [Overlay.views] at hv
    have hm : List.map (fun w => (viewOf fractionalWindow w).truncated) fractionalWindow.windows
        = (List.map (viewOf fractionalWindow) fractionalWindow.windows).map
            WindowView.truncated := by
      rw [List.map_map]; rfl
    rw [hm, hv]
    simp [truncated_fractional]
  refine ⟨fractionalWindow_views, h, ?_⟩
  rw [h, fractionalWindow_views]
  intro hEq
  simp at hEq
  norm_num at hEq

theorem applyLayout_requests (o : Overlay) (saved : List WindowRecord)
    (panes : List PaneRecord) (ent : Nat → Entropy) :
    (applyLayout o (some ⟨some saved, panes⟩) ent).windows.map (fun w => w.type)
        = saved.map (fun r => r.type)
      ∧ (applyLayout o (some ⟨some saved, panes⟩) ent).loadRequests
        = o.loadRequests
          ++ ((applyLayout o (some ⟨some saved, panes⟩) ent).windows.filter
                (fun w => w.type ≠ "empty")).map (fun w => (w.element, w.type)) := by
  obtain ⟨ws, hw, ht, hl, -, -⟩ := restoreWindows_requests saved { o with windows := [] } ent
  simp only [applyLayout]
  rw [hw, hl]
  simp [ht]

/-- C6: restore order and widget loading. For every snapshot, `applyLayout`
leaves one window per window record, in the stored order and with the recorded
types; the widget loads it requests are, in order, one for each restored
window whose type is not `'empty'`, with that window and type. For the
snapshot `[todo, clock]` the windows are `[todo, clock]` and the requests are
one for `'todo'` then one for `'clock'`. -/
theorem applyLayout_restore_order (o : Overlay) (saved : List WindowRecord)
    (panes : List PaneRecord) (ent : Nat → Entropy) (todo clock : WindowRecord) :
    (applyLayout o (some ⟨some saved, panes⟩) ent).windows.map (fun w => w.type)
        = saved.map (fun r => r.type)
      ∧ (applyLayout o (some ⟨some saved, panes⟩) ent).windows.length = saved.length
      ∧ (applyLayout o (some ⟨some saved, panes⟩) ent).loadRequests
        = o.loadRequests
          ++ ((applyLayout o (some ⟨some saved, panes⟩) ent).windows.filter
                (fun w => w.type ≠ "empty")).map (fun w => (w.element, w.type))
      ∧ ((applyLayout o (some ⟨some saved, panes⟩) ent).loadRequests.drop
            o.loadRequests.length).map Prod.snd
        = (saved.map (fun r => r.type)).filter (fun t => t ≠ "empty")
      ∧ (applyLayout o
            (some ⟨some [{ todo with type := "todo" }, { clock with type := "clock" }], panes⟩)
            ent).windows.map (fun w => w.type) = ["todo", "clock"]
      ∧ ((applyLayout o
            (some ⟨some [{ todo with type := "todo" }, { clock with type := "clock" }], panes⟩)
            ent).loadRequests.drop o.loadRequests.length).map Prod.snd
        = ["todo", "clock"] := by
  have key : ∀ saved : List WindowRecord,
      ((applyLayout o (some ⟨some saved, panes⟩) ent).loadRequests.drop
            o.loadRequests.length).map Prod.snd
        = (saved.map (fun r => r.type)).filter (fun t => t ≠ "empty") := by
    intro saved
    obtain ⟨ht, hl⟩ := applyLayout_requests o saved panes ent
    rw [hl, List.drop_left, ← ht, List.map_map, List.filter_map]
    rfl
  refine ⟨(applyLayout_requests o saved panes ent).1, ?_,
    (applyLayout_requests o saved panes ent).2, key saved, ?_, ?_⟩
  · have h := congrArg List.length (applyLayout_requests o saved panes ent).1
    simpa using h
  · rw [(applyLayout_requests o _ panes ent).1]
    rfl
  · rw [key]
    simp

/-! ## Pointer moves -/

theorem moveHandler_frame (client : Point) (o : Overlay) (l : Listener) :
    (moveHandler client o l).dragOffset = o.dragOffset
      ∧ (moveHandler client o l).docListeners = o.docListeners
      ∧ (moveHandler client o l).windows = o.windows
      ∧ (moveHandler client o l).panes = o.panes
      ∧ (moveHandler client o l).dispatched = o.dispatched := by
  cases l with
  | drag node =>
    simp only [moveHandler, handleDrag]
    split <;> simp
  | resize node sx sy sw sh =>
    simp only [moveHandler, handleResize]
    split <;> simp

theorem moveHandler_element (client : Point) (o : Overlay) (l : Listener) (k : Nat) :
    ((moveHandler client o l).heap k).isDragging = (o.heap k).isDragging
      ∧ ((moveHandler client o l).heap k).isResizing = (o.heap k).isResizing
      ∧ ((moveHandler client o l).heap k).left = (o.heap k).left
      ∧ ((moveHandler client o l).heap k).top = (o.heap k).top
      ∧ ((moveHandler client o l).heap k).width = (o.heap k).width
      ∧ ((moveHandler client o l).heap k).height = (o.heap k).height
      ∧ ((moveHandler client o l).heap k).minimized = (o.heap k).minimized
      ∧ ((moveHandler client o l).heap k).maximized = (o.heap k).maximized := by
  cases l with
  | drag node =>
    simp only [moveHandler, handleDrag]
    split
    · by_cases hk : k = node
      · subst hk; simp
      · simp [Function.update_noteq hk]
    · simp
  | resize node sx sy sw sh =>
    simp only [moveHandler, handleResize]
    split
    · by_cases hk : k = node
      · subst hk; simp
      · simp [Function.update_noteq hk]
    · simp

theorem moveHandler_drag_computes (client : Point) (o : Overlay) (n : Nat)
    (h : (o.heap n).isDragging = true) :
    DragComputed client n (moveHandler client o (Listener.drag n)) := by
  simp [DragComputed, moveHandler, handleDrag, h]

theorem moveHandler_keeps_computed (client : Point) (o : Overlay) (n : Nat) (l : Listener)
    (h : DragComputed client n o) : DragComputed client n (moveHandler client o l) := by
  obtain ⟨hx, hy, hq⟩ := h
  cases l with
  | drag node =>
    simp only [DragComputed, moveHandler, handleDrag]
    split
    · by_cases hk : n = node
      · subst hk; simp
      · simp [Function.update_noteq hk, hx, hy, hq, hk]
    · exact ⟨hx, hy, hq⟩
  | resize node sx sy sw sh =>
    simp only [DragComputed, moveHandler, handleResize]
    split
    · by_cases hk : n = node
      · subst hk; simp [hx, hy, hq]
      · simp [Function.update_noteq hk, hx, hy, hq]
    · exact ⟨hx, hy, hq⟩

theorem foldl_moveHandler_frame (client : Point) (ls : List Listener) :
    ∀ o : Overlay,
      (ls.foldl (moveHandler client) o).dragOffset = o.dragOffset
        ∧ (ls.foldl (moveHandler client) o).docListeners = o.docListeners
        ∧ (ls.foldl (moveHandler client) o).windows = o.windows
        ∧ (ls.foldl (moveHandler client) o).panes = o.panes
        ∧ (ls.foldl (moveHandler client) o).dispatched = o.dispatched := by
  induction ls with
  | nil => intro o; simp
  | cons l ls ih =>
    intro o
    obtain ⟨h1, h2, h3, h4, h5⟩ := ih (moveHandler client o l)
    obtain ⟨g1, g2, g3, g4, g5⟩ := moveHandler_frame client o l
    simp only [List.foldl_cons]
    exact ⟨h1.trans g1, h2.trans g2, h3.trans g3, h4.trans g4, h5.trans g5⟩

theorem foldl_moveHandler_element (client : Point) (ls : List Listener) (k : Nat) :
    ∀ o : Overlay,
      ((ls.foldl (moveHandler client) o).heap k).isDragging = (o.heap k).isDragging
        ∧ ((ls.foldl (moveHandler client) o).heap k).isResizing = (o.heap k).isResizing
        ∧ ((ls.foldl (moveHandler client) o).heap k).left = (o.heap k).left
        ∧ ((ls.foldl (moveHandler client) o).heap k).top = (o.heap k).top
        ∧ ((ls.foldl (moveHandler client) o).heap k).width = (o.heap k).width
        ∧ ((ls.foldl (moveHandler client) o).heap k).height = (o.heap k).height
        ∧ ((ls.foldl (moveHandler client) o).heap k).minimized = (o.heap k).minimized
        ∧ ((ls.foldl (moveHandler client) o).heap k).maximized = (o.heap k).maximized := by
  induction ls with
  | nil => intro o; simp
  | cons l ls ih =>
    intro o
    obtain ⟨h1, h2, h3, h4, h5, h6, h7, h8⟩ := ih (moveHandler client o l)
    obtain ⟨g1, g2, g3, g4, g5, g6, g7, g8⟩ := moveHandler_element client o l k
    simp only [List.foldl_cons]
    exact ⟨h1.trans g1, h2.trans g2, h3.trans g3, h4.trans g4, h5.trans g5, h6.trans g6,
      h7.trans g7, h8.trans g8⟩

theorem foldl_moveHandler_computes (client : Point) (n : Nat) (ls : List Listener) :
    ∀ o : Overlay,
      (DragComputed client n o ∨ (Listener.drag n ∈ ls ∧ (o.heap n).isDragging = true)) →
        DragComputed client n (ls.foldl (moveHandler client) o) := by
  induction ls with
  | nil =>
    intro o h
    rcases h with h | ⟨h, -⟩
    · simpa using h
    · simp at h
  | cons l ls ih =>
    intro o h
    simp only [List.foldl_cons]
    apply ih
    rcases h with h | ⟨hmem, hdrag⟩
    · exact Or.inl (moveHandler_keeps_computed client o n l h)
    · rcases List.mem_cons.mp hmem with hl | hl
      · subst hl
        exact Or.inl (moveHandler_drag_computes client o n hdrag)
      · exact Or.inr ⟨hl, by rw [(moveHandler_element client o l n).1]; exact hdrag⟩

theorem mouseMove_computes (o : Overlay) (client : Point) (n : Nat)
    (hl : Listener.drag n ∈ o.docListeners) (hd : (o.heap n).isDragging = true) :
    DragComputed client n (mouseMove o client) :=
  foldl_moveHandler_computes client n o.docListeners o (Or.inr ⟨hl, hd⟩)

/-! ## Animation frames -/

theorem runFrameCallback_closure (o : Overlay) (c : FrameCallback) (k : Nat) :
    ((runFrameCallback o c).heap k).currentX = (o.heap k).currentX
      ∧ ((runFrameCallback o c).heap k).currentY = (o.heap k).currentY
      ∧ ((runFrameCallback o c).heap k).currentWidth = (o.heap k).currentWidth
      ∧ ((runFrameCallback o c).heap k).currentHeight = (o.heap k).currentHeight := by
  cases c with
  | drag node =>
    simp only [runFrameCallback]
    by_cases hk : k = node
    · subst hk
      cases hx : (o.heap k).currentX <;> cases hy : (o.heap k).currentY <;> simp [hx, hy]
    · simp [Function.update_noteq hk]
  | resize node =>
    simp only [runFrameCallback]
    by_cases hk : k = node
    · subst hk
      cases hw : (o.heap k).currentWidth <;> cases hh : (o.heap k).currentHeight <;>
        simp [hw, hh]
    · simp [Function.update_noteq hk]

theorem runFrameCallback_drag (o : Overlay) (n : Nat) (x y : Rat)
    (hx : (o.heap n).currentX = some x) (hy : (o.heap n).currentY = some y) :
    ((runFrameCallback o (FrameCallback.drag n)).heap n).left = x
      ∧ ((runFrameCallback o (FrameCallback.drag n)).heap n).top = y := by
  simp [runFrameCallback, hx, hy]

theorem runFrameCallback_keeps_position (o : Overlay) (c : FrameCallback) (n : Nat) (x y : Rat)
    (hx : (o.heap n).currentX = some x) (hy : (o.heap n).currentY = some y)
    (h : (o.heap n).left = x ∧ (o.heap n).top = y) :
    ((runFrameCallback o c).heap n).left = x ∧ ((runFrameCallback o c).heap n).top = y := by
  cases c with
  | drag node =>
    by_cases hk : n = node
    · subst hk; exact runFrameCallback_drag o n x y hx hy
    · simpa [runFrameCallback, Function.update_noteq hk] using h
  | resize node =>
    simp only [runFrameCallback]
    by_cases hk : n = node
    · subst hk
      cases (o.heap n).currentWidth <;> cases (o.heap n).currentHeight <;> simpa using h
    · simpa [Function.update_noteq hk] using h

theorem foldl_runFrameCallback_drag (n : Nat) (x y : Rat) (cs : List FrameCallback) :
    ∀ o : Overlay, (o.heap n).currentX = some x → (o.heap n).currentY = some y →
      (((o.heap n).left = x ∧ (o.heap n).top = y) ∨ FrameCallback.drag n ∈ cs) →
        ((cs.foldl runFrameCallback o).heap n).left = x
          ∧ ((cs.foldl runFrameCallback o).heap n).top = y := by
  induction cs with
  | nil =>
    intro o _ _ h
    rcases h with h | h
    · simpa using h
    · simp at h
  | cons c cs ih =>
    intro o hx hy h
    simp only [List.foldl_cons]
    have hx1 : ((runFrameCallback o c).heap n).currentX = some x := by
      rw [(runFrameCallback_closure o c n).1]; exact hx
    have hy1 : ((runFrameCallback o c).heap n).currentY = some y := by
      rw [(runFrameCallback_closure o c n).2.1]; exact hy
    apply ih _ hx1 hy1
    rcases h with h | h
    · exact Or.inl (runFrameCallback_keeps_position o c n x y hx hy h)
    · rcases List.mem_cons.mp h with hc | hc
      · subst hc
        exact Or.inl (runFrameCallback_drag o n x y hx hy)
      · exact Or.inr hc

theorem animationFrame_drag (o : Overlay) (n : Nat) (x y : Rat)
    (hx : (o.heap n).currentX = some x) (hy : (o.heap n).currentY = some y)
    (hq : FrameCallback.drag n ∈ o.frameQueue) :
    ((animationFrame o).heap n).left = x ∧ ((animationFrame o).heap n).top = y := by
  simpa [animationFrame] using
    foldl_runFrameCallback_drag n x y o.frameQueue o hx hy (Or.inr hq)

/-! ## Dragging -/

theorem headerMouseDown_state (o : Overlay) (n : Nat) (d b : Point) :
    (headerMouseDown o n false d b).dragOffset = ⟨d.x - b.x, d.y - b.y⟩
      ∧ (headerMouseDown o n false d b).draggedElement = some n
      ∧ ((headerMouseDown o n false d b).heap n).isDragging = true
      ∧ Listener.drag n ∈ (headerMouseDown o n false d b).docListeners := by
  simp [headerMouseDown]

theorem drag_move_frame (o : Overlay) (n : Nat) (m : Point)
    (hl : Listener.drag n ∈ o.docListeners) (hd : (o.heap n).isDragging = true) :
    ((mouseMove o m).heap n).currentX = some (m.x - o.dragOffset.x)
      ∧ ((mouseMove o m).heap n).currentY = some (m.y - o.dragOffset.y)
      ∧ ((animationFrame (mouseMove o m)).heap n).left = m.x - o.dragOffset.x
      ∧ ((animationFrame (mouseMove o m)).heap n).top = m.y - o.dragOffset.y := by
  obtain ⟨hx, hy, hq⟩ := mouseMove_computes o m n hl hd
  have hoff : (mouseMove o m).dragOffset = o.dragOffset :=
    (foldl_moveHandler_frame m o.docListeners o).1
  rw [hoff] at hx hy
  exact ⟨hx, hy, animationFrame_drag _ n _ _ hx hy hq⟩

/-- C8: drag displacement. A header press at `d` on a window whose top-left is
`b` sets the drag offset to `d - b`; a pointer-move to `m` leaves the offset
as it is and computes the top-left `m - (d - b) = b + (m - d)`, which the
next animation frame writes to the element. For a window at `(100, 100)` and
the pointer moving `(50, 50)` to `(90, 70)` the position is `(140, 120)`. -/
theorem drag_displacement (o : Overlay) (n : Nat) (b d m : Point) :
    (headerMouseDown o n false d b).dragOffset = ⟨d.x - b.x, d.y - b.y⟩
      ∧ (mouseMove (headerMouseDown o n false d b) m).dragOffset = ⟨d.x - b.x, d.y - b.y⟩
      ∧ ((mouseMove (headerMouseDown o n false d b) m).heap n).currentX
          = some (m.x - (d.x - b.x))
      ∧ ((mouseMove (headerMouseDown o n false d b) m).heap n).currentY
          = some (m.y - (d.y - b.y))
      ∧ ((animationFrame (mouseMove (headerMouseDown o n false d b) m)).heap n).left
          = b.x + (m.x - d.x)
      ∧ ((animationFrame (mouseMove (headerMouseDown o n false d b) m)).heap n).top
          = b.y + (m.y - d.y)
      ∧ ((animationFrame (mouseMove (headerMouseDown o n false ⟨50, 50⟩ ⟨100, 100⟩)
            ⟨90, 70⟩)).heap n).left = 140
      ∧ ((animationFrame (mouseMove (headerMouseDown o n false ⟨50, 50⟩ ⟨100, 100⟩)
            ⟨90, 70⟩)).heap n).top = 120 := by
  have key : ∀ b d m : Point,
      ((mouseMove (headerMouseDown o n false d b) m).heap n).currentX
          = some (m.x - (d.x - b.x))
      ∧ ((mouseMove (headerMouseDown o n false d b) m).heap n).currentY
          = some (m.y - (d.y - b.y))
      ∧ ((animationFrame (mouseMove (headerMouseDown o n false d b) m)).heap n).left
          = m.x - (d.x - b.x)
      ∧ ((animationFrame (mouseMove (headerMouseDown o n false d b) m)).heap n).top
          = m.y - (d.y - b.y) := by
    intro b d m
    obtain ⟨hoff, -, hdrag, hl⟩ := headerMouseDown_state o n d b
    have h := drag_move_frame (headerMouseDown o n false d b) n m hl hdrag
    rw [hoff] at h
    exact h
  obtain ⟨hx, hy, hleft, htop⟩ := key b d m
  obtain ⟨-, -, hleft1, htop1⟩ := key ⟨100, 100⟩ ⟨50, 50⟩ ⟨90, 70⟩
  refine ⟨(headerMouseDown_state o n d b).1, ?_, hx, hy, ?_, ?_, ?_, ?_⟩
  · rw [mouseMove, (foldl_moveHandler_frame m _ _).1]
    exact (headerMouseDown_state o n d b).1
  · rw [hleft]; ring
  · rw [htop]; ring
  · rw [hleft1]; norm_num
  · rw [htop1]; norm_num

/-! ## Pointer release -/

theorem endHandler_element (o : Overlay) (l : Listener) (k : Nat) :
    ((endHandler o l).heap k).left = (o.heap k).left
      ∧ ((endHandler o l).heap k).top = (o.heap k).top
      ∧ ((endHandler o l).heap k).width = (o.heap k).width
      ∧ ((endHandler o l).heap k).height = (o.heap k).height
      ∧ ((endHandler o l).heap k).minimized = (o.heap k).minimized
      ∧ ((endHandler o l).heap k).maximized = (o.heap k).maximized := by
  cases l with
  | drag node =>
    simp only [endHandler, handleDragEnd, saveLayout]
    by_cases hk : k = node
    · subst hk; simp
    · simp [Function.update_noteq hk]
  | resize node sx sy sw sh =>
    simp only [endHandler, handleResizeEnd, saveLayout]
    by_cases hk : k = node
    · subst hk; simp
    · simp [Function.update_noteq hk]

theorem foldl_endHandler_element (ls : List Listener) (k : Nat) :
    ∀ o : Overlay,
      ((ls.foldl endHandler o).heap k).left = (o.heap k).left
        ∧ ((ls.foldl endHandler o).heap k).top = (o.heap k).top
        ∧ ((ls.foldl endHandler o).heap k).width = (o.heap k).width
        ∧ ((ls.foldl endHandler o).heap k).height = (o.heap k).height
        ∧ ((ls.foldl endHandler o).heap k).minimized = (o.heap k).minimized
        ∧ ((ls.foldl endHandler o).heap k).maximized = (o.heap k).maximized := by
  induction ls with
  | nil => intro o; simp
  | cons l ls ih =>
    intro o
    obtain ⟨h1, h2, h3, h4, h5, h6⟩ := ih (endHandler o l)
    obtain ⟨g1, g2, g3, g4, g5, g6⟩ := endHandler_element o l k
    simp only [List.foldl_cons]
    exact ⟨h1.trans g1, h2.trans g2, h3.trans g3, h4.trans g4, h5.trans g5, h6.trans g6⟩

theorem mouseUp_element (o : Overlay) (k : Nat) :
    ((mouseUp o).heap k).left = (o.heap k).left
      ∧ ((mouseUp o).heap k).top = (o.heap k).top
      ∧ ((mouseUp o).heap k).width = (o.heap k).width
      ∧ ((mouseUp o).heap k).height = (o.heap k).height
      ∧ ((mouseUp o).heap k).minimized = (o.heap k).minimized
      ∧ ((mouseUp o).heap k).maximized = (o.heap k).maximized :=
  foldl_endHandler_element o.docListeners k o

theorem windowRecord_congr (o o' : Overlay) (w : Window)
    (h : (o'.heap w.element).left = (o.heap w.element).left
      ∧ (o'.heap w.element).top = (o.heap w.element).top
      ∧ (o'.heap w.element).width = (o.heap w.element).width
      ∧ (o'.heap w.element).height = (o.heap w.element).height
      ∧ (o'.heap w.element).minimized = (o.heap w.element).minimized
      ∧ (o'.heap w.element).maximized = (o.heap w.element).maximized) :
    windowRecord o' w = windowRecord o w := by
  obtain ⟨h1, h2, h3, h4, h5, h6⟩ := h
  simp [windowRecord, h1, h2, h3, h4, h5, h6]

theorem headerMouseDown_element (o : Overlay) (n : Nat) (d b : Point) (k : Nat) :
    ((headerMouseDown o n false d b).heap k).left = (o.heap k).left
      ∧ ((headerMouseDown o n false d b).heap k).top = (o.heap k).top
      ∧ ((headerMouseDown o n false d b).heap k).width = (o.heap k).width
      ∧ ((headerMouseDown o n false d b).heap k).height = (o.heap k).height
      ∧ ((headerMouseDown o n false d b).heap k).minimized = (o.heap k).minimized
      ∧ ((headerMouseDown o n false d b).heap k).maximized = (o.heap k).maximized := by
  simp only [headerMouseDown]
  by_cases hk : k = n
  · subst hk; simp
  · simp [Function.update_noteq hk]

theorem currentLayout_congr (o o' : Overlay) (hw : o'.windows = o.windows)
    (hp : o'.panes = o.panes)
    (hel : ∀ k, (o'.heap k).left = (o.heap k).left
      ∧ (o'.heap k).top = (o.heap k).top
      ∧ (o'.heap k).width = (o.heap k).width
      ∧ (o'.heap k).height = (o.heap k).height
      ∧ (o'.heap k).minimized = (o.heap k).minimized
      ∧ (o'.heap k).maximized = (o.heap k).maximized) :
    currentLayout o' = currentLayout o := by
  simp only [currentLayout, hw, hp]
  congr 2
  apply List.map_congr_left
  intro w _
  exact windowRecord_congr o o' w (hel w.element)

theorem handleDragEnd_dispatched (o : Overlay) (n : Nat) :
    (handleDragEnd o n).dispatched = o.dispatched ++ [currentLayout o] := by
  have hcur := currentLayout_congr o
    { o with heap := Function.update o.heap n
               ({ o.heap n with isDragging := false, dragging := false, willChange := "auto" }),
             frameQueue := o.frameQueue.filter (fun c => c ≠ FrameCallback.drag n) }
    rfl rfl
    (by
      intro k
      by_cases hk : k = n
      · subst hk; simp
      · simp [Function.update_noteq hk])
  simp only [handleDragEnd, saveLayout]
  rw [hcur]

theorem press_release_dispatched (o : Overlay) (n : Nat) (d b : Point)
    (hidle : o.docListeners = []) :
    (mouseUp (headerMouseDown o n false d b)).dispatched
      = o.dispatched ++ [currentLayout o] := by
  have hup : mouseUp (headerMouseDown o n false d b)
      = handleDragEnd (headerMouseDown o n false d b) n := by
    simp [mouseUp, headerMouseDown, hidle, endHandler]
  rw [hup, handleDragEnd_dispatched]
  have hcur := currentLayout_congr o (headerMouseDown o n false d b)
    (by simp [headerMouseDown]) (by simp [headerMouseDown])
    (headerMouseDown_element o n d b)
  rw [hcur]
  simp [headerMouseDown]

theorem endHandler_layout (o : Overlay) (l : Listener) :
    (endHandler o l).windows = o.windows
      ∧ (endHandler o l).panes = o.panes
      ∧ (endHandler o l).dispatched = o.dispatched ++ [currentLayout o] := by
  have hw : (endHandler o l).windows = o.windows := by
    cases l <;> simp [endHandler, handleDragEnd, handleResizeEnd, saveLayout]
  have hp : (endHandler o l).panes = o.panes := by
    cases l <;> simp [endHandler, handleDragEnd, handleResizeEnd, saveLayout]
  refine ⟨hw, hp, ?_⟩
  have hd : (endHandler o l).dispatched
      = o.dispatched ++ [currentLayout (endHandler o l)] := by
    cases l <;> rfl
  rw [hd, currentLayout_congr o (endHandler o l) hw hp (endHandler_element o l)]

theorem foldl_endHandler_layout (ls : List Listener) :
    ∀ o : Overlay,
      (ls.foldl endHandler o).windows = o.windows
        ∧ (ls.foldl endHandler o).panes = o.panes
        ∧ currentLayout (ls.foldl endHandler o) = currentLayout o
        ∧ (ls.foldl endHandler o).dispatched
            = o.dispatched ++ List.replicate ls.length (currentLayout o) := by
  induction ls with
  | nil => intro o; simp
  | cons l ls ih =>
    intro o
    obtain ⟨h1, h2, h3, h4⟩ := ih (endHandler o l)
    obtain ⟨g1, g2, g3⟩ := endHandler_layout o l
    have hcur : currentLayout (endHandler o l) = currentLayout o :=
      currentLayout_congr o (endHandler o l) g1 g2 (endHandler_element o l)
    simp only [List.foldl_cons]
    refine ⟨h1.trans g1, h2.trans g2, h3.trans hcur, ?_⟩
    rw [h4, g3, hcur, List.length_cons, List.replicate_succ, List.append_assoc,
      List.singleton_append]

/-- A header press followed by the release, from any state: the geometry and
flags of every element, the windows and the panes stay as they were, and the
release dispatches one save event, carrying the unchanged layout, for every
handler pair registered when it happens: one for this press and one for each
pair that was registered before it. -/
theorem press_release_any (o : Overlay) (n : Nat) (d b : Point) :
    (∀ k, ((mouseUp (headerMouseDown o n false d b)).heap k).left = (o.heap k).left
        ∧ ((mouseUp (headerMouseDown o n false d b)).heap k).top = (o.heap k).top
        ∧ ((mouseUp (headerMouseDown o n false d b)).heap k).width = (o.heap k).width
        ∧ ((mouseUp (headerMouseDown o n false d b)).heap k).height = (o.heap k).height
        ∧ ((mouseUp (headerMouseDown o n false d b)).heap k).minimized = (o.heap k).minimized
        ∧ ((mouseUp (headerMouseDown o n false d b)).heap k).maximized
            = (o.heap k).maximized)
      ∧ (mouseUp (headerMouseDown o n false d b)).windows = o.windows
      ∧ (mouseUp (headerMouseDown o n false d b)).views = o.views
      ∧ (mouseUp (headerMouseDown o n false d b)).dispatched
          = o.dispatched ++ List.replicate (o.docListeners.length + 1) (currentLayout o) := by
  have hel : ∀ k, ((mouseUp (headerMouseDown o n false d b)).heap k).left = (o.heap k).left
      ∧ ((mouseUp (headerMouseDown o n false d b)).heap k).top = (o.heap k).top
      ∧ ((mouseUp (headerMouseDown o n false d b)).heap k).width = (o.heap k).width
      ∧ ((mouseUp (headerMouseDown o n false d b)).heap k).height = (o.heap k).height
      ∧ ((mouseUp (headerMouseDown o n false d b)).heap k).minimized = (o.heap k).minimized
      ∧ ((mouseUp (headerMouseDown o n false d b)).heap k).maximized
          = (o.heap k).maximized := by
    intro k
    obtain ⟨h1, h2, h3, h4, h5, h6⟩ := mouseUp_element (headerMouseDown o n false d b) k
    obtain ⟨g1, g2, g3, g4, g5, g6⟩ := headerMouseDown_element o n d b k
    exact ⟨h1.trans g1, h2.trans g2, h3.trans g3, h4.trans g4, h5.trans g5, h6.trans g6⟩
  obtain ⟨f1, -, -, f4⟩ := foldl_endHandler_layout (headerMouseDown o n false d b).docListeners
    (headerMouseDown o n false d b)
  have hwin : (mouseUp (headerMouseDown o n false d b)).windows = o.windows := by
    rw [mouseUp, f1]; simp [headerMouseDown]
  have hcur := currentLayout_congr o (headerMouseDown o n false d b)
    (by simp [headerMouseDown]) (by simp [headerMouseDown])
    (headerMouseDown_element o n d b)
  refine ⟨hel, hwin, ?_, ?_⟩
  · simp only [Overlay.views, hwin]
    apply List.map_congr_left
    intro w _
    obtain ⟨e1, e2, e3, e4, e5, e6⟩ := hel w.element
    simp [viewOf, e1, e2, e3, e4, e5, e6]
  · rw [mouseUp, f4, hcur]
    simp [headerMouseDown]

/-- C9 (amended): drag with no movement. A header press on a window followed
by the release, with no pointer-move in between, leaves the left, top, width,
height and both flags of that element, and the view of every window, as they
were, and dispatches one save event, carrying the unchanged layout, for every
handler pair registered at the release: one for each press made before and
not yet released, and one for this press. From the idle state that is exactly
one save event, and the controller is idle again. -/
theorem drag_no_movement (o : Overlay) (n : Nat) (d b : Point) :
    ((mouseUp (headerMouseDown o n false d b)).heap n).left = (o.heap n).left
      ∧ ((mouseUp (headerMouseDown o n false d b)).heap n).top = (o.heap n).top
      ∧ ((mouseUp (headerMouseDown o n false d b)).heap n).width = (o.heap n).width
      ∧ ((mouseUp (headerMouseDown o n false d b)).heap n).height = (o.heap n).height
      ∧ ((mouseUp (headerMouseDown o n false d b)).heap n).minimized = (o.heap n).minimized
      ∧ ((mouseUp (headerMouseDown o n false d b)).heap n).maximized = (o.heap n).maximized
      ∧ (mouseUp (headerMouseDown o n false d b)).windows = o.windows
      ∧ (mouseUp (headerMouseDown o n false d b)).views = o.views
      ∧ (mouseUp (headerMouseDown o n false d b)).dispatched
          = o.dispatched ++ List.replicate (o.docListeners.length + 1) (currentLayout o)
      ∧ (mouseUp (headerMouseDown o n false d b)).dispatched.length
          = o.dispatched.length + (o.docListeners.length + 1)
      ∧ (o.docListeners = [] →
          (mouseUp (headerMouseDown o n false d b)).dispatched
              = o.dispatched ++ [currentLayout o]
            ∧ (mouseUp (headerMouseDown o n false d b)).dispatched.length
              = o.dispatched.length + 1
            ∧ (mouseUp (headerMouseDown o n false d b)).docListeners = []
            ∧ (mouseUp (headerMouseDown o n false d b)).draggedElement = none
            ∧ ((mouseUp (headerMouseDown o n false d b)).heap n).isDragging = false) := by
  obtain ⟨hel, hwin, hviews, hdisp⟩ := press_release_any o n d b
  obtain ⟨h1, h2, h3, h4, h5, h6⟩ := hel n
  refine ⟨h1, h2, h3, h4, h5, h6, hwin, hviews, hdisp, ?_, ?_⟩
  · rw [hdisp]; simp
  · intro hidle
    refine ⟨?_, ?_, ?_, ?_, ?_⟩
    · rw [hdisp, hidle]; simp
    · rw [hdisp, hidle]; simp
    · simp [mouseUp, headerMouseDown, hidle, endHandler, handleDragEnd, saveLayout]
    · simp [mouseUp, headerMouseDown, hidle, endHandler, handleDragEnd, saveLayout]
    · simp [mouseUp, headerMouseDown, hidle, endHandler, handleDragEnd, saveLayout]

theorem wholePixelWindow_idle : wholePixelWindow.docListeners = [] := by
  simp [wholePixelWindow, addWindow, canAddWindow_free, createWindow, saveLayout, Overlay.fresh]

/-- Witness for C9 (amended): press and release on the header of the clock
window at `(250, 150)`. -/
theorem drag_no_movement_witness :
    wholePixelWindow.docListeners = []
      ∧ (mouseUp (headerMouseDown wholePixelWindow 0 false ⟨260, 160⟩ ⟨250, 150⟩)).views
          = wholePixelWindow.views
      ∧ (mouseUp (headerMouseDown wholePixelWindow 0 false ⟨260, 160⟩ ⟨250, 150⟩)).dispatched.length
          = wholePixelWindow.dispatched.length + 1 :=
  ⟨wholePixelWindow_idle,
   (drag_no_movement wholePixelWindow 0 ⟨260, 160⟩ ⟨250, 150⟩).2.2.2.2.2.2.2.1,
   ((drag_no_movement wholePixelWindow 0 ⟨260, 160⟩ ⟨250, 150⟩).2.2.2.2.2.2.2.2.2.2
      wholePixelWindow_idle).2.1⟩

/-- C9 as stated fails. The header of the clock window has been pressed and
not released (`dragStarted`); a second press on the header, at the same point,
followed by the release with no pointer-move in between, dispatches two save
events: the release runs the end handler of both presses. -/
theorem drag_no_movement_counterexample :
    dragStarted.docListeners = [Listener.drag 0]
      ∧ (mouseUp (headerMouseDown dragStarted 0 false ⟨260, 160⟩ ⟨250, 150⟩)).dispatched.length
          = dragStarted.dispatched.length + 2
      ∧ (mouseUp (headerMouseDown dragStarted 0 false ⟨260, 160⟩ ⟨250, 150⟩)).dispatched.length
          ≠ dragStarted.dispatched.length + 1 := by
  have hl : dragStarted.docListeners = [Listener.drag 0] := by
    simp [dragStarted, headerMouseDown, wholePixelWindow_idle]
  have h2 : (mouseUp (headerMouseDown dragStarted 0 false ⟨260, 160⟩
      ⟨250, 150⟩)).dispatched.length = dragStarted.dispatched.length + 2 := by
    rw [(press_release_any dragStarted 0 ⟨260, 160⟩ ⟨250, 150⟩).2.2.2, hl]
    simp
  refine ⟨hl, h2, ?_⟩
  rw [h2]
  omega

/-! ## Resizing -/

theorem resizeMouseDown_element (o : Overlay) (n : Nat) (s : Point) (off : Size) (k : Nat) :
    ((resizeMouseDown o n s off).heap k).left = (o.heap k).left
      ∧ ((resizeMouseDown o n s off).heap k).top = (o.heap k).top
      ∧ ((resizeMouseDown o n s off).heap k).width = (o.heap k).width
      ∧ ((resizeMouseDown o n s off).heap k).height = (o.heap k).height
      ∧ ((resizeMouseDown o n s off).heap k).minimized = (o.heap k).minimized
      ∧ ((resizeMouseDown o n s off).heap k).maximized = (o.heap k).maximized := by
  simp only [resizeMouseDown]
  by_cases hk : k = n
  · subst hk; simp
  · simp [Function.update_noteq hk]

/-- A resize whose release comes before any animation frame stores the size the
element had at the press, whatever size the pointer asked for. -/
theorem resize_release_without_frame (o : Overlay) (n : Nat) (s p : Point) (off : Size) :
    ((mouseUp (mouseMove (resizeMouseDown o n s off) p)).heap n).width = (o.heap n).width
      ∧ ((mouseUp (mouseMove (resizeMouseDown o n s off) p)).heap n).height
          = (o.heap n).height := by
  obtain ⟨-, -, h3, h4, -, -⟩ := mouseUp_element (mouseMove (resizeMouseDown o n s off) p) n
  obtain ⟨-, -, -, -, g5, g6, -, -⟩ :=
    foldl_moveHandler_element p (resizeMouseDown o n s off).docListeners n
      (resizeMouseDown o n s off)
  obtain ⟨-, -, e3, e4, -, -⟩ := resizeMouseDown_element o n s off n
  exact ⟨h3.trans (g5.trans e3), h4.trans (g6.trans e4)⟩

theorem runFrameCallback_resize (o : Overlay) (n : Nat) (w h : Rat)
    (hw : (o.heap n).currentWidth = some w) (hh : (o.heap n).currentHeight = some h) :
    ((runFrameCallback o (FrameCallback.resize n)).heap n).width = max 200 w
      ∧ ((runFrameCallback o (FrameCallback.resize n)).heap n).height = max 150 h := by
  simp [runFrameCallback, hw, hh]

theorem runFrameCallback_keeps_size (o : Overlay) (c : FrameCallback) (n : Nat) (w h : Rat)
    (hw : (o.heap n).currentWidth = some w) (hh : (o.heap n).currentHeight = some h)
    (hs : (o.heap n).width = max 200 w ∧ (o.heap n).height = max 150 h) :
    ((runFrameCallback o c).heap n).width = max 200 w
      ∧ ((runFrameCallback o c).heap n).height = max 150 h := by
  cases c with
  | drag node =>
    simp only [runFrameCallback]
    by_cases hk : n = node
    · subst hk
      cases (o.heap n).currentX <;> cases (o.heap n).currentY <;> simpa using hs
    · simpa [Function.update_noteq hk] using hs
  | resize node =>
    by_cases hk : n = node
    · subst hk; exact runFrameCallback_resize o n w h hw hh
    · simpa [runFrameCallback, Function.update_noteq hk] using hs

theorem foldl_runFrameCallback_resize (n : Nat) (w h : Rat) (cs : List FrameCallback) :
    ∀ o : Overlay, (o.heap n).currentWidth = some w → (o.heap n).currentHeight = some h →
      (((o.heap n).width = max 200 w ∧ (o.heap n).height = max 150 h)
          ∨ FrameCallback.resize n ∈ cs) →
        ((cs.foldl runFrameCallback o).heap n).width = max 200 w
          ∧ ((cs.foldl runFrameCallback o).heap n).height = max 150 h := by
  induction cs with
  | nil =>
    intro o _ _ hs
    rcases hs with hs | hs
    · simpa using hs
    · simp at hs
  | cons c cs ih =>
    intro o hw hh hs
    simp only [List.foldl_cons]
    have hw1 : ((runFrameCallback o c).heap n).currentWidth = some w := by
      rw [(runFrameCallback_closure o c n).2.2.1]; exact hw
    have hh1 : ((runFrameCallback o c).heap n).currentHeight = some h := by
      rw [(runFrameCallback_closure o c n).2.2.2]; exact hh
    apply ih _ hw1 hh1
    rcases hs with hs | hs
    · exact Or.inl (runFrameCallback_keeps_size o c n w h hw hh hs)
    · rcases List.mem_cons.mp hs with hc | hc
      · subst hc
        exact Or.inl (runFrameCallback_resize o n w h hw hh)
      · exact Or.inr hc

/-- A resize from the idle state in which an animation frame runs between the
pointer-move and the release stores the clamped size. -/
theorem resize_release_after_frame (o : Overlay) (n : Nat) (s p : Point) (off : Size)
    (hidle : o.docListeners = []) :
    ((mouseUp (animationFrame (mouseMove (resizeMouseDown o n s off) p))).heap n).width
        = max 200 (off.width + (p.x - s.x))
      ∧ ((mouseUp (animationFrame (mouseMove (resizeMouseDown o n s off) p))).heap n).height
        = max 150 (off.height + (p.y - s.y)) := by
  have hmove : mouseMove (resizeMouseDown o n s off) p
      = handleResize (resizeMouseDown o n s off) n s.x s.y off.width off.height p := by
    simp [mouseMove, resizeMouseDown, hidle, moveHandler]
  have hw : ((mouseMove (resizeMouseDown o n s off) p).heap n).currentWidth
      = some (off.width + (p.x - s.x)) := by
    rw [hmove]; simp [handleResize, resizeMouseDown]
  have hh : ((mouseMove (resizeMouseDown o n s off) p).heap n).currentHeight
      = some (off.height + (p.y - s.y)) := by
    rw [hmove]; simp [handleResize, resizeMouseDown]
  have hq : FrameCallback.resize n ∈ (mouseMove (resizeMouseDown o n s off) p).frameQueue := by
    rw [hmove]; simp [handleResize, resizeMouseDown]
  have hframe := foldl_runFrameCallback_resize n _ _
    (mouseMove (resizeMouseDown o n s off) p).frameQueue _ hw hh (Or.inr hq)
  obtain ⟨-, -, h3, h4, -, -⟩ :=
    mouseUp_element (animationFrame (mouseMove (resizeMouseDown o n s off) p)) n
  rw [h3, h4]
  simpa [animationFrame] using hframe

theorem handleResizeEnd_dispatched (o : Overlay) (n : Nat) (sx sy sw sh : Rat) :
    (handleResizeEnd o n sx sy sw sh).dispatched = o.dispatched ++ [currentLayout o] := by
  have hcur := currentLayout_congr o
    { o with heap := Function.update o.heap n
               ({ o.heap n with isResizing := false, willChange := "auto" }),
             frameQueue := o.frameQueue.filter (fun c => c ≠ FrameCallback.resize n) }
    rfl rfl
    (by
      intro k
      by_cases hk : k = n
      · subst hk; simp
      · simp [Function.update_noteq hk])
  simp only [handleResizeEnd, saveLayout]
  rw [hcur]

/-- The save event of a resize released before any animation frame carries
the layout from before the press. -/
theorem resize_release_dispatched (o : Overlay) (n : Nat) (s p : Point) (off : Size)
    (hidle : o.docListeners = []) :
    (mouseUp (mouseMove (resizeMouseDown o n s off) p)).dispatched
      = o.dispatched ++ [currentLayout o] := by
  obtain ⟨-, hls, hws, hps, hds⟩ :=
    foldl_moveHandler_frame p (resizeMouseDown o n s off).docListeners
      (resizeMouseDown o n s off)
  have hup : mouseUp (mouseMove (resizeMouseDown o n s off) p)
      = handleResizeEnd (mouseMove (resizeMouseDown o n s off) p) n s.x s.y
          off.width off.height := by
    rw [mouseUp, mouseMove, hls]
    simp [resizeMouseDown, hidle, endHandler]
  rw [hup, handleResizeEnd_dispatched]
  have hcur := currentLayout_congr o (mouseMove (resizeMouseDown o n s off) p)
    (by rw [mouseMove, hws]; simp [resizeMouseDown])
    (by rw [mouseMove, hps]; simp [resizeMouseDown])
    (by
      intro k
      obtain ⟨-, -, g3, g4, g5, g6, g7, g8⟩ :=
        foldl_moveHandler_element p (resizeMouseDown o n s off).docListeners k
          (resizeMouseDown o n s off)
      obtain ⟨e1, e2, e3, e4, e5, e6⟩ := resizeMouseDown_element o n s off k
      exact ⟨g3.trans e1, g4.trans e2, g5.trans e3, g6.trans e4, g7.trans e5, g8.trans e6⟩)
  rw [hcur, mouseMove, hds]
  simp [resizeMouseDown]

theorem wholePixelWindow_element :
    (wholePixelWindow.heap 0).width = 400 ∧ (wholePixelWindow.heap 0).height = 300 := by
  simp [wholePixelWindow, addWindow, canAddWindow_free, createWindow, saveLayout, Overlay.fresh]

/-- C7 at a failing input. The clock window (400 by 300) is resized with the
pointer going from `(645, 445)` to `(345, 145)` and released before an
animation frame: the size asked for is 100 by 0, below both minimums, and the
stored size stays 400 by 300 instead of 200 by 150, and the save event carries
the layout from before the resize. Had a frame run before the release, the
stored size would be 200 by 150. -/
theorem resize_clamp_lost_on_release :
    (resizeMoved.heap 0).currentWidth = some 100
      ∧ (resizeMoved.heap 0).currentHeight = some 0
      ∧ ((mouseUp resizeMoved).heap 0).width = 400
      ∧ ((mouseUp resizeMoved).heap 0).height = 300
      ∧ (mouseUp resizeMoved).dispatched.getLast? = some (currentLayout wholePixelWindow)
      ∧ ((mouseUp (animationFrame resizeMoved)).heap 0).width = 200
      ∧ ((mouseUp (animationFrame resizeMoved)).heap 0).height = 150 := by
  obtain ⟨hw, hh⟩ := resize_release_without_frame wholePixelWindow 0 ⟨645, 445⟩ ⟨345, 145⟩
    ⟨400, 300⟩
  obtain ⟨gw, gh⟩ := resize_release_after_frame wholePixelWindow 0 ⟨645, 445⟩ ⟨345, 145⟩
    ⟨400, 300⟩ wholePixelWindow_idle
  have hmove : resizeMoved
      = handleResize resizeStarted 0 645 445 400 300 ⟨345, 145⟩ := by
    simp [resizeMoved, resizeStarted, mouseMove, resizeMouseDown, wholePixelWindow_idle,
      moveHandler]
  refine ⟨?_, ?_, ?_, ?_, ?_, ?_, ?_⟩
  · rw [hmove]; simp [handleResize, resizeStarted, resizeMouseDown]; norm_num
  · rw [hmove]; simp [handleResize, resizeStarted, resizeMouseDown]; norm_num
  · rw [resizeMoved, resizeStarted, hw]; exact wholePixelWindow_element.1
  · rw [resizeMoved, resizeStarted, hh]; exact wholePixelWindow_element.2
  · rw [resizeMoved, resizeStarted,
      resize_release_dispatched wholePixelWindow 0 ⟨645, 445⟩ ⟨345, 145⟩ ⟨400, 300⟩
        wholePixelWindow_idle]
    simp
  · rw [resizeMoved, resizeStarted, gw]; norm_num
  · rw [resizeMoved, resizeStarted, gh]; norm_num

/-! ## Two header presses -/

theorem runFrameCallback_frame (o : Overlay) (c : FrameCallback) (k : Nat) :
    (runFrameCallback o c).dragOffset = o.dragOffset
      ∧ (runFrameCallback o c).docListeners = o.docListeners
      ∧ ((runFrameCallback o c).heap k).isDragging = (o.heap k).isDragging := by
  cases c with
  | drag node =>
    simp only [runFrameCallback]
    by_cases hk : k = node
    · subst hk
      cases hx : (o.heap k).currentX <;> cases hy : (o.heap k).currentY <;> simp [hx, hy]
    · simp [Function.update_noteq hk]
  | resize node =>
    simp only [runFrameCallback]
    by_cases hk : k = node
    · subst hk
      cases hw : (o.heap k).currentWidth <;> cases hh : (o.heap k).currentHeight <;>
        simp [hw, hh]
    · simp [Function.update_noteq hk]

theorem foldl_runFrameCallback_frame (k : Nat) (cs : List FrameCallback) :
    ∀ o : Overlay,
      (cs.foldl runFrameCallback o).dragOffset = o.dragOffset
        ∧ (cs.foldl runFrameCallback o).docListeners = o.docListeners
        ∧ ((cs.foldl runFrameCallback o).heap k).isDragging = (o.heap k).isDragging := by
  induction cs with
  | nil => intro o; simp
  | cons c cs ih =>
    intro o
    obtain ⟨h1, h2, h3⟩ := ih (runFrameCallback o c)
    obtain ⟨g1, g2, g3⟩ := runFrameCallback_frame o c k
    simp only [List.foldl_cons]
    exact ⟨h1.trans g1, h2.trans g2, h3.trans g3⟩

/-- A pointer-move followed by an animation frame keeps a dragged element
dragged, its listener pair registered and the drag offset. -/
theorem move_frame_keeps_drag (o : Overlay) (n : Nat) (m : Point)
    (hl : Listener.drag n ∈ o.docListeners) (hd : (o.heap n).isDragging = true) :
    Listener.drag n ∈ (animationFrame (mouseMove o m)).docListeners
      ∧ ((animationFrame (mouseMove o m)).heap n).isDragging = true
      ∧ (animationFrame (mouseMove o m)).dragOffset = o.dragOffset := by
  obtain ⟨h1, h2, h3⟩ := foldl_runFrameCallback_frame n (mouseMove o m).frameQueue (mouseMove o m)
  obtain ⟨g1, g2, -, -, -⟩ := foldl_moveHandler_frame m o.docListeners o
  obtain ⟨e1, -⟩ := foldl_moveHandler_element m o.docListeners n o
  simp only [animationFrame]
  refine ⟨?_, ?_, ?_⟩
  · rw [h2, mouseMove, g2]; exact hl
  · rw [h3, mouseMove, e1]; exact hd
  · rw [h1, mouseMove, g1]

/-- A drag that is under way ends, after a pointer-move to `m`, an animation
frame and the release, at `m` minus the drag offset. -/
theorem drag_completes (o : Overlay) (n : Nat) (m : Point)
    (hl : Listener.drag n ∈ o.docListeners) (hd : (o.heap n).isDragging = true) :
    ((mouseUp (animationFrame (mouseMove o m))).heap n).left = m.x - o.dragOffset.x
      ∧ ((mouseUp (animationFrame (mouseMove o m))).heap n).top = m.y - o.dragOffset.y := by
  obtain ⟨-, -, hleft, htop⟩ := drag_move_frame o n m hl hd
  obtain ⟨h1, h2, -, -, -, -⟩ := mouseUp_element (animationFrame (mouseMove o m)) n
  exact ⟨h1.trans hleft, h2.trans htop⟩

theorem second_press_state (o : Overlay) (a b : Nat) (dA bA : Point)
    (hl : Listener.drag b ∈ o.docListeners) (hd : (o.heap b).isDragging = true) :
    ((headerMouseDown o a false dA bA).heap a).isDragging = true
      ∧ ((headerMouseDown o a false dA bA).heap b).isDragging = true
      ∧ Listener.drag a ∈ (headerMouseDown o a false dA bA).docListeners
      ∧ Listener.drag b ∈ (headerMouseDown o a false dA bA).docListeners
      ∧ (headerMouseDown o a false dA bA).draggedElement = some a
      ∧ (headerMouseDown o a false dA bA).dragOffset = ⟨dA.x - bA.x, dA.y - bA.y⟩ := by
  refine ⟨?_, ?_, ?_, ?_, ?_, ?_⟩
  · simp [headerMouseDown]
  · by_cases hk : b = a
    · subst hk; simp [headerMouseDown]
    · simp [headerMouseDown, Function.update_noteq hk, hd]
  · simp [headerMouseDown]
  · simp [headerMouseDown, hl]
  · simp [headerMouseDown]
  · simp [headerMouseDown]

/-- C10 (amended): drags are not mutually exclusive. In a state where window
`b` is mid-drag, a header press on window `a` is accepted: afterwards both
elements are dragging and `draggedElement` is `a`; a pointer-move then queues
a position write for both; and after a pointer-move to `m`, an animation frame
and the release, `a` stands at `m` minus its press offset (its press point
minus its top-left). -/
theorem drag_not_exclusive (o : Overlay) (a b : Nat) (dA bA m : Point)
    (hl : Listener.drag b ∈ o.docListeners) (hd : (o.heap b).isDragging = true) :
    ((headerMouseDown o a false dA bA).heap a).isDragging = true
      ∧ ((headerMouseDown o a false dA bA).heap b).isDragging = true
      ∧ (headerMouseDown o a false dA bA).draggedElement = some a
      ∧ FrameCallback.drag a ∈ (mouseMove (headerMouseDown o a false dA bA) m).frameQueue
      ∧ FrameCallback.drag b ∈ (mouseMove (headerMouseDown o a false dA bA) m).frameQueue
      ∧ ((mouseUp (animationFrame (mouseMove (headerMouseDown o a false dA bA) m))).heap a).left
          = m.x - (dA.x - bA.x)
      ∧ ((mouseUp (animationFrame (mouseMove (headerMouseDown o a false dA bA) m))).heap a).top
          = m.y - (dA.y - bA.y) := by
  obtain ⟨ha, hb, hla, hlb, hde, hoff⟩ := second_press_state o a b dA bA hl hd
  obtain ⟨hal, hat⟩ := drag_completes (headerMouseDown o a false dA bA) a m hla ha
  have hqa := (mouseMove_computes (headerMouseDown o a false dA bA) m a hla ha).2.2
  have hqb := (mouseMove_computes (headerMouseDown o a false dA bA) m b hlb hb).2.2
  rw [hoff] at hal hat
  exact ⟨ha, hb, hde, hqa, hqb, hal, hat⟩

theorem twoWindows_left : (twoWindows.heap 0).left = 250 ∧ (twoWindows.heap 1).left = 100 := by
  simp [twoWindows, addWindows, addWindow, canAddWindow_free, createWindow, saveLayout,
    Overlay.fresh, Function.update]
  norm_num [roundDouble_zero, roundDouble_50, roundDouble_100, roundDouble_150,
    roundDouble_250, roundDouble_three_quarters, roundDouble_403_quarters]

theorem clockDragged_midDrag :
    Listener.drag 0 ∈ clockDragged.docListeners
      ∧ (clockDragged.heap 0).isDragging = true
      ∧ clockDragged.dragOffset = ⟨350, 10⟩ := by
  obtain ⟨hoff, -, hdrag, hl⟩ := headerMouseDown_state twoWindows 0 ⟨600, 160⟩ ⟨250, 150⟩
  obtain ⟨h1, h2, h3⟩ := move_frame_keeps_drag clockPressed 0 ⟨300, 210⟩ hl hdrag
  refine ⟨h1, h2, ?_⟩
  rw [clockDragged, h3, clockPressed, hoff]
  norm_num

theorem clockDragged_todo_left : (clockDragged.heap 1).left = 100 := by
  obtain ⟨-, -, g3, -⟩ :=
    foldl_moveHandler_element ⟨300, 210⟩ clockPressed.docListeners 1 clockPressed
  have hq : (mouseMove clockPressed ⟨300, 210⟩).frameQueue = [FrameCallback.drag 0] := by
    simp [mouseMove, clockPressed, headerMouseDown, twoWindows, addWindows, addWindow,
      canAddWindow_free, createWindow, saveLayout, Overlay.fresh, moveHandler, handleDrag]
  have hpress : (clockPressed.heap 1).left = 100 := by
    rw [clockPressed, (headerMouseDown_element twoWindows 0 ⟨600, 160⟩ ⟨250, 150⟩ 1).1]
    exact twoWindows_left.2
  simp only [clockDragged, animationFrame, hq, List.foldl_cons, List.foldl_nil,
    runFrameCallback]
  rw [Function.update_noteq (by decide)]
  rw [mouseMove, g3, hpress]

/-- Witness for C10 (amended): the press on the to-do window while the clock
window of `clockDragged` is mid-drag, then a move to `(400, 400)`. -/
theorem drag_not_exclusive_witness :
    (Listener.drag 0 ∈ clockDragged.docListeners ∧ (clockDragged.heap 0).isDragging = true)
      ∧ (bothPressed.heap 1).isDragging = true
      ∧ (bothPressed.heap 0).isDragging = true
      ∧ FrameCallback.drag 0 ∈ (mouseMove bothPressed ⟨400, 400⟩).frameQueue
      ∧ ((mouseUp (animationFrame (mouseMove bothPressed ⟨400, 400⟩))).heap 1).left
          = 400 - (300 - 100) :=
  ⟨⟨clockDragged_midDrag.1, clockDragged_midDrag.2.1⟩,
   (drag_not_exclusive clockDragged 1 0 ⟨300, 210⟩ ⟨100, 200⟩ ⟨400, 400⟩
      clockDragged_midDrag.1 clockDragged_midDrag.2.1).1,
   (drag_not_exclusive clockDragged 1 0 ⟨300, 210⟩ ⟨100, 200⟩ ⟨400, 400⟩
      clockDragged_midDrag.1 clockDragged_midDrag.2.1).2.1,
   (drag_not_exclusive clockDragged 1 0 ⟨300, 210⟩ ⟨100, 200⟩ ⟨400, 400⟩
      clockDragged_midDrag.1 clockDragged_midDrag.2.1).2.2.2.2.1,
   (drag_not_exclusive clockDragged 1 0 ⟨300, 210⟩ ⟨100, 200⟩ ⟨400, 400⟩
      clockDragged_midDrag.1 clockDragged_midDrag.2.1).2.2.2.2.2.1⟩

/-- C10 as stated fails. With the clock window of `twoWindows` mid-drag and the
pointer over the to-do window, a press on the header of the to-do window is
accepted: both elements are dragging at once; the next pointer-move, to
`(400, 400)`, moves the to-do window from `left = 100` to `left = 200`, and
the clock window ends its drag at `left = 200` where without the second press
it would have ended at `left = 50`. -/
theorem drag_exclusion_counterexample :
    (bothPressed.heap 1).isDragging = true
      ∧ (bothPressed.heap 0).isDragging = true
      ∧ (clockDragged.heap 1).left = 100
      ∧ ((mouseUp (animationFrame (mouseMove bothPressed ⟨400, 400⟩))).heap 1).left = 200
      ∧ ((mouseUp (animationFrame (mouseMove bothPressed ⟨400, 400⟩))).heap 0).left = 200
      ∧ ((mouseUp (animationFrame (mouseMove clockDragged ⟨400, 400⟩))).heap 0).left = 50 := by
  obtain ⟨hl, hd, hoff⟩ := clockDragged_midDrag
  obtain ⟨ha, hb, hla, hlb, -, hoff2⟩ :=
    second_press_state clockDragged 1 0 ⟨300, 210⟩ ⟨100, 200⟩ hl hd
  obtain ⟨hal, -⟩ := drag_completes bothPressed 1 ⟨400, 400⟩ hla ha
  obtain ⟨hbl, -⟩ := drag_completes bothPressed 0 ⟨400, 400⟩ hlb hb
  obtain ⟨hol, -⟩ := drag_completes clockDragged 0 ⟨400, 400⟩ hl hd
  have hoff3 : bothPressed.dragOffset = ⟨200, 10⟩ := by
    rw [bothPressed, hoff2]; norm_num
  refine ⟨ha, hb, clockDragged_todo_left, ?_, ?_, ?_⟩
  · rw [hal, hoff3]; norm_num
  · rw [hbl, hoff3]; norm_num
  · rw [hol, hoff]; norm_num

/-! ## A resize press during a drag -/

theorem resizeMouseDown_state (o : Overlay) (n : Nat) (s : Point) (off : Size) (k : Nat) :
    ((resizeMouseDown o n s off).heap n).isResizing = true
      ∧ (resizeMouseDown o n s off).docListeners
          = o.docListeners ++ [Listener.resize n s.x s.y off.width off.height]
      ∧ (resizeMouseDown o n s off).resizeHandle = some n
      ∧ (resizeMouseDown o n s off).draggedElement = o.draggedElement
      ∧ (resizeMouseDown o n s off).dragOffset = o.dragOffset
      ∧ ((resizeMouseDown o n s off).heap k).isDragging = (o.heap k).isDragging := by
  refine ⟨?_, ?_, ?_, ?_, ?_, ?_⟩
  · simp [resizeMouseDown]
  · simp [resizeMouseDown]
  · simp [resizeMouseDown]
  · simp [resizeMouseDown]
  · simp [resizeMouseDown]
  · by_cases hk : k = n
    · subst hk; simp [resizeMouseDown]
    · simp [resizeMouseDown, Function.update_noteq hk]

/-- After a press on the resize handle of `n`, a pointer-move to `p` and an
animation frame, the element has the clamped size, whatever listeners were
registered before the press. -/
theorem resize_move_frame (o : Overlay) (n : Nat) (s p : Point) (off : Size) :
    ((animationFrame (mouseMove (resizeMouseDown o n s off) p)).heap n).width
        = max 200 (off.width + (p.x - s.x))
      ∧ ((animationFrame (mouseMove (resizeMouseDown o n s off) p)).heap n).height
        = max 150 (off.height + (p.y - s.y)) := by
  obtain ⟨hres, hls, -, -, -, -⟩ := resizeMouseDown_state o n s off n
  have hmove : mouseMove (resizeMouseDown o n s off) p
      = handleResize (o.docListeners.foldl (moveHandler p) (resizeMouseDown o n s off))
          n s.x s.y off.width off.height p := by
    rw [mouseMove, hls, List.foldl_append]
    rfl
  have hmid : ((o.docListeners.foldl (moveHandler p) (resizeMouseDown o n s off)).heap n).isResizing
      = true := by
    rw [(foldl_moveHandler_element p o.docListeners n (resizeMouseDown o n s off)).2.1]
    exact hres
  have hw : ((mouseMove (resizeMouseDown o n s off) p).heap n).currentWidth
      = some (off.width + (p.x - s.x)) := by
    rw [hmove]; simp [handleResize, hmid]
  have hh : ((mouseMove (resizeMouseDown o n s off) p).heap n).currentHeight
      = some (off.height + (p.y - s.y)) := by
    rw [hmove]; simp [handleResize, hmid]
  have hq : FrameCallback.resize n ∈ (mouseMove (resizeMouseDown o n s off) p).frameQueue := by
    rw [hmove]; simp [handleResize, hmid]
  have hframe := foldl_runFrameCallback_resize n _ _
    (mouseMove (resizeMouseDown o n s off) p).frameQueue _ hw hh (Or.inr hq)
  simpa [animationFrame] using hframe

/-- C11 (amended): resize and drag are not mutually exclusive. In a state where
window `b` is mid-drag, a press on the resize handle of window `a` is
accepted: afterwards `a` is resizing while `b` is still dragging
(`resizeHandle` is `a`, `draggedElement` is untouched); after a pointer-move to
`p`, an animation frame and the release, `a` has the clamped size
`max(200, w0 + dx)` by `max(150, h0 + dy)` and `b` stands at `p` minus the drag
offset. -/
theorem resize_during_drag (o : Overlay) (a b : Nat) (s p : Point) (off : Size)
    (hl : Listener.drag b ∈ o.docListeners) (hd : (o.heap b).isDragging = true) :
    ((resizeMouseDown o a s off).heap a).isResizing = true
      ∧ ((resizeMouseDown o a s off).heap b).isDragging = true
      ∧ (resizeMouseDown o a s off).resizeHandle = some a
      ∧ (resizeMouseDown o a s off).draggedElement = o.draggedElement
      ∧ ((mouseUp (animationFrame (mouseMove (resizeMouseDown o a s off) p))).heap a).width
          = max 200 (off.width + (p.x - s.x))
      ∧ ((mouseUp (animationFrame (mouseMove (resizeMouseDown o a s off) p))).heap a).height
          = max 150 (off.height + (p.y - s.y))
      ∧ ((mouseUp (animationFrame (mouseMove (resizeMouseDown o a s off) p))).heap b).left
          = p.x - o.dragOffset.x
      ∧ ((mouseUp (animationFrame (mouseMove (resizeMouseDown o a s off) p))).heap b).top
          = p.y - o.dragOffset.y := by
  obtain ⟨hres, hls, hrh, hde, hoff, hdrag⟩ := resizeMouseDown_state o a s off b
  have hres1 : ((resizeMouseDown o a s off).heap a).isResizing = true :=
    (resizeMouseDown_state o a s off a).1
  have hb : ((resizeMouseDown o a s off).heap b).isDragging = true := by rw [hdrag]; exact hd
  have hlb : Listener.drag b ∈ (resizeMouseDown o a s off).docListeners := by
    rw [hls]; exact List.mem_append_left _ hl
  obtain ⟨hw, hh⟩ := resize_move_frame o a s p off
  obtain ⟨-, -, hw1, hh1, -, -⟩ :=
    mouseUp_element (animationFrame (mouseMove (resizeMouseDown o a s off) p)) a
  obtain ⟨hleft, htop⟩ := drag_completes (resizeMouseDown o a s off) b p hlb hb
  rw [hoff] at hleft htop
  exact ⟨hres1, hb, hrh, hde, hw1.trans hw, hh1.trans hh, hleft, htop⟩

theorem runFrameCallback_drag_size (o : Overlay) (node k : Nat) :
    ((runFrameCallback o (FrameCallback.drag node)).heap k).width = (o.heap k).width
      ∧ ((runFrameCallback o (FrameCallback.drag node)).heap k).height = (o.heap k).height := by
  simp only [runFrameCallback]
  by_cases hk : k = node
  · subst hk
    cases hx : (o.heap k).currentX <;> cases hy : (o.heap k).currentY <;> simp [hx, hy]
  · simp [Function.update_noteq hk]

theorem twoWindows_size :
    (twoWindows.heap 1).width = 400 ∧ (twoWindows.heap 1).height = 300 := by
  simp [twoWindows, addWindows, addWindow, canAddWindow_free, createWindow, saveLayout,
    Overlay.fresh, Function.update]

theorem clockOverHandle_midDrag :
    Listener.drag 0 ∈ clockOverHandle.docListeners
      ∧ (clockOverHandle.heap 0).isDragging = true
      ∧ clockOverHandle.dragOffset = ⟨350, 10⟩ := by
  obtain ⟨hoff, -, hdrag, hl⟩ := headerMouseDown_state twoWindows 0 ⟨600, 160⟩ ⟨250, 150⟩
  obtain ⟨h1, h2, h3⟩ := move_frame_keeps_drag clockPressed 0 ⟨495, 495⟩ hl hdrag
  refine ⟨h1, h2, ?_⟩
  rw [clockOverHandle, h3, clockPressed, hoff]
  norm_num

theorem clockOverHandle_todo_size :
    (clockOverHandle.heap 1).width = 400 ∧ (clockOverHandle.heap 1).height = 300 := by
  obtain ⟨-, -, -, -, g5, g6, -, -⟩ :=
    foldl_moveHandler_element ⟨495, 495⟩ clockPressed.docListeners 1 clockPressed
  have hq : (mouseMove clockPressed ⟨495, 495⟩).frameQueue = [FrameCallback.drag 0] := by
    simp [mouseMove, clockPressed, headerMouseDown, twoWindows, addWindows, addWindow,
      canAddWindow_free, createWindow, saveLayout, Overlay.fresh, moveHandler, handleDrag]
  obtain ⟨e3, e4⟩ :=
    runFrameCallback_drag_size (mouseMove clockPressed ⟨495, 495⟩) 0 1
  obtain ⟨-, -, p3, p4, -, -⟩ :=
    headerMouseDown_element twoWindows 0 ⟨600, 160⟩ ⟨250, 150⟩ 1
  simp only [clockOverHandle, animationFrame, hq, List.foldl_cons, List.foldl_nil]
  rw [e3, e4, mouseMove, g5, g6, clockPressed, p3, p4]
  exact twoWindows_size

/-- Witness for C11 (amended): the press on the resize handle of the to-do
window while the clock window of `clockOverHandle` is mid-drag, then a move to
`(595, 545)`. -/
theorem resize_during_drag_witness :
    (Listener.drag 0 ∈ clockOverHandle.docListeners
        ∧ (clockOverHandle.heap 0).isDragging = true)
      ∧ (dragAndResize.heap 1).isResizing = true
      ∧ (dragAndResize.heap 0).isDragging = true
      ∧ ((mouseUp (animationFrame (mouseMove dragAndResize ⟨595, 545⟩))).heap 1).width
          = max 200 (400 + (595 - 495)) :=
  ⟨⟨clockOverHandle_midDrag.1, clockOverHandle_midDrag.2.1⟩,
   (resize_during_drag clockOverHandle 1 0 ⟨495, 495⟩ ⟨595, 545⟩ ⟨400, 300⟩
      clockOverHandle_midDrag.1 clockOverHandle_midDrag.2.1).1,
   (resize_during_drag clockOverHandle 1 0 ⟨495, 495⟩ ⟨595, 545⟩ ⟨400, 300⟩
      clockOverHandle_midDrag.1 clockOverHandle_midDrag.2.1).2.1,
   (resize_during_drag clockOverHandle 1 0 ⟨495, 495⟩ ⟨595, 545⟩ ⟨400, 300⟩
      clockOverHandle_midDrag.1 clockOverHandle_midDrag.2.1).2.2.2.2.1⟩

/-- C11 as stated fails. With the clock window of `twoWindows` mid-drag and the
pointer over the resize handle of the to-do window, a press on that handle is
accepted: a drag and a resize are active at once, and the next pointer-move,
to `(595, 545)`, changes the size of the to-do window from 400 by 300 to
500 by 350. -/
theorem resize_exclusion_counterexample :
    (dragAndResize.heap 0).isDragging = true
      ∧ (dragAndResize.heap 1).isResizing = true
      ∧ (clockOverHandle.heap 1).width = 400
      ∧ (clockOverHandle.heap 1).height = 300
      ∧ ((mouseUp (animationFrame (mouseMove dragAndResize ⟨595, 545⟩))).heap 1).width = 500
      ∧ ((mouseUp (animationFrame (mouseMove dragAndResize ⟨595, 545⟩))).heap 1).height
          = 350 := by
  obtain ⟨-, hd, -⟩ := clockOverHandle_midDrag
  obtain ⟨hres, -, -, -, -, hdrag⟩ :=
    resizeMouseDown_state clockOverHandle 1 ⟨495, 495⟩ ⟨400, 300⟩ 0
  have hres1 := (resizeMouseDown_state clockOverHandle 1 ⟨495, 495⟩ ⟨400, 300⟩ 1).1
  obtain ⟨hw, hh⟩ := resize_move_frame clockOverHandle 1 ⟨495, 495⟩ ⟨595, 545⟩ ⟨400, 300⟩
  obtain ⟨-, -, hw1, hh1, -, -⟩ :=
    mouseUp_element (animationFrame (mouseMove dragAndResize ⟨595, 545⟩)) 1
  refine ⟨?_, hres1, clockOverHandle_todo_size.1, clockOverHandle_todo_size.2, ?_, ?_⟩
  · rw [dragAndResize, hdrag]; exact hd
  · rw [hw1, dragAndResize, hw]; norm_num
  · rw [hh1, dragAndResize, hh]; norm_num

/-! ## Release of a drag before the frame -/

theorem currentLayout_views (o : Overlay) :
    (currentLayout o).windows.map (List.map WindowRecord.view)
      = some (o.views.map WindowView.truncated) := by
  simp [currentLayout, Overlay.views, windowRecord_view]

/-- A drag whose release comes before any animation frame leaves every element
where it was at the press, whatever position the pointer-moves computed. -/
theorem drag_release_without_frame (o : Overlay) (n k : Nat) (d b m : Point) :
    ((mouseUp (mouseMove (headerMouseDown o n false d b) m)).heap k).left = (o.heap k).left
      ∧ ((mouseUp (mouseMove (headerMouseDown o n false d b) m)).heap k).top
          = (o.heap k).top := by
  obtain ⟨h1, h2, -, -, -, -⟩ := mouseUp_element (mouseMove (headerMouseDown o n false d b) m) k
  obtain ⟨-, -, g3, g4, -, -, -, -⟩ :=
    foldl_moveHandler_element m (headerMouseDown o n false d b).docListeners k
      (headerMouseDown o n false d b)
  obtain ⟨e1, e2, -, -, -, -⟩ := headerMouseDown_element o n d b k
  exact ⟨h1.trans (g3.trans e1), h2.trans (g4.trans e2)⟩

/-- The save event of a drag released before any animation frame carries the
layout from before the press. -/
theorem drag_release_dispatched (o : Overlay) (n : Nat) (d b m : Point)
    (hidle : o.docListeners = []) :
    (mouseUp (mouseMove (headerMouseDown o n false d b) m)).dispatched
      = o.dispatched ++ [currentLayout o] := by
  obtain ⟨-, hls, hws, hps, hds⟩ :=
    foldl_moveHandler_frame m (headerMouseDown o n false d b).docListeners
      (headerMouseDown o n false d b)
  have hup : mouseUp (mouseMove (headerMouseDown o n false d b) m)
      = handleDragEnd (mouseMove (headerMouseDown o n false d b) m) n := by
    rw [mouseUp, mouseMove, hls]
    simp [headerMouseDown, hidle, endHandler]
  rw [hup, handleDragEnd_dispatched]
  have hcur := currentLayout_congr o (mouseMove (headerMouseDown o n false d b) m)
    (by rw [mouseMove, hws]; simp [headerMouseDown])
    (by rw [mouseMove, hps]; simp [headerMouseDown])
    (by
      intro k
      obtain ⟨-, -, g3, g4, g5, g6, g7, g8⟩ :=
        foldl_moveHandler_element m (headerMouseDown o n false d b).docListeners k
          (headerMouseDown o n false d b)
      obtain ⟨e1, e2, e3, e4, e5, e6⟩ := headerMouseDown_element o n d b k
      exact ⟨g3.trans e1, g4.trans e2, g5.trans e3, g6.trans e4, g7.trans e5, g8.trans e6⟩)
  rw [hcur, mouseMove, hds]
  simp [headerMouseDown]

theorem wholePixelWindow_position :
    (wholePixelWindow.heap 0).left = 250 ∧ (wholePixelWindow.heap 0).top = 150 := by
  simp [wholePixelWindow, addWindow, canAddWindow_free, createWindow, saveLayout, Overlay.fresh]
  norm_num [roundDouble_zero, roundDouble_50, roundDouble_100, roundDouble_150,
    roundDouble_250, roundDouble_three_quarters, roundDouble_403_quarters]

theorem wholePixelWindow_layout :
    (currentLayout wholePixelWindow).windows.map (List.map WindowRecord.view)
      = some [⟨"clock", 250, 150, 400, 300, false, false⟩] := by
  rw [currentLayout_views, wholePixelWindow_views]
  have h : (⟨"clock", 250, 150, 400, 300, false, false⟩ : WindowView).wholePixels :=
    ⟨⟨250, by norm_num⟩, ⟨150, by norm_num⟩, ⟨400, by norm_num⟩, ⟨300, by norm_num⟩⟩
  simp [WindowView.truncated_of_wholePixels _ h]

/-- C12 at a failing input. The clock window at `(250, 150)` is pressed on its
header at `(260, 160)`, the pointer moves to `(360, 210)` and is released
before an animation frame: the position computed by the move is `(350, 200)`,
yet the element stays at `(250, 150)` and the one save event dispatched by the
release carries the position `(250, 150)`. Had a frame run before the release,
the element would stand at `(350, 200)`. -/
theorem drag_commit_lost_on_release :
    (dragMoved.heap 0).currentX = some 350
      ∧ (dragMoved.heap 0).currentY = some 200
      ∧ ((mouseUp dragMoved).heap 0).left = 250
      ∧ ((mouseUp dragMoved).heap 0).top = 150
      ∧ (mouseUp dragMoved).dispatched = wholePixelWindow.dispatched
          ++ [currentLayout wholePixelWindow]
      ∧ (currentLayout wholePixelWindow).windows.map (List.map WindowRecord.view)
          = some [⟨"clock", 250, 150, 400, 300, false, false⟩]
      ∧ ((mouseUp (animationFrame dragMoved)).heap 0).left = 350
      ∧ ((mouseUp (animationFrame dragMoved)).heap 0).top = 200 := by
  obtain ⟨hoff, -, hdrag, hl⟩ :=
    headerMouseDown_state wholePixelWindow 0 ⟨260, 160⟩ ⟨250, 150⟩
  obtain ⟨hx, hy, -, -⟩ := drag_move_frame dragStarted 0 ⟨360, 210⟩ hl hdrag
  obtain ⟨hleft, htop⟩ :=
    drag_release_without_frame wholePixelWindow 0 0 ⟨260, 160⟩ ⟨250, 150⟩ ⟨360, 210⟩
  obtain ⟨gl, gt⟩ := drag_completes dragStarted 0 ⟨360, 210⟩ hl hdrag
  have hoff1 : dragStarted.dragOffset = ⟨10, 10⟩ := by
    rw [dragStarted, hoff]; norm_num
  refine ⟨?_, ?_, ?_, ?_, ?_, wholePixelWindow_layout, ?_, ?_⟩
  · rw [dragMoved, hx, hoff1]; norm_num
  · rw [dragMoved, hy, hoff1]; norm_num
  · rw [dragMoved, dragStarted, hleft]; exact wholePixelWindow_position.1
  · rw [dragMoved, dragStarted, htop]; exact wholePixelWindow_position.2
  · rw [dragMoved, dragStarted]
    exact drag_release_dispatched wholePixelWindow 0 ⟨260, 160⟩ ⟨250, 150⟩ ⟨360, 210⟩
      wholePixelWindow_idle
  · rw [dragMoved, gl, hoff1]; norm_num
  · rw [dragMoved, gt, hoff1]; norm_num

/-! ## Closing a window -/

theorem findIdx?_split (windowId : String) (l : List Window)
    (h : ∃ w ∈ l, w.id = windowId) :
    ∃ (pre : List Window) (w : Window) (post : List Window),
      l = pre ++ w :: post ∧ (∀ v ∈ pre, v.id ≠ windowId) ∧ w.id = windowId
        ∧ l.findIdx? (fun w => decide (w.id = windowId)) = some pre.length := by
  induction l with
  | nil => simp at h
  | cons x xs ih =>
    by_cases hx : x.id = windowId
    · exact ⟨[], x, xs, rfl, by simp, hx, by simp [List.findIdx?_cons, hx]⟩
    · have hxs : ∃ w ∈ xs, w.id = windowId := by
        obtain ⟨w, hw, hid⟩ := h
        rcases List.mem_cons.mp hw with hw | hw
        · subst hw; exact absurd hid hx
        · exact ⟨w, hw, hid⟩
      obtain ⟨pre, w, post, hsplit, hpre, hw, hidx⟩ := ih hxs
      refine ⟨x :: pre, w, post, by simp [hsplit], ?_, hw, ?_⟩
      · intro v hv
        rcases List.mem_cons.mp hv with hv | hv
        · subst hv; exact hx
        · exact hpre v hv
      · simp only [List.findIdx?_cons, hx, decide_False, Bool.false_eq_true, if_false,
          List.length_cons]
        rw [List.findIdx?_start_succ, hidx]
        simp

theorem closeWindow_unknown (o : Overlay) (windowId : String)
    (h : ∀ w ∈ o.windows, w.id ≠ windowId) : closeWindow o windowId = o := by
  have hnone : o.windows.findIdx? (fun w => decide (w.id = windowId)) = none := by
    rw [List.findIdx?_eq_none_iff]
    intro w hw
    simpa using h w hw
  simp [closeWindow, hnone]

theorem closeWindow_known (o : Overlay) (windowId : String) (pre post : List Window)
    (w : Window) (hsplit : o.windows = pre ++ w :: post)
    (hidx : o.windows.findIdx? (fun w => decide (w.id = windowId)) = some pre.length) :
    closeWindow o windowId = saveLayout { o with windows := pre ++ post } := by
  have herase : o.windows.eraseIdx pre.length = pre ++ post := by
    rw [hsplit, List.eraseIdx_append_of_length_le (Nat.le_refl _)]
    simp
  simp [closeWindow, hidx, herase]

theorem closeWindow_sublist (o : Overlay) (windowId : String) :
    (closeWindow o windowId).windows.Sublist o.windows := by
  unfold closeWindow
  cases o.windows.findIdx? (fun w => decide (w.id = windowId)) with
  | none => exact List.Sublist.refl _
  | some index => exact List.eraseIdx_sublist _ _

/-- C13: `closeWindow(id)`. When no window of the registry has the id, the call
changes nothing (no window is removed and no save event is dispatched). When
some window has it, the first such window is removed and nothing else: the
windows before it and after it stay in their order, the list is one shorter,
the panes and the elements are untouched, and one save event is dispatched,
carrying the layout after the removal. -/
theorem closeWindow_spec (o : Overlay) (windowId : String) :
    ((∀ w ∈ o.windows, w.id ≠ windowId) → closeWindow o windowId = o)
      ∧ ((∃ w ∈ o.windows, w.id = windowId) →
          ∃ (pre : List Window) (w : Window) (post : List Window),
            o.windows = pre ++ w :: post
              ∧ (∀ v ∈ pre, v.id ≠ windowId)
              ∧ w.id = windowId
              ∧ (closeWindow o windowId).windows = pre ++ post
              ∧ (closeWindow o windowId).windows.length + 1 = o.windows.length
              ∧ (closeWindow o windowId).panes = o.panes
              ∧ (closeWindow o windowId).heap = o.heap
              ∧ (closeWindow o windowId).dispatched
                  = o.dispatched ++ [currentLayout (closeWindow o windowId)]) := by
  refine ⟨closeWindow_unknown o windowId, ?_⟩
  intro h
  obtain ⟨pre, w, post, hsplit, hpre, hw, hidx⟩ := findIdx?_split windowId o.windows h
  have hclose := closeWindow_known o windowId pre post w hsplit hidx
  refine ⟨pre, w, post, hsplit, hpre, hw, ?_, ?_, ?_, ?_, ?_⟩
  · rw [hclose]; rfl
  · rw [hclose, hsplit]; simp [saveLayout]; omega
  · rw [hclose]; rfl
  · rw [hclose]; rfl
  · rw [hclose]; rfl

theorem twoWindows_ids :
    twoWindows.windows.map (fun w => w.id)
      = ["window-1700000000000-k3j9x0a1b", "window-1700000000500-p0q8w7e6r"] := by
  simp [twoWindows, addWindows, addWindow, canAddWindow_free, createWindow, saveLayout,
    Overlay.fresh]
  constructor <;> decide

/-- Witness for C13: on `twoWindows`, closing an id no window has and closing
the id of the to-do window. -/
theorem closeWindow_spec_witness :
    (∀ w ∈ twoWindows.windows, w.id ≠ "window-0-unknown")
      ∧ closeWindow twoWindows "window-0-unknown" = twoWindows
      ∧ (∃ w ∈ twoWindows.windows, w.id = "window-1700000000500-p0q8w7e6r")
      ∧ (closeWindow twoWindows "window-1700000000500-p0q8w7e6r").windows.length + 1
          = twoWindows.windows.length := by
  have hids := twoWindows_ids
  have hmem : ∀ w ∈ twoWindows.windows,
      w.id ∈ ["window-1700000000000-k3j9x0a1b", "window-1700000000500-p0q8w7e6r"] := by
    intro w hw
    rw [← hids]
    exact List.mem_map_of_mem _ hw
  have hunknown : ∀ w ∈ twoWindows.windows, w.id ≠ "window-0-unknown" := by
    intro w hw hid
    have := hmem w hw
    rw [hid] at this
    revert this
    decide
  have hknown : ∃ w ∈ twoWindows.windows, w.id = "window-1700000000500-p0q8w7e6r" := by
    have h2 : "window-1700000000500-p0q8w7e6r" ∈ twoWindows.windows.map (fun w => w.id) := by
      rw [hids]; simp
    obtain ⟨w, hw, hid⟩ := List.mem_map.mp h2
    exact ⟨w, hw, hid⟩
  refine ⟨hunknown, (closeWindow_spec twoWindows "window-0-unknown").1 hunknown, hknown, ?_⟩
  obtain ⟨pre, w, post, -, -, -, -, hlen, -⟩ :=
    (closeWindow_spec twoWindows "window-1700000000500-p0q8w7e6r").2 hknown
  exact hlen

/-! ## The window `createWindow` builds -/

theorem jitter_bounds (r : Rat) (span : Int) (h0 : 0 ≤ r) (h1 : r < 1)
    (hs : 0 ≤ span ∧ span ≤ 1000) :
    100 ≤ roundDouble (100 + roundDouble (r * span))
      ∧ roundDouble (100 + roundDouble (r * span)) ≤ 100 + span := by
  have hsq0 : (0 : Rat) ≤ span := by exact_mod_cast hs.1
  have hsq1 : (span : Rat) ≤ 1000 := by exact_mod_cast hs.2
  have ht0 : (0 : Rat) ≤ r * span := mul_nonneg h0 hsq0
  have ht1 : r * span ≤ span := by nlinarith
  have habs : |r * span| < 2 ^ 53 := by
    rw [abs_of_nonneg ht0]
    have : (1000 : Rat) < 2 ^ 53 := by norm_num
    linarith
  obtain ⟨f0, f1⟩ := roundDouble_bounds (r * span) 0 span habs (by simpa using ht0) ht1
  simp only [Int.cast_zero] at f0
  have habs2 : |100 + roundDouble (r * span)| < 2 ^ 53 := by
    rw [abs_of_nonneg (by linarith)]
    have : (1100 : Rat) < 2 ^ 53 := by norm_num
    linarith
  obtain ⟨g0, g1⟩ := roundDouble_bounds (100 + roundDouble (r * span)) 100 (100 + span) habs2
    (by push_cast; linarith) (by push_cast; linarith)
  push_cast at g0 g1
  exact ⟨g0, g1⟩

/-- C14 (amended): for every type and content, with both position draws in
`[0, 1)`, `createWindow` returns a record of that type with size 400 by 300,
`minimized = false` and a position with `100 ≤ x ≤ 400`, `100 ≤ y ≤ 300`; the
element it creates carries that position and size and neither the `minimized`
nor the `maximized` class, so the window's snapshot record has
`minimized = false` and `maximized = false`. -/
theorem createWindow_record (o : Overlay) (type : String) (content : Option String)
    (e : Entropy) (hx : 0 ≤ e.rx ∧ e.rx < 1) (hy : 0 ≤ e.ry ∧ e.ry < 1) :
    (createWindow o type content e).1.type = type
      ∧ (createWindow o type content e).1.size = ⟨400, 300⟩
      ∧ (createWindow o type content e).1.minimized = false
      ∧ (100 ≤ (createWindow o type content e).1.position.x
          ∧ (createWindow o type content e).1.position.x ≤ 400)
      ∧ (100 ≤ (createWindow o type content e).1.position.y
          ∧ (createWindow o type content e).1.position.y ≤ 300)
      ∧ viewOf (createWindow o type content e).2 (createWindow o type content e).1
          = ⟨type, (createWindow o type content e).1.position.x,
              (createWindow o type content e).1.position.y, 400, 300, false, false⟩
      ∧ (windowRecord (createWindow o type content e).2
            (createWindow o type content e).1).minimized = false
      ∧ (windowRecord (createWindow o type content e).2
            (createWindow o type content e).1).maximized = false := by
  obtain ⟨hx0, hx1⟩ := hx
  obtain ⟨hy0, hy1⟩ := hy
  have bx := jitter_bounds e.rx 300 hx0 hx1 (by norm_num)
  have hby := jitter_bounds e.ry 200 hy0 hy1 (by norm_num)
  norm_num at bx hby
  refine ⟨rfl, rfl, rfl, ⟨?_, ?_⟩, ⟨?_, ?_⟩, ?_, ?_, ?_⟩
  · simp only [createWindow]; exact bx.1
  · simp only [createWindow]; exact bx.2
  · simp only [createWindow]; exact hby.1
  · simp only [createWindow]; exact hby.2
  · simp [createWindow, viewOf]
  · simp [createWindow, windowRecord]
  · simp [createWindow, windowRecord]

/-- Witness for C14 (amended): a clock window with the draws `1/2` and `1/4`. -/
theorem createWindow_record_witness :
    ((0 : Rat) ≤ 1/2 ∧ (1/2 : Rat) < 1) ∧ ((0 : Rat) ≤ 1/4 ∧ (1/4 : Rat) < 1)
      ∧ (createWindow Overlay.fresh "clock" none
            ⟨1700000000000, "k3j9x0a1b", 1/2, 1/4⟩).1.size = ⟨400, 300⟩
      ∧ (createWindow Overlay.fresh "clock" none
            ⟨1700000000000, "k3j9x0a1b", 1/2, 1/4⟩).1.position.x ≤ 400 :=
  ⟨by norm_num, by norm_num,
   (createWindow_record Overlay.fresh "clock" none ⟨1700000000000, "k3j9x0a1b", 1/2, 1/4⟩
      (by norm_num) (by norm_num)).2.1,
   (createWindow_record Overlay.fresh "clock" none ⟨1700000000000, "k3j9x0a1b", 1/2, 1/4⟩
      (by norm_num) (by norm_num)).2.2.2.1.2⟩

theorem roundDouble_product_below_200 :
    roundDouble ((1 - 1 / 2 ^ 53) * 200) = 200 - 1 / 2 ^ 45 := by
  rw [roundDouble_eval _ 7 (200 * 2 ^ 45 - 1) (by norm_num) (by norm_num [abs_of_pos])
    (by norm_num [abs_of_pos]) ?_]
  · norm_num
  · rw [roundHalfEven_eval _ (200 * 2 ^ 45 - 1) (by norm_num [Int.floor_eq_iff])]
    norm_num

theorem roundDouble_sum_tie_300 : roundDouble (100 + (200 - 1 / 2 ^ 45)) = 300 := by
  rw [roundDouble_eval _ 8 (300 * 2 ^ 44) (by norm_num) (by norm_num [abs_of_pos])
    (by norm_num [abs_of_pos]) ?_]
  · norm_num
  · rw [roundHalfEven_eval _ (300 * 2 ^ 44 - 1) (by norm_num [Int.floor_eq_iff])]
    norm_num

/-- C14 as stated fails. With the draw `1 - 2^-53` for `y`, the largest double
below 1, the product `r * 200` rounds to `200 - 2^-45` and the sum with 100 is
a tie that rounds to `300`: the window is placed at `y = 300`, outside
`100 ≤ y < 300`. -/
theorem createWindow_record_counterexample :
    ((0 : Rat) ≤ 1 - 1 / 2 ^ 53 ∧ (1 - 1 / 2 ^ 53 : Rat) < 1)
      ∧ (createWindow Overlay.fresh "clock" none
            ⟨1700000000000, "k3j9x0a1b", 1/2, 1 - 1 / 2 ^ 53⟩).1.position.y = 300
      ∧ ¬ ((createWindow Overlay.fresh "clock" none
            ⟨1700000000000, "k3j9x0a1b", 1/2, 1 - 1 / 2 ^ 53⟩).1.position.y < 300) := by
  have hy : (createWindow Overlay.fresh "clock" none
      ⟨1700000000000, "k3j9x0a1b", 1/2, 1 - 1 / 2 ^ 53⟩).1.position.y = 300 := by
    simp only [createWindow]
    rw [roundDouble_product_below_200, roundDouble_sum_tie_300]
  refine ⟨⟨by norm_num, by norm_num⟩, hy, ?_⟩
  rw [hy]
  norm_num

/-! ## The snapshot `saveLayout` builds -/

/-- C15 (amended): the snapshot `saveLayout` dispatches has one record per
window, in registry order, carrying the window's id and type, its flags, and
`parseInt` of its left, top, width and height, and one record per pane, in
order, holding that pane's direction. For a length `v` that is zero or of
magnitude from `1e-6` up to below `1e21`, `parseInt` is `v` truncated toward
zero (the integer `n` between `0` and `v` with `|v - n| < 1`); for any other
length it is the leading digit of `v` with the sign of `v`. -/
theorem saveLayout_snapshot (o : Overlay) :
    (saveLayout o).dispatched = o.dispatched ++ [currentLayout o]
      ∧ (currentLayout o).windows
          = some (o.windows.map (fun w =>
              { id := w.id, type := w.type,
                position := ⟨((parseInt (o.heap w.element).left : Int) : Rat),
                             ((parseInt (o.heap w.element).top : Int) : Rat)⟩,
                size := ⟨((parseInt (o.heap w.element).width : Int) : Rat),
                         ((parseInt (o.heap w.element).height : Int) : Rat)⟩,
                minimized := (o.heap w.element).minimized,
                maximized := (o.heap w.element).maximized }))
      ∧ ((currentLayout o).windows.getD []).length = o.windows.length
      ∧ (currentLayout o).panes = o.panes.map (fun p => ⟨p.direction⟩)
      ∧ (currentLayout o).panes.length = o.panes.length
      ∧ (∀ v : Rat, (v = 0 ∨ (1 / 10 ^ 6 ≤ |v| ∧ |v| < 10 ^ 21)) →
          (0 ≤ v → (parseInt v : Rat) ≤ v ∧ v < (parseInt v : Rat) + 1)
            ∧ (v < 0 → v ≤ (parseInt v : Rat) ∧ (parseInt v : Rat) - 1 < v))
      ∧ (∀ v : Rat, ¬ (v = 0 ∨ (1 / 10 ^ 6 ≤ |v| ∧ |v| < 10 ^ 21)) →
          (0 < v → parseInt v = leadingDigit v ∧ 1 ≤ parseInt v ∧ parseInt v ≤ 9)
            ∧ (v < 0 → parseInt v = -leadingDigit (-v)
                ∧ -9 ≤ parseInt v ∧ parseInt v ≤ -1)) := by
  refine ⟨rfl, rfl, ?_, rfl, ?_, parseInt_truncates, parseInt_of_exponent⟩
  · simp [currentLayout]
  · simp [currentLayout]

/-- Witness for C15 (amended): the truncation of `100.75` and of `-100.75`, and
the leading digit read from `1e-7`. -/
theorem saveLayout_snapshot_witness :
    (((403/4 : Rat) = 0 ∨ (1 / 10 ^ 6 ≤ |(403/4 : Rat)| ∧ |(403/4 : Rat)| < 10 ^ 21))
        ∧ (0 : Rat) ≤ 403/4)
      ∧ ((parseInt (403/4) : Rat) ≤ 403/4 ∧ (403/4 : Rat) < (parseInt (403/4) : Rat) + 1)
      ∧ ((-403/4 : Rat) ≤ (parseInt (-403/4) : Rat)
          ∧ (parseInt (-403/4) : Rat) - 1 < -403/4)
      ∧ (¬ ((1 / 10 ^ 7 : Rat) = 0
            ∨ (1 / 10 ^ 6 ≤ |(1 / 10 ^ 7 : Rat)| ∧ |(1 / 10 ^ 7 : Rat)| < 10 ^ 21))
          ∧ (0 : Rat) < 1 / 10 ^ 7)
      ∧ (1 ≤ parseInt (1 / 10 ^ 7) ∧ parseInt (1 / 10 ^ 7) ≤ 9) :=
  ⟨⟨Or.inr ⟨by norm_num [abs_of_pos], by norm_num [abs_of_pos]⟩, by norm_num⟩,
   ((saveLayout_snapshot fractionalWindow).2.2.2.2.2.1 (403/4)
      (Or.inr ⟨by norm_num [abs_of_pos], by norm_num [abs_of_pos]⟩)).1 (by norm_num),
   ((saveLayout_snapshot fractionalWindow).2.2.2.2.2.1 (-403/4)
      (Or.inr ⟨by norm_num [abs_of_neg], by norm_num [abs_of_neg]⟩)).2 (by norm_num),
   ⟨by norm_num [abs_of_pos], by norm_num⟩,
   (((saveLayout_snapshot fractionalWindow).2.2.2.2.2.2 (1 / 10 ^ 7)
      (by norm_num [abs_of_pos])).1 (by norm_num)).2⟩

theorem fractionalWindow_layout :
    (currentLayout fractionalWindow).windows.map (List.map WindowRecord.view)
      = some [⟨"clock", 100, 100, 400, 300, false, false⟩] := by
  rw [currentLayout_views, fractionalWindow_views]
  simp [WindowView.truncated, parseInt_fraction]
  refine ⟨?_, ?_, ?_⟩
  · have := parseInt_intCast 100; simp at this; simp [this]
  · have := parseInt_intCast 400; simp at this; simp [this]
  · have := parseInt_intCast 300; simp at this; simp [this]

/-- C15 as stated fails: the window of `fractionalWindow` stands at
`left = 100.75px` and its snapshot record has `x = 100`, although `101` is the
nearer integer. -/
theorem saveLayout_rounding_counterexample :
    fractionalWindow.views = [⟨"clock", 403/4, 100, 400, 300, false, false⟩]
      ∧ (currentLayout fractionalWindow).windows.map (List.map WindowRecord.view)
          = some [⟨"clock", 100, 100, 400, 300, false, false⟩]
      ∧ |(101 : Rat) - 403/4| < |(100 : Rat) - 403/4| := by
  refine ⟨fractionalWindow_views, fractionalWindow_layout, ?_⟩
  rw [abs_lt]
  constructor
  · norm_num [abs_of_neg]
  · norm_num [abs_of_neg]

/-! ## What `applyLayout` replaces and what it keeps -/

theorem restoreWindows_elements (saved : List WindowRecord) :
    ∀ (o : Overlay) (ent : Nat → Entropy),
      ∀ w ∈ (restoreWindows o saved ent).windows, w ∈ o.windows ∨ o.nextNode ≤ w.element := by
  induction saved with
  | nil => intro o ent w hw; exact Or.inl (by simpa [restoreWindows] using hw)
  | cons r rest ih =>
    intro o ent w hw
    simp only [restoreWindows] at hw
    rcases ih _ _ w hw with h | h
    · rw [restoreWindow_windows, List.mem_append, List.mem_singleton] at h
      rcases h with h | h
      · exact Or.inl h
      · right; rw [h, createWindow_element]
    · rw [restoreWindow_nextNode] at h
      exact Or.inr (Nat.le_of_succ_le h)

theorem applyLayout_windows_fresh (o : Overlay) (l : Layout) (ent : Nat → Entropy) :
    ∀ w ∈ (applyLayout o (some l) ent).windows, o.nextNode ≤ w.element := by
  intro w hw
  cases hws : l.windows with
  | none => simp [applyLayout, hws] at hw
  | some saved =>
    simp only [applyLayout, hws] at hw
    rcases restoreWindows_elements saved _ ent w hw with h | h
    · simp at h
    · exact h

theorem applyLayout_panes (o : Overlay) (l : Layout) (ent : Nat → Entropy) :
    (applyLayout o (some l) ent).panes = o.panes := by
  cases hws : l.windows with
  | none => simp [applyLayout, hws]
  | some saved =>
    obtain ⟨ws, -, -, -, hp, -⟩ := restoreWindows_requests saved { o with windows := [] } ent
    simp only [applyLayout, hws]
    rw [hp]

theorem applyLayout_length (o : Overlay) (l : Layout) (ent : Nat → Entropy) :
    (applyLayout o (some l) ent).windows.length = (l.windows.getD []).length := by
  cases hws : l.windows with
  | none => simp [applyLayout, hws]
  | some saved =>
    obtain ⟨ws, hw, ht, -, -, -⟩ := restoreWindows_requests saved { o with windows := [] } ent
    simp only [applyLayout, hws, Option.getD_some]
    rw [hw]
    have := congrArg List.length ht
    simpa using this

theorem restoreWindows_allocated (saved : List WindowRecord) :
    ∀ (o : Overlay) (ent : Nat → Entropy), o.ElementsAllocated →
      (restoreWindows o saved ent).ElementsAllocated := by
  induction saved with
  | nil => intro o ent h; simpa [restoreWindows] using h
  | cons r rest ih =>
    intro o ent h
    simp only [restoreWindows]
    apply ih
    intro w hw
    rw [restoreWindow_windows, List.mem_append, List.mem_singleton] at hw
    rw [restoreWindow_nextNode]
    rcases hw with hw | hw
    · exact Nat.lt_succ_of_lt (h w hw)
    · rw [hw, createWindow_element]; exact Nat.lt_succ_self _

theorem run_allocated (o : Overlay) (op : RegistryOp) (h : o.ElementsAllocated) :
    (op.run o).ElementsAllocated := by
  cases op with
  | add lm stored type content e =>
    intro w hw
    by_cases hc : canAddWindow lm stored o.windows.length = true
    · simp only [RegistryOp.run, addWindow, hc, if_true, saveLayout, createWindow,
        List.mem_append, List.mem_singleton] at hw ⊢
      rcases hw with hw | hw
      · exact Nat.lt_succ_of_lt (h w hw)
      · rw [hw]; exact Nat.lt_succ_self _
    · simp only [RegistryOp.run, addWindow, hc, showUpgradePrompt] at hw ⊢
      exact h w hw
  | close windowId =>
    intro w hw
    have hsub := (closeWindow_sublist o windowId).subset hw
    have hnext : (closeWindow o windowId).nextNode = o.nextNode := by
      unfold closeWindow
      cases o.windows.findIdx? (fun w => decide (w.id = windowId)) <;> rfl
    simp only [RegistryOp.run, hnext]
    exact h w hsub
  | apply layout ent =>
    cases layout with
    | none => simpa [RegistryOp.run, applyLayout] using h
    | some l =>
      cases hws : l.windows with
      | none =>
        intro w hw
        simp [RegistryOp.run, applyLayout, hws] at hw
      | some saved =>
        simp only [RegistryOp.run, applyLayout, hws]
        apply restoreWindows_allocated
        intro w hw
        simp at hw

theorem runOps_allocated (ops : List RegistryOp) :
    ∀ o : Overlay, o.ElementsAllocated → (runOps o ops).ElementsAllocated := by
  induction ops with
  | nil => intro o h; simpa [runOps] using h
  | cons op ops ih =>
    intro o h
    simp only [runOps]
    exact ih _ (run_allocated o op h)

theorem fresh_allocated : Overlay.fresh.ElementsAllocated := by
  intro w hw
  simp [Overlay.fresh] at hw

/-- C16: the frame of `applyLayout`. For every snapshot and every prior state,
each window held afterwards stands on an element created during the call; so
no window held before the call is held afterwards, in every state whose
windows stand on elements created earlier, and in particular in every state
reached by `addWindow`, `closeWindow` and `applyLayout` calls. There is one
window per window record of the snapshot, and the panes list is the one from
before the call. -/
theorem applyLayout_frame (o : Overlay) (l : Layout) (ent : Nat → Entropy)
    (ops : List RegistryOp) :
    (∀ w ∈ (applyLayout o (some l) ent).windows, o.nextNode ≤ w.element)
      ∧ (o.ElementsAllocated →
          ∀ w ∈ o.windows, w ∉ (applyLayout o (some l) ent).windows)
      ∧ (∀ w ∈ (runOps Overlay.fresh ops).windows,
          w ∉ (applyLayout (runOps Overlay.fresh ops) (some l) ent).windows)
      ∧ (applyLayout o (some l) ent).windows.length = (l.windows.getD []).length
      ∧ (applyLayout o (some l) ent).panes = o.panes := by
  have key : ∀ o : Overlay, o.ElementsAllocated →
      ∀ w ∈ o.windows, w ∉ (applyLayout o (some l) ent).windows := by
    intro o hold w hw hmem
    have h1 := applyLayout_windows_fresh o l ent w hmem
    have h2 := hold w hw
    omega
  exact ⟨applyLayout_windows_fresh o l ent, key o,
    key _ (runOps_allocated ops Overlay.fresh fresh_allocated),
    applyLayout_length o l ent, applyLayout_panes o l ent⟩

theorem twoWindows_elements : twoWindows.ElementsAllocated := by
  simp [Overlay.ElementsAllocated, twoWindows, addWindows, addWindow, canAddWindow_free, createWindow, saveLayout,
    Overlay.fresh]

theorem twoWindows_length : twoWindows.windows.length = 2 := by
  simp [twoWindows, addWindows, addWindow, canAddWindow_free, createWindow, saveLayout,
    Overlay.fresh]

/-- Witness for C16: a snapshot of one vertical pane and the two records of
`todoClockRecords`, applied to `twoWindows`. -/
theorem applyLayout_frame_witness :
    twoWindows.ElementsAllocated
      ∧ (∀ w ∈ twoWindows.windows,
          w ∉ (applyLayout twoWindows (some ⟨some todoClockRecords, [⟨"vertical"⟩]⟩)
                constantDraws).windows)
      ∧ (applyLayout twoWindows (some ⟨some todoClockRecords, [⟨"vertical"⟩]⟩)
            constantDraws).panes = twoWindows.panes :=
  ⟨twoWindows_elements,
   (applyLayout_frame twoWindows ⟨some todoClockRecords, [⟨"vertical"⟩]⟩ constantDraws
      []).2.1 twoWindows_elements,
   (applyLayout_frame twoWindows ⟨some todoClockRecords, [⟨"vertical"⟩]⟩ constantDraws
      []).2.2.2.2⟩

/-! ## Restoring and saving again -/

theorem applyLayout_views (o : Overlay) (saved : List WindowRecord) (panes : List PaneRecord)
    (ent : Nat → Entropy) :
    (applyLayout o (some ⟨some saved, panes⟩) ent).views
      = saved.map WindowRecord.restoredView := by
  simp only [applyLayout, Overlay.views]
  rw [restoreWindows_views _ _ _ (by simp)]
  simp

theorem applyLayout_views_of_nonneg (o : Overlay) (saved : List WindowRecord)
    (panes : List PaneRecord) (ent : Nat → Entropy)
    (h : ∀ r ∈ saved, 0 ≤ r.size.width ∧ 0 ≤ r.size.height) :
    (applyLayout o (some ⟨some saved, panes⟩) ent).views = saved.map WindowRecord.view := by
  rw [applyLayout_views]
  exact List.map_congr_left (fun r hr => r.restoredView_of_nonneg (h r hr))

/-- C17 (amended): restore matches the record. For a snapshot whose window
records carry whole-pixel geometry of magnitude below `1e21` with non-negative
width and height, after `applyLayout` the restored windows have, in the stored
order, the type, left, top, width, height and flags of their records, and the
snapshot that `saveLayout` dispatches right afterwards has window records
equal to the snapshot's in type, position, size, `minimized` and `maximized`,
in the same order. -/
theorem applyLayout_matches_records (o : Overlay) (saved : List WindowRecord)
    (panes : List PaneRecord) (ent : Nat → Entropy)
    (hint : ∀ r ∈ saved, r.view.wholePixels)
    (hsize : ∀ r ∈ saved, 0 ≤ r.size.width ∧ 0 ≤ r.size.height) :
    (applyLayout o (some ⟨some saved, panes⟩) ent).views = saved.map WindowRecord.view
      ∧ ((saveLayout (applyLayout o (some ⟨some saved, panes⟩) ent)).dispatched.getLast?.bind
            (fun l => l.windows)).map (List.map WindowRecord.view)
          = some (saved.map WindowRecord.view) := by
  have hv := applyLayout_views_of_nonneg o saved panes ent hsize
  refine ⟨hv, ?_⟩
  rw [saveLayout_last, Option.some_bind, currentLayout_views, hv]
  congr 1
  rw [List.map_map]
  apply List.map_congr_left
  intro r hr
  exact WindowView.truncated_of_wholePixels _ (hint r hr)

theorem todoClockRecords_wholePixels : ∀ r ∈ todoClockRecords, r.view.wholePixels := by
  intro r hr
  simp only [todoClockRecords, List.mem_cons, List.mem_singleton, List.mem_nil_iff,
    or_false] at hr
  rcases hr with hr | hr <;> subst hr
  · exact ⟨⟨120, by norm_num [WindowRecord.view]⟩, ⟨80, by norm_num [WindowRecord.view]⟩,
      ⟨500, by norm_num [WindowRecord.view]⟩, ⟨350, by norm_num [WindowRecord.view]⟩⟩
  · exact ⟨⟨-30, by norm_num [WindowRecord.view]⟩, ⟨40, by norm_num [WindowRecord.view]⟩,
      ⟨220, by norm_num [WindowRecord.view]⟩, ⟨160, by norm_num [WindowRecord.view]⟩⟩

theorem todoClockRecords_sizes :
    ∀ r ∈ todoClockRecords, 0 ≤ r.size.width ∧ 0 ≤ r.size.height := by
  intro r hr
  simp only [todoClockRecords, List.mem_cons, List.mem_singleton, List.mem_nil_iff,
    or_false] at hr
  rcases hr with hr | hr <;> subst hr <;> norm_num

/-- Witness for C17 (amended): the two records of `todoClockRecords` restored
into `twoWindows`. -/
theorem applyLayout_matches_records_witness :
    ((∀ r ∈ todoClockRecords, r.view.wholePixels)
        ∧ (∀ r ∈ todoClockRecords, 0 ≤ r.size.width ∧ 0 ≤ r.size.height))
      ∧ (applyLayout twoWindows (some ⟨some todoClockRecords, []⟩) constantDraws).views
          = [⟨"todo", 120, 80, 500, 350, true, false⟩,
             ⟨"clock", -30, 40, 220, 160, false, true⟩]
      ∧ ((saveLayout (applyLayout twoWindows (some ⟨some todoClockRecords, []⟩)
            constantDraws)).dispatched.getLast?.bind
            (fun l => l.windows)).map (List.map WindowRecord.view)
          = some [⟨"todo", 120, 80, 500, 350, true, false⟩,
                  ⟨"clock", -30, 40, 220, 160, false, true⟩] :=
  ⟨⟨todoClockRecords_wholePixels, todoClockRecords_sizes⟩,
   (applyLayout_matches_records twoWindows todoClockRecords [] constantDraws
      todoClockRecords_wholePixels todoClockRecords_sizes).1,
   (applyLayout_matches_records twoWindows todoClockRecords [] constantDraws
      todoClockRecords_wholePixels todoClockRecords_sizes).2⟩

/-- C17 as stated fails. A record with the integer width `-5` is restored as
a window of width 400: the style does not accept the negative length, and the
window keeps the width `createWindow` gave it. A record at the integer
`x = 1e21` is restored at that position, and `saveLayout` right afterwards
records `x = 1`. -/
theorem applyLayout_matches_records_counterexample :
    (applyLayout Overlay.fresh (some ⟨some negativeWidthRecords, []⟩) constantDraws).views
        = [⟨"clock", 10, 20, 400, 300, false, false⟩]
      ∧ negativeWidthRecords.map WindowRecord.view
        = [⟨"clock", 10, 20, -5, 300, false, false⟩]
      ∧ (applyLayout Overlay.fresh (some ⟨some farRecords, []⟩) constantDraws).views
        = [⟨"clock", 10 ^ 21, 20, 400, 300, false, false⟩]
      ∧ ((saveLayout (applyLayout Overlay.fresh (some ⟨some farRecords, []⟩)
            constantDraws)).dispatched.getLast?.bind
            (fun l => l.windows)).map (List.map WindowRecord.view)
          = some [⟨"clock", 1, 20, 400, 300, false, false⟩] := by
  have h20 := parseInt_intCast 20 (by norm_num)
  have h400 := parseInt_intCast 400 (by norm_num)
  have h300 := parseInt_intCast 300 (by norm_num)
  simp only [Int.cast_ofNat] at h20 h400 h300
  have hfar : (applyLayout Overlay.fresh (some ⟨some farRecords, []⟩) constantDraws).views
      = [⟨"clock", 10 ^ 21, 20, 400, 300, false, false⟩] := by
    rw [applyLayout_views]
    simp [farRecords, WindowRecord.restoredView]
  refine ⟨?_, ?_, hfar, ?_⟩
  · rw [applyLayout_views]
    simp [negativeWidthRecords, WindowRecord.restoredView]
  · simp [negativeWidthRecords, WindowRecord.view]
  · rw [saveLayout_last, Option.some_bind, currentLayout_views, hfar]
    simp [WindowView.truncated, parseInt_exponent_large, h20, h400, h300]

/-! ## Admission of panes -/

theorem canAddPane_free (stored : Option String) (n : Nat) :
    canAddPane ⟨some "free"⟩ stored n = decide (n < 1) := by
  simp [canAddPane, getTierLimits_free, tiersFree, JSObject.get, List.lookup, JSVal.gtNat]

theorem splitPane_denied (lm : LicenseManager) (stored : Option String) (o : Overlay)
    (direction : String) (h : canAddPane lm stored o.panes.length = false) :
    splitPane lm stored o direction
      = { o with upgradePromptHidden := o.upgradePromptHidden.map (fun _ => false) } := by
  simp [splitPane, h, showUpgradePrompt]

theorem splitPane_admitted (lm : LicenseManager) (stored : Option String) (o : Overlay)
    (direction : String) (h : canAddPane lm stored o.panes.length = true) :
    splitPane lm stored o direction
      = saveLayout { o with panes := o.panes ++ [⟨o.panes.length + 1, direction⟩] } := by
  simp [splitPane, h]

theorem splitPane_panes_length_le (stored : Option String) (o : Overlay) (direction : String)
    (h : o.panes.length ≤ 1) :
    (splitPane ⟨some "free"⟩ stored o direction).panes.length ≤ 1 := by
  unfold splitPane
  rw [canAddPane_free]
  by_cases hn : o.panes.length < 1
  · simp only [hn, decide_True, if_true, saveLayout, List.length_append,
      List.length_singleton]
    omega
  · simp [hn, showUpgradePrompt]
    exact h

theorem splitPanes_panes_length_le (stored : Option String) (dirs : List String) :
    ∀ o : Overlay, o.panes.length ≤ 1 →
      (splitPanes ⟨some "free"⟩ stored o dirs).panes.length ≤ 1 := by
  induction dirs with
  | nil => intro o h; simpa [splitPanes] using h
  | cons d dirs ih =>
    intro o h
    simp only [splitPanes]
    exact ih _ (splitPane_panes_length_le stored o d h)

/-- The gate of `splitPane` for calls that are each resolved before the next
is made. From an empty panes list, with `'free'` cached, after each call of
any sequence of such `splitPane` calls the panes list holds at most one pane.
A denied call changes nothing but the
`hidden` class of the upgrade prompt, which it removes: panes, windows and the
list of dispatched save events stay as they were. An admitted call appends
one pane with the given direction at the end of the panes list, leaves the
windows alone and dispatches one save event. -/
theorem splitPane_gate (lm : LicenseManager) (stored : Option String) (o : Overlay)
    (direction : String) (dirs : List String) (k : Nat) :
    (o.panes = [] →
        (splitPanes ⟨some "free"⟩ stored o (dirs.take k)).panes.length ≤ 1)
      ∧ (canAddPane lm stored o.panes.length = false →
          splitPane lm stored o direction
              = { o with upgradePromptHidden := o.upgradePromptHidden.map (fun _ => false) }
            ∧ (splitPane lm stored o direction).panes = o.panes
            ∧ (splitPane lm stored o direction).windows = o.windows
            ∧ (splitPane lm stored o direction).dispatched = o.dispatched
            ∧ (splitPane lm stored o direction).upgradePromptHidden ≠ some true)
      ∧ (canAddPane lm stored o.panes.length = true →
          (splitPane lm stored o direction).panes
              = o.panes ++ [⟨o.panes.length + 1, direction⟩]
            ∧ (splitPane lm stored o direction).windows = o.windows
            ∧ (splitPane lm stored o direction).dispatched
                = o.dispatched ++ [currentLayout (splitPane lm stored o direction)]
            ∧ (splitPane lm stored o direction).upgradePromptHidden
                = o.upgradePromptHidden) := by
  refine ⟨?_, ?_, ?_⟩
  · intro h
    exact splitPanes_panes_length_le stored (dirs.take k) o (by simp [h])
  · intro h
    rw [splitPane_denied lm stored o direction h]
    refine ⟨rfl, rfl, rfl, rfl, ?_⟩
    cases o.upgradePromptHidden <;> simp
  · intro h
    rw [splitPane_admitted lm stored o direction h]
    exact ⟨rfl, rfl, rfl, rfl⟩

theorem twoWindows_panes : twoWindows.panes = [] := by
  simp [twoWindows, addWindows, addWindow, canAddWindow_free, createWindow, saveLayout,
    Overlay.fresh]

theorem splitPane_gate_example :
    twoWindows.panes = []
      ∧ (splitPanes ⟨some "free"⟩ none twoWindows
            (["horizontal", "vertical", "horizontal"].take 3)).panes.length ≤ 1
      ∧ canAddPane ⟨some "free"⟩ none twoWindows.panes.length = true
      ∧ (splitPane ⟨some "free"⟩ none twoWindows "horizontal").panes
          = twoWindows.panes ++ [⟨twoWindows.panes.length + 1, "horizontal"⟩]
      ∧ canAddPane ⟨some "free"⟩ none
          (splitPane ⟨some "free"⟩ none twoWindows "horizontal").panes.length = false
      ∧ (splitPane ⟨some "free"⟩ none (splitPane ⟨some "free"⟩ none twoWindows "horizontal")
            "vertical").panes
          = (splitPane ⟨some "free"⟩ none twoWindows "horizontal").panes := by
  have hadm : canAddPane ⟨some "free"⟩ none twoWindows.panes.length = true := by
    rw [canAddPane_free, twoWindows_panes]; decide
  have hpanes := ((splitPane_gate ⟨some "free"⟩ none twoWindows "horizontal"
      ["horizontal", "vertical", "horizontal"] 3).2.2 hadm).1
  have hden : canAddPane ⟨some "free"⟩ none
      (splitPane ⟨some "free"⟩ none twoWindows "horizontal").panes.length = false := by
    rw [canAddPane_free, hpanes, twoWindows_panes]; decide
  exact ⟨twoWindows_panes,
    (splitPane_gate ⟨some "free"⟩ none twoWindows "horizontal"
      ["horizontal", "vertical", "horizontal"] 3).1 twoWindows_panes,
    hadm, hpanes, hden,
    ((splitPane_gate ⟨some "free"⟩ none
      (splitPane ⟨some "free"⟩ none twoWindows "horizontal") "vertical" [] 0).2.1 hden).2.1⟩

/-! ## Every mutation dispatches its own save event -/

theorem saveLayout_dispatched (o : Overlay) :
    (saveLayout o).dispatched = o.dispatched ++ [currentLayout (saveLayout o)] := rfl

theorem addWindow_dispatched (lm : LicenseManager) (stored : Option String) (o : Overlay)
    (type : String) (content : Option String) (e : Entropy)
    (h : canAddWindow lm stored o.windows.length = true) :
    (addWindow lm stored o type content e).2.dispatched
      = o.dispatched ++ [currentLayout (addWindow lm stored o type content e).2] := by
  simp only [addWindow, h, if_true]
  rfl

theorem splitPane_dispatched (lm : LicenseManager) (stored : Option String) (o : Overlay)
    (direction : String) (h : canAddPane lm stored o.panes.length = true) :
    (splitPane lm stored o direction).dispatched
      = o.dispatched ++ [currentLayout (splitPane lm stored o direction)] := by
  rw [splitPane_admitted lm stored o direction h]
  rfl

theorem closeWindow_dispatched (o : Overlay) (windowId : String)
    (h : ∃ w ∈ o.windows, w.id = windowId) :
    (closeWindow o windowId).dispatched
      = o.dispatched ++ [currentLayout (closeWindow o windowId)] := by
  obtain ⟨pre, w, post, hsplit, -, -, hidx⟩ := findIdx?_split windowId o.windows h
  rw [closeWindow_known o windowId pre post w hsplit hidx]
  rfl

theorem endHandler_dispatched (o : Overlay) (l : Listener) :
    (endHandler o l).dispatched = o.dispatched ++ [currentLayout (endHandler o l)] := by
  cases l <;> rfl

/-- C19: every registry mutation dispatches exactly one save event, carrying
the layout of the state the mutation leaves: an admitted `addWindow`, an
admitted `splitPane`, `closeWindow` of an id some window has, a click on the
minimize button, a click on the maximize button, the end handler of a drag,
the end handler of a resize, and so a pointer release with one interaction
under way. -/
theorem mutations_persist (lm : LicenseManager) (stored : Option String) (o : Overlay)
    (type : String) (content : Option String) (e : Entropy) (direction windowId : String)
    (node : Nat) (sx sy sw sh : Rat) (l : Listener) :
    (canAddWindow lm stored o.windows.length = true →
        (addWindow lm stored o type content e).2.dispatched
          = o.dispatched ++ [currentLayout (addWindow lm stored o type content e).2])
      ∧ (canAddPane lm stored o.panes.length = true →
        (splitPane lm stored o direction).dispatched
          = o.dispatched ++ [currentLayout (splitPane lm stored o direction)])
      ∧ ((∃ w ∈ o.windows, w.id = windowId) →
        (closeWindow o windowId).dispatched
          = o.dispatched ++ [currentLayout (closeWindow o windowId)])
      ∧ (minimizeClick o node).dispatched
          = o.dispatched ++ [currentLayout (minimizeClick o node)]
      ∧ (maximizeClick o node).dispatched
          = o.dispatched ++ [currentLayout (maximizeClick o node)]
      ∧ (handleDragEnd o node).dispatched
          = o.dispatched ++ [currentLayout (handleDragEnd o node)]
      ∧ (handleResizeEnd o node sx sy sw sh).dispatched
          = o.dispatched ++ [currentLayout (handleResizeEnd o node sx sy sw sh)]
      ∧ (o.docListeners = [l] →
        (mouseUp o).dispatched = o.dispatched ++ [currentLayout (mouseUp o)]) := by
  refine ⟨addWindow_dispatched lm stored o type content e,
    splitPane_dispatched lm stored o direction, closeWindow_dispatched o windowId,
    rfl, rfl, rfl, rfl, ?_⟩
  intro h
  have hup : mouseUp o = endHandler o l := by simp [mouseUp, h]
  rw [hup]
  exact endHandler_dispatched o l

theorem clockPressed_listeners : clockPressed.docListeners = [Listener.drag 0] := by
  simp [clockPressed, headerMouseDown, twoWindows, addWindows, addWindow, canAddWindow_free,
    createWindow, saveLayout, Overlay.fresh]

/-- Witness for C19: on `twoWindows` under tier `'free'`, a third window, a
first pane and the closing of the to-do window are each followed by their own
save event; so is the release of the drag of `clockPressed`. -/
theorem mutations_persist_witness :
    (canAddWindow ⟨some "free"⟩ none twoWindows.windows.length = true
        ∧ canAddPane ⟨some "free"⟩ none twoWindows.panes.length = true
        ∧ (∃ w ∈ twoWindows.windows, w.id = "window-1700000000500-p0q8w7e6r")
        ∧ clockPressed.docListeners = [Listener.drag 0])
      ∧ (addWindow ⟨some "free"⟩ none twoWindows "stats" none
            ⟨1700000001000, "z1x2c3v4b", 0, 0⟩).2.dispatched.length
          = twoWindows.dispatched.length + 1
      ∧ (splitPane ⟨some "free"⟩ none twoWindows "vertical").dispatched.length
          = twoWindows.dispatched.length + 1
      ∧ (closeWindow twoWindows "window-1700000000500-p0q8w7e6r").dispatched.length
          = twoWindows.dispatched.length + 1
      ∧ (mouseUp clockPressed).dispatched.length = clockPressed.dispatched.length + 1 := by
  have hadd : canAddWindow ⟨some "free"⟩ none twoWindows.windows.length = true := by
    rw [canAddWindow_free, twoWindows_length]; decide
  have hpane : canAddPane ⟨some "free"⟩ none twoWindows.panes.length = true := by
    rw [canAddPane_free, twoWindows_panes]; decide
  have hknown : ∃ w ∈ twoWindows.windows, w.id = "window-1700000000500-p0q8w7e6r" := by
    have h2 : "window-1700000000500-p0q8w7e6r" ∈ twoWindows.windows.map (fun w => w.id) := by
      rw [twoWindows_ids]; simp
    obtain ⟨w, hw, hid⟩ := List.mem_map.mp h2
    exact ⟨w, hw, hid⟩
  have h1 := (mutations_persist ⟨some "free"⟩ none twoWindows "stats" none
    ⟨1700000001000, "z1x2c3v4b", 0, 0⟩ "vertical" "window-1700000000500-p0q8w7e6r" 0
    0 0 0 0 (Listener.drag 0))
  have h2 := (mutations_persist ⟨some "free"⟩ none clockPressed "stats" none
    ⟨1700000001000, "z1x2c3v4b", 0, 0⟩ "vertical" "window-1700000000500-p0q8w7e6r" 0
    0 0 0 0 (Listener.drag 0)).2.2.2.2.2.2.2 clockPressed_listeners
  refine ⟨⟨hadd, hpane, hknown, clockPressed_listeners⟩, ?_, ?_, ?_, ?_⟩
  · rw [h1.1 hadd]; simp
  · rw [h1.2.1 hpane]; simp
  · rw [h1.2.2.1 hknown]; simp
  · rw [h2]; simp

/-! ## Window ids -/

theorem createWindow_id (o : Overlay) (type : String) (content : Option String)
    (e : Entropy) : (createWindow o type content e).1.id = e.windowId := rfl

theorem addWindow_windows (lm : LicenseManager) (stored : Option String) (o : Overlay)
    (type : String) (content : Option String) (e : Entropy) :
    (addWindow lm stored o type content e).2.windows
      = if canAddWindow lm stored o.windows.length
        then o.windows ++ [(createWindow o type content e).1] else o.windows := by
  by_cases h : canAddWindow lm stored o.windows.length = true
  · simp [addWindow, h, saveLayout, createWindow]
  · simp [addWindow, h, showUpgradePrompt]

theorem restoreWindows_ids (saved : List WindowRecord) :
    ∀ (o : Overlay) (ent : Nat → Entropy),
      (restoreWindows o saved ent).windows.map (fun w => w.id)
        = o.windows.map (fun w => w.id)
          ++ (List.range saved.length).map (fun i => (ent i).windowId) := by
  induction saved with
  | nil => intro o ent; simp [restoreWindows]
  | cons r rest ih =>
    intro o ent
    simp only [restoreWindows]
    rw [ih, restoreWindow_windows, List.map_append, List.map_cons, List.map_nil,
      createWindow_id, List.length_cons, List.range_succ_eq_map, List.map_cons, List.map_map,
      List.append_assoc, List.singleton_append]
    rfl

theorem run_ids_sublist (o : Overlay) (op : RegistryOp) :
    ((op.run o).windows.map (fun w => w.id)).Sublist
      (o.windows.map (fun w => w.id) ++ op.drawnIds o) := by
  cases op with
  | add lm stored type content e =>
    simp only [RegistryOp.run, RegistryOp.drawnIds, addWindow_windows]
    by_cases h : canAddWindow lm stored o.windows.length = true
    · simp [h, createWindow_id]
    · simp [h]
  | close windowId =>
    simp only [RegistryOp.run, RegistryOp.drawnIds, List.append_nil]
    exact (closeWindow_sublist o windowId).map _
  | apply layout ent =>
    cases layout with
    | none => simp [RegistryOp.run, RegistryOp.drawnIds, applyLayout]
    | some l =>
      cases hws : l.windows with
      | none => simp [RegistryOp.run, RegistryOp.drawnIds, applyLayout, hws]
      | some saved =>
        simp only [RegistryOp.run, RegistryOp.drawnIds, applyLayout, hws]
        rw [restoreWindows_ids]
        simp only [List.map_nil, List.nil_append]
        exact List.sublist_append_right _ _

theorem runOps_ids_nodup (ops : List RegistryOp) :
    ∀ (o : Overlay) (pre : List String),
      (o.windows.map (fun w => w.id)).Sublist pre → (pre ++ drawnAlong o ops).Nodup →
        ((runOps o ops).windows.map (fun w => w.id)).Nodup := by
  induction ops with
  | nil =>
    intro o pre hsub hnd
    simp only [drawnAlong, List.append_nil] at hnd
    exact hsub.nodup hnd
  | cons op ops ih =>
    intro o pre hsub hnd
    simp only [runOps]
    apply ih (op.run o) (pre ++ op.drawnIds o)
    · exact (run_ids_sublist o op).trans (List.Sublist.append hsub (List.Sublist.refl _))
    · simpa [drawnAlong, List.append_assoc] using hnd

/-- C20 (amended): ids are unique as long as the ids drawn are. For every
sequence of `addWindow`, `closeWindow` and `applyLayout` calls from the
overlay the constructor leaves, if the ids that `createWindow` builds along
the way (from `Date.now()` and `Math.random()`) are pairwise distinct, then no
two windows of the resulting registry share an id. No call rewrites an id:
`addWindow` keeps the windows held before as a prefix of the list, and
`closeWindow` leaves a sublist of them. -/
theorem ids_unique_of_distinct_draws (ops : List RegistryOp) (o : Overlay)
    (lm : LicenseManager) (stored : Option String) (type : String)
    (content : Option String) (e : Entropy) (windowId : String)
    (h : (drawnAlong Overlay.fresh ops).Nodup) :
    ((runOps Overlay.fresh ops).windows.map (fun w => w.id)).Nodup
      ∧ o.windows <+: (addWindow lm stored o type content e).2.windows
      ∧ (closeWindow o windowId).windows.Sublist o.windows := by
  refine ⟨?_, ?_, closeWindow_sublist o windowId⟩
  · apply runOps_ids_nodup ops Overlay.fresh []
    · simp [Overlay.fresh]
    · simpa using h
  · rw [addWindow_windows]
    split
    · exact List.prefix_append _ _
    · exact List.prefix_refl _

theorem addAddClose_drawn :
    drawnAlong Overlay.fresh addAddClose
      = ["window-1700000000000-k3j9x0a1b", "window-1700000000500-p0q8w7e6r"] := by
  simp [addAddClose, drawnAlong, RegistryOp.drawnIds, RegistryOp.run, addWindow,
    canAddWindow_free, createWindow, saveLayout, Overlay.fresh, Entropy.windowId]
  constructor <;> decide

/-- Witness for C20 (amended): two windows added with different ids, the first
then closed. -/
theorem ids_unique_of_distinct_draws_witness :
    (drawnAlong Overlay.fresh addAddClose).Nodup
      ∧ ((runOps Overlay.fresh addAddClose).windows.map (fun w => w.id)).Nodup := by
  have h : (drawnAlong Overlay.fresh addAddClose).Nodup := by
    rw [addAddClose_drawn]; decide
  exact ⟨h, (ids_unique_of_distinct_draws addAddClose Overlay.fresh ⟨some "free"⟩ none
    "clock" none ⟨1700000000000, "k3j9x0a1b", 1/2, 1/4⟩ "window-0-unknown" h).1⟩

/-- C20 as stated fails: `applyLayout` of two records, when `Date.now()` and the
random id suffix come out the same for both `createWindow` calls, leaves two
windows with the same id. -/
theorem ids_collide_counterexample :
    (runOps Overlay.fresh
        [RegistryOp.apply (some ⟨some todoClockRecords, []⟩) collidingDraws]).windows.map
        (fun w => w.id)
        = ["window-1700000002000-a1s2d3f4g", "window-1700000002000-a1s2d3f4g"]
      ∧ ¬ ((runOps Overlay.fresh
        [RegistryOp.apply (some ⟨some todoClockRecords, []⟩) collidingDraws]).windows.map
        (fun w => w.id)).Nodup := by
  have hids : (runOps Overlay.fresh
      [RegistryOp.apply (some ⟨some todoClockRecords, []⟩) collidingDraws]).windows.map
      (fun w => w.id)
      = ["window-1700000002000-a1s2d3f4g", "window-1700000002000-a1s2d3f4g"] := by
    simp only [runOps, RegistryOp.run, applyLayout]
    rw [restoreWindows_ids]
    simp [todoClockRecords, List.range_succ, collidingDraws, Entropy.windowId]
    decide
  refine ⟨hids, ?_⟩
  rw [hids]
  decide

/-! ## The cached tier: defaulting, refresh, license keys -/

/-- C25: defaulting of the license key. `getCurrentTier` resolves to `'free'`
when the stored `license` value is missing or empty and to `'premium'` when it
is `'premium'`; a manager initialized over a store without a license (or with
an empty one) applies the free limits: `canAddWindow(3)` and `canAddPane(1)`
are false, `canAddWindow(2)` and `canAddPane(0)` are true. -/
theorem license_defaults_to_free (stored : Option String) :
    getCurrentTier none = "free"
      ∧ getCurrentTier (some "") = "free"
      ∧ getCurrentTier (some "premium") = "premium"
      ∧ licenseInit none = ⟨some "free"⟩
      ∧ licenseInit (some "") = ⟨some "free"⟩
      ∧ licenseInit (some "premium") = ⟨some "premium"⟩
      ∧ canAddWindow (licenseInit none) stored 3 = false
      ∧ canAddPane (licenseInit none) stored 1 = false
      ∧ canAddWindow (licenseInit (some "")) stored 3 = false
      ∧ canAddPane (licenseInit (some "")) stored 1 = false
      ∧ canAddWindow (licenseInit none) stored 2 = true
      ∧ canAddPane (licenseInit none) stored 0 = true := by
  have h1 : licenseInit none = ⟨some "free"⟩ := rfl
  have h2 : licenseInit (some "") = ⟨some "free"⟩ := rfl
  refine ⟨rfl, rfl, rfl, h1, h2, rfl, ?_, ?_, ?_, ?_, ?_, ?_⟩
  · rw [h1, canAddWindow_free]; decide
  · rw [h1, canAddPane_free]; decide
  · rw [h2, canAddWindow_free]; decide
  · rw [h2, canAddPane_free]; decide
  · rw [h1, canAddWindow_free]; decide
  · rw [h1, canAddPane_free]; decide

/-- C28: `verifyLicenseKey` succeeds exactly for the demo key. For the key
`'TABVERSE-PREMIUM-DEMO'` it resolves to `{ success: true, tier: 'premium' }`
and leaves the stored license and the cached tier at `'premium'`; for every
other key it resolves to `{ success: false, error: 'Invalid license key' }`
and leaves both as they were; so the result is the success value if and only
if the key is the demo key. -/
theorem verifyLicenseKey_spec (lm : LicenseManager) (stored : Option String) (key : String) :
    verifyLicenseKey lm stored "TABVERSE-PREMIUM-DEMO"
        = (VerifyResult.success "premium", ⟨some "premium"⟩, some "premium")
      ∧ (key ≠ "TABVERSE-PREMIUM-DEMO" →
          verifyLicenseKey lm stored key
            = (VerifyResult.failure "Invalid license key", lm, stored))
      ∧ ((verifyLicenseKey lm stored key).1 = VerifyResult.success "premium"
          ↔ key = "TABVERSE-PREMIUM-DEMO") := by
  refine ⟨rfl, ?_, ?_⟩
  · intro h
    simp [verifyLicenseKey, h]
  · by_cases h : key = "TABVERSE-PREMIUM-DEMO"
    · simp [verifyLicenseKey, h]
    · simp [verifyLicenseKey, h]

/-- Witness for C28: a key that differs from the demo key in case, on a manager
with `'free'` cached and stored. -/
theorem verifyLicenseKey_spec_witness :
    "tabverse-premium-demo" ≠ "TABVERSE-PREMIUM-DEMO"
      ∧ verifyLicenseKey ⟨some "free"⟩ (some "free") "tabverse-premium-demo"
          = (VerifyResult.failure "Invalid license key", ⟨some "free"⟩, some "free") :=
  ⟨by decide,
   (verifyLicenseKey_spec ⟨some "free"⟩ (some "free") "tabverse-premium-demo").2.1
      (by decide)⟩

theorem orElse_of_ne_empty (v b : String) (h : v ≠ "") : orElse (some v) b = v := by
  simp [orElse, h]

/-- C22 (amended): tier refresh. A change notification for area `'sync'` that
has the key `license` sets the cached tier to the notified new value, or to
`'free'` when the new value is absent or the empty string, and dispatches one
tier-changed event carrying the tier it cached; a notification for another
area, or without the key `license`, leaves the manager as it was and
dispatches nothing. -/
theorem tier_refresh (lm : LicenseManager) (change : StorageChange)
    (licenseChange : Option StorageChange) (areaName v : String) :
    onStorageChanged lm (some change) "sync"
        = (⟨some (orElse change.newValue "free")⟩, [orElse change.newValue "free"])
      ∧ (v ≠ "" →
          onStorageChanged lm (some ⟨change.oldValue, some v⟩) "sync" = (⟨some v⟩, [v]))
      ∧ onStorageChanged lm (some ⟨change.oldValue, none⟩) "sync" = (⟨some "free"⟩, ["free"])
      ∧ onStorageChanged lm (some ⟨change.oldValue, some ""⟩) "sync"
          = (⟨some "free"⟩, ["free"])
      ∧ (areaName ≠ "sync" → onStorageChanged lm licenseChange areaName = (lm, []))
      ∧ onStorageChanged lm none areaName = (lm, []) := by
  refine ⟨rfl, ?_, rfl, rfl, ?_, ?_⟩
  · intro h
    simp [onStorageChanged, orElse, h]
  · intro h
    simp [onStorageChanged, h]
  · by_cases h : areaName = "sync" <;> simp [onStorageChanged, h]

/-- Witness for C22 (amended): an upgrade notified on `'sync'`, and the same
change notified on `'local'`. -/
theorem tier_refresh_witness :
    ("premium" ≠ "" ∧ "local" ≠ "sync")
      ∧ onStorageChanged ⟨some "free"⟩ (some ⟨some "free", some "premium"⟩) "sync"
          = (⟨some "premium"⟩, ["premium"])
      ∧ onStorageChanged ⟨some "free"⟩ (some ⟨some "free", some "premium"⟩) "local"
          = (⟨some "free"⟩, []) :=
  ⟨⟨by decide, by decide⟩,
   (tier_refresh ⟨some "free"⟩ ⟨some "free", some "premium"⟩
      (some ⟨some "free", some "premium"⟩) "local" "premium").2.1 (by decide),
   (tier_refresh ⟨some "free"⟩ ⟨some "free", some "premium"⟩
      (some ⟨some "free", some "premium"⟩) "local" "premium").2.2.2.2.1 (by decide)⟩

/-- C22 as stated fails: a notification on `'sync'` whose new `license` value is
the empty string leaves `'free'` cached, not the notified value. -/
theorem tier_refresh_counterexample :
    (onStorageChanged ⟨some "premium"⟩ (some ⟨some "premium", some ""⟩) "sync").1.currentTier
        = some "free"
      ∧ (onStorageChanged ⟨some "premium"⟩ (some ⟨some "premium", some ""⟩)
          "sync").1.currentTier ≠ some "" := by
  constructor
  · rfl
  · decide

/-! ## Unrecognised tiers -/

/-- A tier name that is neither `'free'` nor `'premium'` nor a property every
object inherits gets the free limits. -/
theorem getTierLimits_unrecognised (lm : LicenseManager) (stored : Option String)
    (tier : String) (h0 : tier ≠ "") (h1 : tier ≠ "free") (h2 : tier ≠ "premium")
    (h3 : tier ∉ objectPrototypeKeys) :
    getTierLimits lm stored (some tier) = tiersFree := by
  simp [getTierLimits, tiersLookup, h0, h1, h2, h3]

theorem tiersFree_get_ne_true (feature : String) :
    tiersFree.get feature ≠ JSVal.bool true := by
  by_cases h1 : feature = "maxWindows"
  · subst h1; decide
  by_cases h2 : feature = "maxPanes"
  · subst h2; decide
  by_cases h3 : feature = "syncEnabled"
  · subst h3; decide
  by_cases h4 : feature = "aiEnabled"
  · subst h4; decide
  by_cases h5 : feature = "advancedCustomization"
  · subst h5; decide
  have e1 : (feature == "maxWindows") = false := beq_eq_false_iff_ne.mpr h1
  have e2 : (feature == "maxPanes") = false := beq_eq_false_iff_ne.mpr h2
  have e3 : (feature == "syncEnabled") = false := beq_eq_false_iff_ne.mpr h3
  have e4 : (feature == "aiEnabled") = false := beq_eq_false_iff_ne.mpr h4
  have e5 : (feature == "advancedCustomization") = false := beq_eq_false_iff_ne.mpr h5
  simp only [tiersFree, JSObject.get, List.lookup, e1, e2, e3, e4, e5]
  split <;> simp

/-- With such a tier cached, the gate is the free gate. -/
theorem gate_unrecognised (stored : Option String) (tier feature : String) (n : Nat)
    (h0 : tier ≠ "") (h1 : tier ≠ "free") (h2 : tier ≠ "premium")
    (h3 : tier ∉ objectPrototypeKeys) :
    canAddWindow ⟨some tier⟩ stored n = decide (n < 3)
      ∧ canAddPane ⟨some tier⟩ stored n = decide (n < 1)
      ∧ isFeatureEnabled ⟨some tier⟩ stored feature = false := by
  have hl := getTierLimits_unrecognised ⟨some tier⟩ stored tier h0 h1 h2 h3
  have hf : getTierLimits ⟨some tier⟩ stored none = tiersFree := by
    simp [getTierLimits, tiersLookup, orElse, h0, h1, h2, h3]
  refine ⟨?_, ?_, ?_⟩
  · simp [canAddWindow, hl, tiersFree, JSObject.get, List.lookup, JSVal.gtNat]
  · simp [canAddPane, hl, tiersFree, JSObject.get, List.lookup, JSVal.gtNat]
  · simp only [isFeatureEnabled, hf, decide_eq_false_iff_not]
    exact tiersFree_get_ne_true feature

/-- C30 at a failing input. With the stored license `'constructor'`, the tier
cached at initialization is `'constructor'`; `this.tiers['constructor']` is
the function every object inherits, so the fallback to the free limits is not
taken: the limits object has neither `maxWindows` nor `maxPanes`, and
`canAddWindow(0)` and `canAddPane(0)` are false, where the free gate admits
both. -/
theorem unrecognised_tier_prototype_name :
    licenseInit (some "constructor") = ⟨some "constructor"⟩
      ∧ getTierLimits ⟨some "constructor"⟩ (some "constructor") (some "constructor") = []
      ∧ getTierLimits ⟨some "constructor"⟩ (some "constructor") (some "constructor")
          ≠ tiersFree
      ∧ canAddWindow ⟨some "constructor"⟩ (some "constructor") 0 = false
      ∧ canAddPane ⟨some "constructor"⟩ (some "constructor") 0 = false
      ∧ canAddWindow ⟨some "free"⟩ (some "constructor") 0 = true
      ∧ canAddPane ⟨some "free"⟩ (some "constructor") 0 = true := by
  refine ⟨rfl, ?_, ?_, ?_, ?_, ?_, ?_⟩ <;> decide

/-! ## Restore and the license gate -/

theorem addWindow_denied_of_full (stored : Option String) (o : Overlay) (type : String)
    (content : Option String) (e : Entropy) (h : 3 ≤ o.windows.length) :
    addWindow ⟨some "free"⟩ stored o type content e = (none, showUpgradePrompt o) := by
  unfold addWindow
  rw [canAddWindow_free]
  have hn : ¬ o.windows.length < 3 := by omega
  simp [hn]

theorem addWindows_denied_of_full (stored : Option String)
    (calls : List (String × Option String × Entropy)) :
    ∀ o : Overlay, 3 ≤ o.windows.length →
      (addWindows ⟨some "free"⟩ stored o calls).windows = o.windows := by
  induction calls with
  | nil => intro o _; rfl
  | cons c calls ih =>
    intro o h
    obtain ⟨type, content, e⟩ := c
    simp only [addWindows]
    rw [addWindow_denied_of_full stored o type content e h]
    exact ih (showUpgradePrompt o) h

/-- C29: restore is not admission-checked. `applyLayout` takes no license
manager and leaves one window per window record, whatever their number; when
the snapshot has four records (three or more), every `addWindow` under tier
`'free'` afterwards returns `null`, and no sequence of `addWindow` calls
changes the windows list. -/
theorem restore_not_admission_checked (stored : Option String) (o : Overlay)
    (saved : List WindowRecord) (panes : List PaneRecord) (ent : Nat → Entropy)
    (type : String) (content : Option String) (e : Entropy)
    (calls : List (String × Option String × Entropy)) :
    (applyLayout o (some ⟨some saved, panes⟩) ent).windows.length = saved.length
      ∧ (3 ≤ saved.length →
          (addWindow ⟨some "free"⟩ stored (applyLayout o (some ⟨some saved, panes⟩) ent)
              type content e).1 = none
            ∧ (addWindow ⟨some "free"⟩ stored (applyLayout o (some ⟨some saved, panes⟩) ent)
              type content e).2.windows
                = (applyLayout o (some ⟨some saved, panes⟩) ent).windows
            ∧ (addWindows ⟨some "free"⟩ stored (applyLayout o (some ⟨some saved, panes⟩) ent)
              calls).windows
                = (applyLayout o (some ⟨some saved, panes⟩) ent).windows) := by
  have hlen : (applyLayout o (some ⟨some saved, panes⟩) ent).windows.length = saved.length := by
    have := applyLayout_length o ⟨some saved, panes⟩ ent
    simpa using this
  refine ⟨hlen, ?_⟩
  intro h
  have hfull : 3 ≤ (applyLayout o (some ⟨some saved, panes⟩) ent).windows.length := by
    rw [hlen]; exact h
  rw [addWindow_denied_of_full stored _ type content e hfull]
  exact ⟨rfl, rfl, addWindows_denied_of_full stored calls _ hfull⟩

/-- Witness for C29: the four records of `fourRecords` restored into the
overlay the constructor leaves, then the four calls of `fourCalls`. -/
theorem restore_not_admission_checked_witness :
    3 ≤ fourRecords.length
      ∧ (applyLayout Overlay.fresh (some ⟨some fourRecords, []⟩) constantDraws).windows.length
          = 4
      ∧ (addWindow ⟨some "free"⟩ none
            (applyLayout Overlay.fresh (some ⟨some fourRecords, []⟩) constantDraws)
            "clock" none ⟨1700000000000, "k3j9x0a1b", 1/2, 1/4⟩).1 = none
      ∧ (addWindows ⟨some "free"⟩ none
            (applyLayout Overlay.fresh (some ⟨some fourRecords, []⟩) constantDraws)
            fourCalls).windows.length = 4 := by
  have h3 : 3 ≤ fourRecords.length := by decide
  have h := restore_not_admission_checked none Overlay.fresh fourRecords [] constantDraws
    "clock" none ⟨1700000000000, "k3j9x0a1b", 1/2, 1/4⟩ fourCalls
  refine ⟨h3, h.1, (h.2 h3).1, ?_⟩
  rw [(h.2 h3).2.2]
  exact h.1

/-! ## The minimize and maximize controls -/

theorem not_not_flag (el : WindowEl) :
    { ({ el with minimized := !el.minimized } : WindowEl) with
        minimized := !(!el.minimized) } = el
      ∧ { ({ el with maximized := !el.maximized } : WindowEl) with
        maximized := !(!el.maximized) } = el := by
  cases el
  simp

/-- C27: the two flags are independent. The minimize control flips the
`minimized` class of its element and nothing else of it, the maximize control
flips `maximized` and nothing else; neither touches another element, the
windows list or the panes; each control clicked twice leaves every element as
it was; and clicking both on the window of `wholePixelWindow` gives a window
with both flags set, recorded with both flags in the snapshot then saved. -/
theorem flags_independent (o : Overlay) (n k : Nat) :
    (minimizeClick o n).heap n = { o.heap n with minimized := !(o.heap n).minimized }
      ∧ (maximizeClick o n).heap n = { o.heap n with maximized := !(o.heap n).maximized }
      ∧ (k ≠ n → (minimizeClick o n).heap k = o.heap k
          ∧ (maximizeClick o n).heap k = o.heap k)
      ∧ ((minimizeClick o n).windows = o.windows ∧ (minimizeClick o n).panes = o.panes)
      ∧ ((maximizeClick o n).windows = o.windows ∧ (maximizeClick o n).panes = o.panes)
      ∧ (minimizeClick (minimizeClick o n) n).heap = o.heap
      ∧ (maximizeClick (maximizeClick o n) n).heap = o.heap
      ∧ (maximizeClick (minimizeClick wholePixelWindow 0) 0).views
          = [⟨"clock", 250, 150, 400, 300, true, true⟩]
      ∧ ((maximizeClick (minimizeClick wholePixelWindow 0) 0).dispatched.getLast?.bind
            (fun l => l.windows)).map (List.map WindowRecord.view)
          = some [⟨"clock", 250, 150, 400, 300, true, true⟩] := by
  have hviews : (maximizeClick (minimizeClick wholePixelWindow 0) 0).views
      = [⟨"clock", 250, 150, 400, 300, true, true⟩] := by
    simp [maximizeClick, minimizeClick, Overlay.views, wholePixelWindow, addWindow,
      canAddWindow_free, createWindow, saveLayout, Overlay.fresh, viewOf]
    norm_num [roundDouble_zero, roundDouble_50, roundDouble_100, roundDouble_150,
      roundDouble_250, roundDouble_three_quarters, roundDouble_403_quarters]
  have hwhole : (⟨"clock", 250, 150, 400, 300, true, true⟩ : WindowView).wholePixels :=
    ⟨⟨250, by norm_num⟩, ⟨150, by norm_num⟩, ⟨400, by norm_num⟩, ⟨300, by norm_num⟩⟩
  refine ⟨?_, ?_, ?_, ⟨rfl, rfl⟩, ⟨rfl, rfl⟩, ?_, ?_, hviews, ?_⟩
  · simp [minimizeClick, saveLayout]
  · simp [maximizeClick, saveLayout]
  · intro hk
    simp [minimizeClick, maximizeClick, saveLayout, Function.update_noteq hk]
  · funext j
    by_cases hj : j = n
    · subst hj
      simp only [minimizeClick, saveLayout, Function.update_same]
      exact (not_not_flag (o.heap j)).1
    · simp [minimizeClick, saveLayout, Function.update_noteq hj]
  · funext j
    by_cases hj : j = n
    · subst hj
      simp only [maximizeClick, saveLayout, Function.update_same]
      exact (not_not_flag (o.heap j)).2
    · simp [maximizeClick, saveLayout, Function.update_noteq hj]
  · have hlast : (maximizeClick (minimizeClick wholePixelWindow 0) 0).dispatched.getLast?
        = some (currentLayout (maximizeClick (minimizeClick wholePixelWindow 0) 0)) := by
      have hd : (maximizeClick (minimizeClick wholePixelWindow 0) 0).dispatched
          = (minimizeClick wholePixelWindow 0).dispatched
            ++ [currentLayout (maximizeClick (minimizeClick wholePixelWindow 0) 0)] := rfl
      rw [hd]; simp
    rw [hlast, Option.some_bind, currentLayout_views, hviews]
    simp [WindowView.truncated_of_wholePixels _ hwhole]

/-- Witness for C27: a click on the minimize control of element 0 of
`twoWindows` leaves element 1 as it was. -/
theorem flags_independent_witness :
    (1 ≠ 0) ∧ (minimizeClick twoWindows 0).heap 1 = twoWindows.heap 1
      ∧ (maximizeClick twoWindows 0).heap 1 = twoWindows.heap 1 :=
  ⟨by decide, ((flags_independent twoWindows 0 1).2.2.1 (by decide)).1,
   ((flags_independent twoWindows 0 1).2.2.1 (by decide)).2⟩

/-! ## One snapshot per domain -/

theorem setOwn_lookup_self (m : LayoutsMap) (d : String) (l : Layout) :
    List.lookup d (m.setOwn d l) = some l := by
  induction m with
  | nil => simp [LayoutsMap.setOwn, List.lookup]
  | cons p rest ih =>
    obtain ⟨k, v⟩ := p
    by_cases hk : k = d
    · simp [LayoutsMap.setOwn, hk, List.lookup]
    · have hb : (d == k) = false := beq_eq_false_iff_ne.mpr (fun h => hk h.symm)
      simp [LayoutsMap.setOwn, hk, List.lookup, hb, ih]

theorem setOwn_lookup_of_ne (m : LayoutsMap) (d d' : String) (l : Layout) (h : d' ≠ d) :
    List.lookup d' (m.setOwn d l) = List.lookup d' m := by
  induction m with
  | nil =>
    have hb : (d' == d) = false := beq_eq_false_iff_ne.mpr h
    simp [LayoutsMap.setOwn, List.lookup, hb]
  | cons p rest ih =>
    obtain ⟨k, v⟩ := p
    by_cases hk : k = d
    · subst hk
      have hb : (d' == k) = false := beq_eq_false_iff_ne.mpr h
      simp [LayoutsMap.setOwn, List.lookup, hb]
    · by_cases hd : d' = k
      · subst hd
        simp [LayoutsMap.setOwn, hk, List.lookup]
      · have hb : (d' == k) = false := beq_eq_false_iff_ne.mpr hd
        simp [LayoutsMap.setOwn, hk, List.lookup, hb, ih]

/-- For every domain other than `__proto__` the handler does what is claimed:
the map written back has the layout under the domain, every other domain as
it was, and with nothing stored before it is the map of that one entry. -/
theorem handleSaveLayout_spec (stored : Option LayoutsMap) (d : String) (l : Layout)
    (hd : d ≠ "__proto__") :
    List.lookup d (handleSaveLayout stored d l) = some l
      ∧ (∀ d', d' ≠ d →
          List.lookup d' (handleSaveLayout stored d l) = List.lookup d' (stored.getD []))
      ∧ handleSaveLayout none d l = [(d, l)] := by
  refine ⟨?_, ?_, ?_⟩
  · simp [handleSaveLayout, LayoutsMap.assign, hd, setOwn_lookup_self]
  · intro d' h
    simp [handleSaveLayout, LayoutsMap.assign, hd, setOwn_lookup_of_ne _ _ _ _ h]
  · simp [handleSaveLayout, LayoutsMap.assign, hd, LayoutsMap.setOwn]

theorem handleSaveLayout_spec_example :
    List.lookup "example.com" (handleSaveLayout (some storedLayouts) "example.com" clockLayout)
        = some clockLayout
      ∧ handleSaveLayout none "example.com" clockLayout = [("example.com", clockLayout)] :=
  ⟨(handleSaveLayout_spec (some storedLayouts) "example.com" clockLayout (by decide)).1,
   (handleSaveLayout_spec (some storedLayouts) "example.com" clockLayout (by decide)).2.2⟩

/-- C24 at the domain `__proto__`: handling the request leaves the stored map
without an entry for the domain. With nothing stored the map written back is
empty instead of holding the one entry, and with `storedLayouts` stored it is
`storedLayouts` unchanged. -/
theorem saveLayout_proto_domain :
    handleSaveLayout none "__proto__" clockLayout = []
      ∧ handleSaveLayout none "__proto__" clockLayout ≠ [("__proto__", clockLayout)]
      ∧ handleSaveLayout (some storedLayouts) "__proto__" clockLayout = storedLayouts
      ∧ List.lookup "__proto__"
          (handleSaveLayout (some storedLayouts) "__proto__" clockLayout) = none := by
  refine ⟨by decide, by decide, by decide, by decide⟩

/-! ## The assistant's answers -/

theorem roundHalfEven_le_pred (t : Rat) (n : Int) (h : t ≤ n - 3 / 4) :
    roundHalfEven t ≤ n - 1 := by
  have hlt : ⌊t⌋ < n := by
    apply Int.floor_lt.mpr
    linarith
  unfold roundHalfEven
  by_cases hf : ⌊t⌋ = n - 1
  · have hfrac : t - ⌊t⌋ < 1 / 2 := by
      rw [hf]
      push_cast
      linarith
    rw [if_pos hfrac]
    omega
  · split
    · omega
    · split
      · omega
      · split <;> omega

theorem genericIndex_bounds (draw : Rat) (h0 : 0 ≤ draw) (h1 : draw ≤ 1 - 1 / 2 ^ 53) :
    0 ≤ ⌊roundDouble (draw * 3)⌋ ∧ ⌊roundDouble (draw * 3)⌋ ≤ 2 := by
  have hx0 : 0 ≤ draw * 3 := by linarith
  have hx1 : draw * 3 ≤ 3 - 3 / 2 ^ 53 := by linarith
  have habs : |draw * 3| < 2 ^ 53 := by
    rw [abs_of_nonneg hx0]
    have : (3 : Rat) < 2 ^ 53 := by norm_num
    have : (0 : Rat) < 3 / 2 ^ 53 := by norm_num
    linarith
  constructor
  · have := (roundDouble_bounds (draw * 3) 0 3 habs (by simpa using hx0)
      (by have : (0 : Rat) < 3 / 2 ^ 53 := by norm_num
          push_cast; linarith)).1
    exact Int.floor_nonneg.mpr (by simpa using this)
  · by_cases hlt : draw * 3 < 2
    · have := (roundDouble_bounds (draw * 3) 0 2 habs (by simpa using hx0)
        (by push_cast; linarith)).2
      have h2 : ⌊roundDouble (draw * 3)⌋ ≤ ⌊((2 : Int) : Rat)⌋ := Int.floor_le_floor this
      simpa using h2
    · have hge : 2 ≤ draw * 3 := not_lt.mp hlt
      have hu : ulpExponent (draw * 3) = 1 - 52 :=
        ulpExponent_of_binade (draw * 3) 1 (by norm_num)
          (by rw [abs_of_nonneg hx0]; norm_num; exact hge)
          (by rw [abs_of_nonneg hx0]
              have : (0 : Rat) < 3 / 2 ^ 53 := by norm_num
              norm_num
              linarith)
      have hpow : (2 : Rat) ^ ((1 : Int) - 52) = 1 / 2 ^ 51 := by
        rw [show ((1 : Int) - 52) = -(51 : Int) by norm_num, zpow_neg, one_div]
        norm_num
      have hr : roundHalfEven (draw * 3 / (1 / 2 ^ 51)) ≤ 3 * 2 ^ 51 - 1 := by
        apply roundHalfEven_le_pred
        push_cast
        have : draw * 3 / (1 / 2 ^ 51) = draw * 3 * 2 ^ 51 := by field_simp
        rw [this]
        have h4 : (3 - 3 / 2 ^ 53 : Rat) * 2 ^ 51 = 3 * 2 ^ 51 - 3 / 4 := by norm_num
        have h5 : draw * 3 * 2 ^ 51 ≤ (3 - 3 / 2 ^ 53 : Rat) * 2 ^ 51 :=
          mul_le_mul_of_nonneg_right hx1 (by positivity)
        linarith
      have hval : roundDouble (draw * 3) < 3 := by
        unfold roundDouble
        rw [hu, hpow]
        have hrq : (roundHalfEven (draw * 3 / (1 / 2 ^ 51)) : Rat) ≤ 3 * 2 ^ 51 - 1 := by
          exact_mod_cast hr
        rw [mul_one_div, div_lt_iff₀ (by positivity)]
        linarith
      have := Int.floor_lt.mpr (show roundDouble (draw * 3) < ((3 : Int) : Rat) by
        simpa using hval)
      omega

theorem generateGenericResponse_string (message : String) (draw : Rat) (h0 : 0 ≤ draw)
    (h1 : draw ≤ 1 - 1 / 2 ^ 53) :
    ∃ s, generateGenericResponse message draw = JsonValue.str s := by
  obtain ⟨g0, g2⟩ := genericIndex_bounds draw h0 h1
  unfold generateGenericResponse
  simp only [List.length_cons, List.length_nil, Nat.reduceAdd, Nat.cast_ofNat]
  rw [if_pos g0]
  have hcases : ⌊roundDouble (draw * 3)⌋ = 0 ∨ ⌊roundDouble (draw * 3)⌋ = 1
      ∨ ⌊roundDouble (draw * 3)⌋ = 2 := by omega
  rcases hcases with h | h | h <;> rw [h] <;> exact ⟨_, rfl⟩

theorem processLocally_resolves (env : PageEnv) (draw : Rat) (m t : String) :
    ∃ v, processLocally env draw (JsonValue.str m) (JsonValue.str t) = Except.ok v := by
  simp only [processLocally]
  split
  · exact ⟨_, rfl⟩
  · split
    · exact ⟨_, rfl⟩
    · split
      · exact ⟨_, rfl⟩
      · split
        · exact ⟨_, rfl⟩
        · split
          · exact ⟨_, rfl⟩
          · exact ⟨_, rfl⟩

theorem processLocally_string (env : PageEnv) (draw : Rat) (m t : String) (h0 : 0 ≤ draw)
    (h1 : draw ≤ 1 - 1 / 2 ^ 53) :
    ∃ s, processLocally env draw (JsonValue.str m) (JsonValue.str t)
      = Except.ok (JsonValue.str s) := by
  simp only [processLocally]
  split
  · exact ⟨_, rfl⟩
  · split
    · exact ⟨_, rfl⟩
    · split
      · exact ⟨_, rfl⟩
      · split
        · exact ⟨_, rfl⟩
        · split
          · exact ⟨_, rfl⟩
          · obtain ⟨s, hs⟩ := generateGenericResponse_string m draw h0 h1
            exact ⟨s, by rw [hs]⟩

/-- C26 (amended): a request with a string message and page text never
rejects. `processRequest` resolves for every settings record, every outcome
of the remote call and every draw; with the assistant disabled it resolves to
the disabled message; when the remote interface is used, every outcome in
which the call fails (the fetch rejects, the status is not a success, the body
is not JSON, or the body has no `choices` to index) gives the failure message,
and a successful call gives the message content of the first choice when that
is truthy (a string only if the content is one) and `No response from API`
otherwise; without the remote interface it resolves to a string, for every
draw `Math.random()` can return. -/
theorem processRequest_never_rejects (settings : AISettings) (env : PageEnv) (draw : Rat)
    (outcome : FetchOutcome) (m t : String) (message pageText : JsonValue) :
    (∃ v, processRequest settings env draw outcome (JsonValue.str m) (JsonValue.str t)
        = Except.ok v)
      ∧ (settings.enabled = false →
          processRequest settings env draw outcome message pageText
            = Except.ok (JsonValue.str "AI Assistant is disabled. Enable it in settings."))
      ∧ (settings.enabled = true → settings.useAPI = true → settings.apiKey ≠ "" →
          (outcome = FetchOutcome.networkError
            ∨ (∃ body, outcome = FetchOutcome.response false body)
            ∨ outcome = FetchOutcome.response true none
            ∨ outcome = FetchOutcome.response true (some ApiData.noChoices)) →
          processRequest settings env draw outcome message (JsonValue.str t)
            = Except.ok (JsonValue.str
                "Failed to connect to AI API. Check your API key in settings."))
      ∧ (settings.enabled = true → settings.useAPI = true → settings.apiKey ≠ "" →
          ∀ contents, outcome = FetchOutcome.response true (some (ApiData.choices contents)) →
            processRequest settings env draw outcome message (JsonValue.str t)
              = Except.ok (if (contents.head?.getD JsonValue.undefined).truthy
                  then contents.head?.getD JsonValue.undefined
                  else JsonValue.str "No response from API"))
      ∧ (settings.enabled = true → (settings.useAPI = false ∨ settings.apiKey = "") →
          0 ≤ draw → draw ≤ 1 - 1 / 2 ^ 53 →
          ∃ s, processRequest settings env draw outcome (JsonValue.str m) (JsonValue.str t)
            = Except.ok (JsonValue.str s)) := by
  refine ⟨?_, ?_, ?_, ?_, ?_⟩
  · unfold processRequest
    split
    · exact ⟨_, rfl⟩
    · split
      · unfold processWithAPI
        split
        · exact ⟨_, rfl⟩
        · exact ⟨_, rfl⟩
      · exact processLocally_resolves env draw m t
  · intro h
    simp [processRequest, h]
  · intro he hu hk hfail
    rcases hfail with h | ⟨body, h⟩ | h | h <;> subst h <;>
      simp [processRequest, he, hu, hk, processWithAPI, callAPI]
  · intro he hu hk contents h
    subst h
    simp [processRequest, he, hu, hk, processWithAPI, callAPI]
  · intro he h hd0 hd1
    have hloc : processRequest settings env draw outcome (JsonValue.str m) (JsonValue.str t)
        = processLocally env draw (JsonValue.str m) (JsonValue.str t) := by
      rcases h with h | h <;> simp [processRequest, he, h]
    rw [hloc]
    exact processLocally_string env draw m t hd0 hd1

/-- Witness for C26 (amended): with `remoteSettings`, a remote call that ends
in a network error gives the failure message; with `localSettings`, a question
none of the keywords matches gets a string. -/
theorem processRequest_never_rejects_witness :
    (remoteSettings.enabled = true ∧ remoteSettings.useAPI = true
        ∧ remoteSettings.apiKey ≠ "")
      ∧ processRequest remoteSettings samplePage (1 / 2) FetchOutcome.networkError
          (JsonValue.str "summarize") (JsonValue.str "page text")
        = Except.ok (JsonValue.str
            "Failed to connect to AI API. Check your API key in settings.")
      ∧ (localSettings.enabled = true ∧ localSettings.useAPI = false
          ∧ (0 : Rat) ≤ 1 / 2 ∧ (1 / 2 : Rat) ≤ 1 - 1 / 2 ^ 53)
      ∧ (∃ s, processRequest localSettings samplePage (1 / 2) FetchOutcome.networkError
          (JsonValue.str "hello") (JsonValue.str "page text")
        = Except.ok (JsonValue.str s)) :=
  ⟨⟨rfl, rfl, by decide⟩,
   (processRequest_never_rejects remoteSettings samplePage (1 / 2)
      FetchOutcome.networkError "hello" "page text" (JsonValue.str "summarize")
      (JsonValue.str "page text")).2.2.1 rfl rfl (by decide) (Or.inl rfl),
   ⟨rfl, rfl, by norm_num, by norm_num⟩,
   (processRequest_never_rejects localSettings samplePage (1 / 2)
      FetchOutcome.networkError "hello" "page text" (JsonValue.str "summarize")
      (JsonValue.str "page text")).2.2.2.2 rfl (Or.inl rfl) (by norm_num) (by norm_num)⟩

/-- C26 as stated fails. A successful remote call whose first choice carries
the number 42 as message content makes `processRequest` resolve to the number
42, which is not a string; and with the remote interface off, a request whose
message is `undefined` rejects. -/
theorem processRequest_counterexample :
    processRequest remoteSettings samplePage (1 / 2)
        (FetchOutcome.response true (some (ApiData.choices [JsonValue.num 42])))
        (JsonValue.str "hello") (JsonValue.str "page text")
      = Except.ok (JsonValue.num 42)
      ∧ (¬ ∃ s, processRequest remoteSettings samplePage (1 / 2)
          (FetchOutcome.response true (some (ApiData.choices [JsonValue.num 42])))
          (JsonValue.str "hello") (JsonValue.str "page text")
        = Except.ok (JsonValue.str s))
      ∧ processRequest localSettings samplePage (1 / 2) FetchOutcome.networkError
          JsonValue.undefined (JsonValue.str "page text")
        = Except.error "TypeError: message.toLowerCase is not a function" := by
  have h : processRequest remoteSettings samplePage (1 / 2)
      (FetchOutcome.response true (some (ApiData.choices [JsonValue.num 42])))
      (JsonValue.str "hello") (JsonValue.str "page text")
      = Except.ok (JsonValue.num 42) := by
    simp [processRequest, remoteSettings, processWithAPI, callAPI, JsonValue.truthy]
  refine ⟨h, ?_, ?_⟩
  · rw [h]
    rintro ⟨s, hs⟩
    cases hs
  · simp [processRequest, localSettings, processLocally]

/-! ## Widget loads that fail -/

theorem settleLoads_cons (o : Overlay) (node : Nat) (type : String)
    (rest : List (Nat × String)) (attempt : Nat → Except String Unit) :
    ∃ c, (c = Content.widget type ∨ c = Content.widgetError type)
      ∧ (type ≠ "empty" → c = settledContent type (attempt node))
      ∧ settleLoads o ((node, type) :: rest) attempt
        = settleLoads
            { o with heap := Function.update o.heap node { o.heap node with content := c } }
            rest attempt := by
  cases h : attempt node with
  | ok u =>
    exact ⟨Content.widget type, Or.inl rfl, fun hty => by simp [settledContent, hty],
      by simp [settleLoads, loadWidgetSettle, h]⟩
  | error e =>
    exact ⟨Content.widgetError type, Or.inr rfl, fun hty => by simp [settledContent, hty],
      by simp [settleLoads, loadWidgetSettle, h]⟩

theorem settleLoads_windows (settled : List (Nat × String))
    (attempt : Nat → Except String Unit) :
    ∀ o : Overlay, (settleLoads o settled attempt).windows = o.windows
      ∧ ∀ w, viewOf (settleLoads o settled attempt) w = viewOf o w := by
  induction settled with
  | nil => intro o; simp [settleLoads]
  | cons p rest ih =>
    intro o
    obtain ⟨node, type⟩ := p
    obtain ⟨c, -, -, hc⟩ := settleLoads_cons o node type rest attempt
    rw [hc]
    refine ⟨(ih _).1, fun w => ?_⟩
    rw [(ih _).2 w]
    by_cases hw : w.element = node
    · subst hw
      simp [viewOf]
    · simp [viewOf, Function.update_noteq hw]

theorem settleLoads_heap_of_not_mem (settled : List (Nat × String))
    (attempt : Nat → Except String Unit) (n : Nat) :
    ∀ o : Overlay, n ∉ settled.map Prod.fst →
      (settleLoads o settled attempt).heap n = o.heap n := by
  induction settled with
  | nil => intro o _; simp [settleLoads]
  | cons p rest ih =>
    intro o hn
    obtain ⟨node, type⟩ := p
    obtain ⟨c, -, -, hc⟩ := settleLoads_cons o node type rest attempt
    simp only [List.map_cons, List.mem_cons, not_or] at hn
    rw [hc, ih _ hn.2]
    simp [Function.update_noteq hn.1]

theorem settleLoads_content_of_mem (settled : List (Nat × String))
    (attempt : Nat → Except String Unit) (n : Nat) (t : String) (ht : t ≠ "empty") :
    ∀ o : Overlay, (settled.map Prod.fst).Nodup → (n, t) ∈ settled →
      ((settleLoads o settled attempt).heap n).content = settledContent t (attempt n) := by
  induction settled with
  | nil => intro o _ h; simp at h
  | cons p rest ih =>
    intro o hnd hmem
    obtain ⟨node, type⟩ := p
    obtain ⟨c, -, hset, hc⟩ := settleLoads_cons o node type rest attempt
    simp only [List.map_cons, List.nodup_cons] at hnd
    rw [hc]
    rcases List.mem_cons.mp hmem with h | h
    · obtain ⟨h1, h2⟩ := Prod.mk.inj h
      subst h1 h2
      rw [settleLoads_heap_of_not_mem _ _ _ _ hnd.1]
      simp [hset ht]
    · exact ih _ hnd.2 h

theorem restoreWindows_heap_of_lt (saved : List WindowRecord) (n : Nat) :
    ∀ (o : Overlay) (ent : Nat → Entropy), n < o.nextNode →
      (restoreWindows o saved ent).heap n = o.heap n := by
  induction saved with
  | nil => intro o ent _; simp [restoreWindows]
  | cons r rest ih =>
    intro o ent hn
    simp only [restoreWindows]
    rw [ih _ _ (by rw [restoreWindow_nextNode]; exact Nat.lt_succ_of_lt hn),
      restoreWindow_heap_of_ne _ _ _ _ (Nat.ne_of_lt hn)]

theorem restoreWindow_content_new (o : Overlay) (r : WindowRecord) (e : Entropy) :
    ((restoreWindow o r e).heap o.nextNode).content = getDefaultContent r.type := by
  by_cases hty : r.type = "empty" <;> cases hmin : r.minimized <;> cases hmax : r.maximized <;>
    by_cases hw : 0 ≤ r.size.width <;> by_cases hh : 0 ≤ r.size.height <;>
    simp [restoreWindow, createWindow, loadWidget, hty, hmin, hmax, hw, hh]

theorem restoreWindows_loads (saved : List WindowRecord) :
    ∀ (o : Overlay) (ent : Nat → Entropy),
      ∃ ws : List Window,
        (restoreWindows o saved ent).windows = o.windows ++ ws
          ∧ ws.map (fun w => w.element) = List.range' o.nextNode saved.length
          ∧ (∀ w ∈ ws, ((restoreWindows o saved ent).heap w.element).content
              = getDefaultContent w.type)
          ∧ (restoreWindows o saved ent).loadRequests
              = o.loadRequests
                ++ (ws.filter (fun w => w.type ≠ "empty")).map (fun w => (w.element, w.type)) := by
  induction saved with
  | nil => intro o ent; exact ⟨[], by simp [restoreWindows]⟩
  | cons r rest ih =>
    intro o ent
    obtain ⟨ws, hw, he, hc, hl⟩ := ih (restoreWindow o r (ent 0)) (fun i => ent (i + 1))
    refine ⟨(createWindow o r.type none (ent 0)).1 :: ws, ?_, ?_, ?_, ?_⟩
    · simp only [restoreWindows]
      rw [hw, restoreWindow_windows, List.append_assoc, List.singleton_append]
    · rw [restoreWindow_nextNode] at he
      simp [he, createWindow_element, List.range'_succ]
    · intro w hmem
      simp only [restoreWindows]
      rcases List.mem_cons.mp hmem with h | h
      · rw [h, createWindow_element, createWindow_type,
          restoreWindows_heap_of_lt _ _ _ _ (by rw [restoreWindow_nextNode]; exact Nat.lt_succ_self _)]
        exact restoreWindow_content_new o r (ent 0)
      · exact hc w h
    · simp only [restoreWindows]
      rw [hl, restoreWindow_loadRequests]
      by_cases hty : r.type = "empty"
      · simp [hty, List.filter_cons, createWindow_type]
      · simp [hty, List.filter_cons, createWindow_type, createWindow_element]

/-- C23: a widget that cannot be loaded does not disturb the restore. After
`applyLayout` of a snapshot and the settling of the loads it started, in any
order and whichever of them fail, the registry holds the same windows, every
window has the type, position, size and flags of its record, a window whose
load failed shows the placeholder `Failed to load <type> widget`, a window
whose load succeeded shows its widget, a window of type `empty` keeps the
default content, and `loadWidget` resolves in every case. -/
theorem loadWidget_failure_isolated (o : Overlay) (saved : List WindowRecord)
    (panes : List PaneRecord) (ent : Nat → Entropy) (attempt : Nat → Except String Unit)
    (settled : List (Nat × String))
    (hsettled : settled.Perm
      ((applyLayout o (some ⟨some saved, panes⟩) ent).loadRequests.drop o.loadRequests.length)) :
    (settleLoads (applyLayout o (some ⟨some saved, panes⟩) ent) settled attempt).windows
        = (applyLayout o (some ⟨some saved, panes⟩) ent).windows
      ∧ (settleLoads (applyLayout o (some ⟨some saved, panes⟩) ent) settled attempt).views
        = saved.map WindowRecord.restoredView
      ∧ (∀ w ∈ (settleLoads (applyLayout o (some ⟨some saved, panes⟩) ent) settled attempt).windows,
          ((settleLoads (applyLayout o (some ⟨some saved, panes⟩) ent) settled attempt).heap
              w.element).content
            = settledContent w.type (attempt w.element))
      ∧ (∀ (o' : Overlay) (node : Nat) (type : String) (a : Except String Unit),
          ∃ o'', loadWidgetSettle o' node type a = Except.ok o'') := by
  obtain ⟨ws, hw, he, hc, hl⟩ := restoreWindows_loads saved { o with windows := [] } ent
  have hA : applyLayout o (some ⟨some saved, panes⟩) ent
      = restoreWindows { o with windows := [] } saved ent := rfl
  rw [hA] at hsettled ⊢
  simp only [List.nil_append] at hw
  have hreq : (restoreWindows { o with windows := [] } saved ent).loadRequests.drop
      o.loadRequests.length
        = (ws.filter (fun w => w.type ≠ "empty")).map (fun w => (w.element, w.type)) := by
    rw [hl]; simp
  rw [hreq] at hsettled
  have hndws : (ws.map (fun w => w.element)).Nodup := by
    rw [he]; exact List.nodup_range' _ _
  have hnd : (settled.map Prod.fst).Nodup := by
    rw [(hsettled.map Prod.fst).nodup_iff, List.map_map]
    exact ((List.filter_sublist ws).map _).nodup hndws
  have hwin := settleLoads_windows settled attempt
    (restoreWindows { o with windows := [] } saved ent)
  refine ⟨hwin.1, ?_, ?_, ?_⟩
  · have hv := applyLayout_views o saved panes ent
    rw [hA] at hv
    rw [← hv]
    simp only [Overlay.views, hwin.1]
    exact List.map_congr_left (fun w _ => hwin.2 w)
  · intro w hmem
    rw [hwin.1, hw] at hmem
    by_cases hty : w.type = "empty"
    · have hnot : w.element ∉ settled.map Prod.fst := by
        intro hin
        obtain ⟨p, hp, hpe⟩ := List.mem_map.mp hin
        obtain ⟨w', hw', hpw⟩ := List.mem_map.mp (hsettled.mem_iff.mp hp)
        have hw'2 := List.mem_filter.mp hw'
        have hel : w'.element = w.element := by rw [← hpe, ← hpw]
        have := List.inj_on_of_nodup_map hndws hw'2.1 hmem hel
        rw [this] at hw'2
        simpa [hty] using hw'2.2
      rw [settleLoads_heap_of_not_mem _ _ _ _ hnot, hc w hmem]
      simp [settledContent, getDefaultContent, hty]
    · have hin : (w.element, w.type) ∈ settled := by
        apply hsettled.mem_iff.mpr
        exact List.mem_map.mpr ⟨w, List.mem_filter.mpr ⟨hmem, by simpa using hty⟩, rfl⟩
      exact settleLoads_content_of_mem _ _ _ _ hty _ hnd hin
  · intro o' node type a
    cases a with
    | ok u => exact ⟨_, rfl⟩
    | error e => exact ⟨_, rfl⟩

/-- Witness for C23: `mixedRecords` restored on a fresh overlay, with the
module of the second window failing to load and the loads settling in the
order they were started. -/
theorem loadWidget_failure_isolated_witness :
    (settleLoads (applyLayout Overlay.fresh (some ⟨some mixedRecords, []⟩) constantDraws)
        [(0, "clock"), (1, "stocks"), (3, "todo")] stocksFails).views
      = mixedRecords.map WindowRecord.restoredView
    ∧ ((settleLoads (applyLayout Overlay.fresh (some ⟨some mixedRecords, []⟩) constantDraws)
        [(0, "clock"), (1, "stocks"), (3, "todo")] stocksFails).heap 1).content
      = Content.widgetError "stocks"
    ∧ ((settleLoads (applyLayout Overlay.fresh (some ⟨some mixedRecords, []⟩) constantDraws)
        [(0, "clock"), (1, "stocks"), (3, "todo")] stocksFails).heap 3).content
      = Content.widget "todo" :=
  ⟨(loadWidget_failure_isolated Overlay.fresh mixedRecords [] constantDraws stocksFails
    [(0, "clock"), (1, "stocks"), (3, "todo")]
    (by
      have h : (applyLayout Overlay.fresh (some ⟨some mixedRecords, []⟩)
          constantDraws).loadRequests.drop Overlay.fresh.loadRequests.length
            = [(0, "clock"), (1, "stocks"), (3, "todo")] := by
        simp [applyLayout, restoreWindows, restoreWindow, createWindow, loadWidget,
          mixedRecords, Overlay.fresh]
      rw [h])).2.1,
   by simp [settleLoads, loadWidgetSettle, stocksFails, Function.update],
   by simp [settleLoads, loadWidgetSettle, stocksFails, Function.update]⟩

/-! ## The minimum size -/

theorem minSized_step (o o' : Overlay) (hsub : ∀ w ∈ o'.windows, w ∈ o.windows)
    (hn : o'.nextNode = o.nextNode)
    (hmono : ∀ k, (200 ≤ (o.heap k).width → 200 ≤ (o'.heap k).width)
      ∧ (150 ≤ (o.heap k).height → 150 ≤ (o'.heap k).height))
    (h : o.MinSized) : o'.MinSized := by
  intro w hw
  obtain ⟨h1, h2, h3⟩ := h w (hsub w hw)
  exact ⟨by rw [hn]; exact h1, (hmono _).1 h2, (hmono _).2 h3⟩

theorem moveHandler_nextNode (client : Point) (o : Overlay) (l : Listener) :
    (moveHandler client o l).nextNode = o.nextNode := by
  cases l with
  | drag node =>
    simp only [moveHandler, handleDrag]
    split <;> simp
  | resize node sx sy sw sh =>
    simp only [moveHandler, handleResize]
    split <;> simp

theorem moveHandler_minSized (client : Point) (o : Overlay) (l : Listener)
    (h : o.MinSized) : (moveHandler client o l).MinSized := by
  apply minSized_step o _ _ (moveHandler_nextNode client o l) _ h
  · intro w hw
    rw [(moveHandler_frame client o l).2.2.1] at hw
    exact hw
  · intro k
    obtain ⟨-, -, -, -, hw, hh, -, -⟩ := moveHandler_element client o l k
    rw [hw, hh]
    exact ⟨id, id⟩

theorem endHandler_registry (o : Overlay) (l : Listener) :
    (endHandler o l).windows = o.windows ∧ (endHandler o l).nextNode = o.nextNode := by
  cases l <;> simp [endHandler, handleDragEnd, handleResizeEnd, saveLayout]

theorem endHandler_minSized (o : Overlay) (l : Listener) (h : o.MinSized) :
    (endHandler o l).MinSized := by
  apply minSized_step o _ _ (endHandler_registry o l).2 _ h
  · intro w hw
    rw [(endHandler_registry o l).1] at hw
    exact hw
  · intro k
    obtain ⟨-, -, hw, hh, -, -⟩ := endHandler_element o l k
    rw [hw, hh]
    exact ⟨id, id⟩

theorem runFrameCallback_registry (o : Overlay) (c : FrameCallback) :
    (runFrameCallback o c).windows = o.windows
      ∧ (runFrameCallback o c).nextNode = o.nextNode := by
  cases c <;> simp [runFrameCallback]

theorem runFrameCallback_size_mono (o : Overlay) (c : FrameCallback) (k : Nat) :
    (200 ≤ (o.heap k).width → 200 ≤ ((runFrameCallback o c).heap k).width)
      ∧ (150 ≤ (o.heap k).height → 150 ≤ ((runFrameCallback o c).heap k).height) := by
  cases c with
  | drag node =>
    obtain ⟨hw, hh⟩ := runFrameCallback_drag_size o node k
    rw [hw, hh]
    exact ⟨id, id⟩
  | resize node =>
    simp only [runFrameCallback]
    by_cases hk : k = node
    · subst hk
      cases hw : (o.heap k).currentWidth <;> cases hh : (o.heap k).currentHeight <;>
        simp [hw, hh]
    · simp [Function.update_noteq hk]

theorem runFrameCallback_minSized (o : Overlay) (c : FrameCallback) (h : o.MinSized) :
    (runFrameCallback o c).MinSized := by
  apply minSized_step o _ _ (runFrameCallback_registry o c).2 (runFrameCallback_size_mono o c) h
  intro w hw
  rw [(runFrameCallback_registry o c).1] at hw
  exact hw

theorem foldl_minSized {α : Type} (f : Overlay → α → Overlay)
    (hf : ∀ o a, o.MinSized → (f o a).MinSized) (l : List α) :
    ∀ o : Overlay, o.MinSized → (l.foldl f o).MinSized := by
  induction l with
  | nil => intro o h; exact h
  | cons a l ih => intro o h; exact ih _ (hf o a h)

theorem restoreWindow_minSized (o : Overlay) (r : WindowRecord) (e : Entropy)
    (hr : 200 ≤ r.size.width ∧ 150 ≤ r.size.height) (h : o.MinSized) :
    (restoreWindow o r e).MinSized := by
  intro w hw
  rw [restoreWindow_windows, List.mem_append, List.mem_singleton] at hw
  rw [restoreWindow_nextNode]
  rcases hw with hw | hw
  · obtain ⟨h1, h2, h3⟩ := h w hw
    rw [restoreWindow_heap_of_ne o r e w.element (Nat.ne_of_lt h1)]
    exact ⟨Nat.lt_succ_of_lt h1, h2, h3⟩
  · have hv := restoreWindow_view_new o r e
    rw [r.restoredView_of_nonneg ⟨le_trans (by norm_num) hr.1, le_trans (by norm_num) hr.2⟩,
      ← hw] at hv
    have hwid := congrArg WindowView.width hv
    have hhei := congrArg WindowView.height hv
    simp only [viewOf, WindowRecord.view] at hwid hhei
    rw [hwid, hhei]
    refine ⟨?_, hr.1, hr.2⟩
    rw [hw, createWindow_element]
    exact Nat.lt_succ_self _

theorem restoreWindows_minSized (saved : List WindowRecord) :
    ∀ (o : Overlay) (ent : Nat → Entropy),
      (∀ r ∈ saved, 200 ≤ r.size.width ∧ 150 ≤ r.size.height) → o.MinSized →
      (restoreWindows o saved ent).MinSized := by
  induction saved with
  | nil => intro o ent _ h; simpa [restoreWindows] using h
  | cons r rest ih =>
    intro o ent hr h
    simp only [restoreWindows]
    exact ih _ _ (fun r' hr' => hr r' (List.mem_cons_of_mem _ hr'))
      (restoreWindow_minSized o r (ent 0) (hr r (List.mem_cons_self _ _)) h)

theorem registryOp_minSized (o : Overlay) (op : RegistryOp)
    (hop : (SessionEvent.registry op).RestoresMinSized) (h : o.MinSized) :
    (op.run o).MinSized := by
  cases op with
  | add lm stored type content e =>
    intro w hw
    by_cases hc : canAddWindow lm stored o.windows.length = true
    · simp only [RegistryOp.run, addWindow, hc, if_true, saveLayout, createWindow,
        List.mem_append, List.mem_singleton] at hw ⊢
      rcases hw with hw | hw
      · obtain ⟨h1, h2, h3⟩ := h w hw
        rw [Function.update_noteq (Nat.ne_of_lt h1)]
        exact ⟨Nat.lt_succ_of_lt h1, h2, h3⟩
      · rw [hw]
        simp
        norm_num
    · simp only [RegistryOp.run, addWindow, hc, showUpgradePrompt] at hw ⊢
      exact h w hw
  | close windowId =>
    have hnext : (closeWindow o windowId).nextNode = o.nextNode
        ∧ (closeWindow o windowId).heap = o.heap := by
      unfold closeWindow
      cases o.windows.findIdx? (fun w => decide (w.id = windowId)) <;> exact ⟨rfl, rfl⟩
    apply minSized_step o _ (fun w hw => (closeWindow_sublist o windowId).subset hw)
      hnext.1 _ h
    intro k
    simp only [RegistryOp.run, hnext.2]
    exact ⟨id, id⟩
  | apply layout ent =>
    cases layout with
    | none => simpa [RegistryOp.run, applyLayout] using h
    | some l =>
      cases hws : l.windows with
      | none =>
        intro w hw
        simp [RegistryOp.run, applyLayout, hws] at hw
      | some saved =>
        simp only [RegistryOp.run, applyLayout, hws]
        apply restoreWindows_minSized
        · intro r hr
          have := hop
          simp only [SessionEvent.RestoresMinSized, Layout.MinSized, hws, Option.getD_some] at this
          exact this r hr
        · intro w hw
          simp at hw

theorem sessionEvent_minSized (o : Overlay) (ev : SessionEvent)
    (hev : ev.RestoresMinSized) (h : o.MinSized) : (ev.run o).MinSized := by
  cases ev with
  | registry op => exact registryOp_minSized o op hev h
  | headerDown node onButton client rect =>
    cases onButton with
    | true => simpa [SessionEvent.run, headerMouseDown] using h
    | false =>
      apply minSized_step o _ _ _ _ h
      · intro w hw; simpa [SessionEvent.run, headerMouseDown] using hw
      · simp [SessionEvent.run, headerMouseDown]
      · intro k
        obtain ⟨-, -, hw, hh, -, -⟩ := headerMouseDown_element o node client rect k
        simp only [SessionEvent.run]
        rw [hw, hh]
        exact ⟨id, id⟩
  | resizeDown node client offset =>
    apply minSized_step o _ _ _ _ h
    · intro w hw; simpa [SessionEvent.run, resizeMouseDown] using hw
    · simp [SessionEvent.run, resizeMouseDown]
    · intro k
      obtain ⟨-, -, hw, hh, -, -⟩ := resizeMouseDown_element o node client offset k
      simp only [SessionEvent.run]
      rw [hw, hh]
      exact ⟨id, id⟩
  | move client =>
    exact foldl_minSized _ (moveHandler_minSized client) _ o h
  | up =>
    exact foldl_minSized _ endHandler_minSized _ o h
  | frame =>
    have hf := foldl_minSized _ runFrameCallback_minSized o.frameQueue o h
    exact hf
  | minimize node =>
    apply minSized_step o _ _ _ _ h
    · intro w hw; simpa [SessionEvent.run, minimizeClick, saveLayout] using hw
    · simp [SessionEvent.run, minimizeClick, saveLayout]
    · intro k
      by_cases hk : k = node
      · subst hk; simp [SessionEvent.run, minimizeClick, saveLayout]
      · simp [SessionEvent.run, minimizeClick, saveLayout, Function.update_noteq hk]
  | maximize node =>
    apply minSized_step o _ _ _ _ h
    · intro w hw; simpa [SessionEvent.run, maximizeClick, saveLayout] using hw
    · simp [SessionEvent.run, maximizeClick, saveLayout]
    · intro k
      by_cases hk : k = node
      · subst hk; simp [SessionEvent.run, maximizeClick, saveLayout]
      · simp [SessionEvent.run, maximizeClick, saveLayout, Function.update_noteq hk]

/-- The minimum size holds along every session that restores no snapshot with
a record below the minimum: every window of every state reached from the fresh
overlay shows a width of at least 200 and a height of at least 150. -/
theorem runSession_minSized (events : List SessionEvent)
    (hev : ∀ ev ∈ events, ev.RestoresMinSized) :
    ∀ v ∈ (runSession Overlay.fresh events).views, 200 ≤ v.width ∧ 150 ≤ v.height := by
  have key : ∀ (evs : List SessionEvent) (o : Overlay), o.MinSized →
      (∀ ev ∈ evs, ev.RestoresMinSized) → (runSession o evs).MinSized := by
    intro evs
    induction evs with
    | nil => intro o h _; exact h
    | cons ev evs ih =>
      intro o h hall
      exact ih _ (sessionEvent_minSized o ev (hall ev (List.mem_cons_self _ _)) h)
        (fun ev' hev' => hall ev' (List.mem_cons_of_mem _ hev'))
  have hfresh : Overlay.fresh.MinSized := by
    intro w hw
    simp [Overlay.fresh] at hw
  intro v hv
  obtain ⟨w, hw, rfl⟩ := List.mem_map.mp hv
  exact (key events _ hfresh hev w hw).2

theorem runSession_minSized_example :
    ∀ v ∈ (runSession Overlay.fresh resizeSession).views, 200 ≤ v.width ∧ 150 ≤ v.height :=
  runSession_minSized resizeSession (by
    intro ev hev
    simp only [resizeSession, List.mem_cons, List.mem_singleton, List.not_mem_nil,
      or_false] at hev
    rcases hev with h | h | h | h | h | h <;> subst h <;>
      simp [SessionEvent.RestoresMinSized, Layout.MinSized, fourRecords]
    norm_num)

/-- C21 at a snapshot with a record below the minimum: `applyLayout` of
`smallLayout` on the fresh overlay, a state reached by one registry call,
holds one window whose width is 120 and whose height is 80. -/
theorem applyLayout_below_minimum :
    (runSession Overlay.fresh
        [SessionEvent.registry (RegistryOp.apply (some smallLayout) constantDraws)]).views
      = [⟨"clock", 100, 100, 120, 80, false, false⟩]
      ∧ ¬ (∀ v ∈ (runSession Overlay.fresh
            [SessionEvent.registry (RegistryOp.apply (some smallLayout) constantDraws)]).views,
          200 ≤ v.width ∧ 150 ≤ v.height) := by
  have hv : (runSession Overlay.fresh
      [SessionEvent.registry (RegistryOp.apply (some smallLayout) constantDraws)]).views
      = [⟨"clock", 100, 100, 120, 80, false, false⟩] := by
    have h := applyLayout_views Overlay.fresh
      [⟨"window-1-a", "clock", ⟨100, 100⟩, ⟨120, 80⟩, false, false⟩] [] constantDraws
    simpa [runSession, SessionEvent.run, RegistryOp.run, smallLayout, WindowRecord.view]
      using h
  refine ⟨hv, ?_⟩
  rw [hv]
  intro h
  have := (h _ (List.mem_singleton_self _)).1
  norm_num at this

/-! ## Sizes the style accepts -/

theorem sizesValid_step (o o' : Overlay) (hsub : ∀ w ∈ o'.windows, w ∈ o.windows)
    (hn : o'.nextNode = o.nextNode)
    (hmono : ∀ k, (0 ≤ (o.heap k).width → 0 ≤ (o'.heap k).width)
      ∧ (0 ≤ (o.heap k).height → 0 ≤ (o'.heap k).height))
    (h : o.SizesValid) : o'.SizesValid := by
  intro w hw
  obtain ⟨h1, h2, h3⟩ := h w (hsub w hw)
  exact ⟨by rw [hn]; exact h1, (hmono _).1 h2, (hmono _).2 h3⟩

theorem moveHandler_sizesValid (client : Point) (o : Overlay) (l : Listener)
    (h : o.SizesValid) : (moveHandler client o l).SizesValid := by
  apply sizesValid_step o _ _ (moveHandler_nextNode client o l) _ h
  · intro w hw
    rw [(moveHandler_frame client o l).2.2.1] at hw
    exact hw
  · intro k
    obtain ⟨-, -, -, -, hw, hh, -, -⟩ := moveHandler_element client o l k
    rw [hw, hh]
    exact ⟨id, id⟩

theorem endHandler_sizesValid (o : Overlay) (l : Listener) (h : o.SizesValid) :
    (endHandler o l).SizesValid := by
  apply sizesValid_step o _ _ (endHandler_registry o l).2 _ h
  · intro w hw
    rw [(endHandler_registry o l).1] at hw
    exact hw
  · intro k
    obtain ⟨-, -, hw, hh, -, -⟩ := endHandler_element o l k
    rw [hw, hh]
    exact ⟨id, id⟩

theorem runFrameCallback_size_nonneg (o : Overlay) (c : FrameCallback) (k : Nat) :
    (0 ≤ (o.heap k).width → 0 ≤ ((runFrameCallback o c).heap k).width)
      ∧ (0 ≤ (o.heap k).height → 0 ≤ ((runFrameCallback o c).heap k).height) := by
  cases c with
  | drag node =>
    obtain ⟨hw, hh⟩ := runFrameCallback_drag_size o node k
    rw [hw, hh]
    exact ⟨id, id⟩
  | resize node =>
    simp only [runFrameCallback]
    by_cases hk : k = node
    · subst hk
      cases hw : (o.heap k).currentWidth <;> cases hh : (o.heap k).currentHeight <;>
        simp [hw, hh]
    · simp [Function.update_noteq hk]

theorem runFrameCallback_sizesValid (o : Overlay) (c : FrameCallback) (h : o.SizesValid) :
    (runFrameCallback o c).SizesValid := by
  apply sizesValid_step o _ _ (runFrameCallback_registry o c).2 (runFrameCallback_size_nonneg o c) h
  intro w hw
  rw [(runFrameCallback_registry o c).1] at hw
  exact hw

theorem foldl_sizesValid {α : Type} (f : Overlay → α → Overlay)
    (hf : ∀ o a, o.SizesValid → (f o a).SizesValid) (l : List α) :
    ∀ o : Overlay, o.SizesValid → (l.foldl f o).SizesValid := by
  induction l with
  | nil => intro o h; exact h
  | cons a l ih => intro o h; exact ih _ (hf o a h)

theorem restoreWindow_sizesValid (o : Overlay) (r : WindowRecord) (e : Entropy)
    (h : o.SizesValid) : (restoreWindow o r e).SizesValid := by
  intro w hw
  rw [restoreWindow_windows, List.mem_append, List.mem_singleton] at hw
  rw [restoreWindow_nextNode]
  rcases hw with hw | hw
  · obtain ⟨h1, h2, h3⟩ := h w hw
    rw [restoreWindow_heap_of_ne o r e w.element (Nat.ne_of_lt h1)]
    exact ⟨Nat.lt_succ_of_lt h1, h2, h3⟩
  · have hv := restoreWindow_view_new o r e
    rw [← hw] at hv
    have hwid := congrArg WindowView.width hv
    have hhei := congrArg WindowView.height hv
    simp only [viewOf, WindowRecord.restoredView] at hwid hhei
    rw [hwid, hhei]
    refine ⟨?_, ?_, ?_⟩
    · rw [hw, createWindow_element]
      exact Nat.lt_succ_self _
    · split
      · assumption
      · norm_num
    · split
      · assumption
      · norm_num

theorem restoreWindows_sizesValid (saved : List WindowRecord) :
    ∀ (o : Overlay) (ent : Nat → Entropy), o.SizesValid →
      (restoreWindows o saved ent).SizesValid := by
  induction saved with
  | nil => intro o ent h; simpa [restoreWindows] using h
  | cons r rest ih =>
    intro o ent h
    simp only [restoreWindows]
    exact ih _ _ (restoreWindow_sizesValid o r (ent 0) h)

theorem registryOp_sizesValid (o : Overlay) (op : RegistryOp) (h : o.SizesValid) :
    (op.run o).SizesValid := by
  cases op with
  | add lm stored type content e =>
    intro w hw
    by_cases hc : canAddWindow lm stored o.windows.length = true
    · simp only [RegistryOp.run, addWindow, hc, if_true, saveLayout, createWindow,
        List.mem_append, List.mem_singleton] at hw ⊢
      rcases hw with hw | hw
      · obtain ⟨h1, h2, h3⟩ := h w hw
        rw [Function.update_noteq (Nat.ne_of_lt h1)]
        exact ⟨Nat.lt_succ_of_lt h1, h2, h3⟩
      · rw [hw]
        simp
    · simp only [RegistryOp.run, addWindow, hc, showUpgradePrompt] at hw ⊢
      exact h w hw
  | close windowId =>
    have hnext : (closeWindow o windowId).nextNode = o.nextNode
        ∧ (closeWindow o windowId).heap = o.heap := by
      unfold closeWindow
      cases o.windows.findIdx? (fun w => decide (w.id = windowId)) <;> exact ⟨rfl, rfl⟩
    apply sizesValid_step o _ (fun w hw => (closeWindow_sublist o windowId).subset hw)
      hnext.1 _ h
    intro k
    simp only [RegistryOp.run, hnext.2]
    exact ⟨id, id⟩
  | apply layout ent =>
    cases layout with
    | none => simpa [RegistryOp.run, applyLayout] using h
    | some l =>
      cases hws : l.windows with
      | none =>
        intro w hw
        simp [RegistryOp.run, applyLayout, hws] at hw
      | some saved =>
        simp only [RegistryOp.run, applyLayout, hws]
        apply restoreWindows_sizesValid
        intro w hw
        simp at hw

theorem sessionEvent_sizesValid (o : Overlay) (ev : SessionEvent) (h : o.SizesValid) :
    (ev.run o).SizesValid := by
  cases ev with
  | registry op => exact registryOp_sizesValid o op h
  | headerDown node onButton client rect =>
    cases onButton with
    | true => simpa [SessionEvent.run, headerMouseDown] using h
    | false =>
      apply sizesValid_step o _ _ _ _ h
      · intro w hw; simpa [SessionEvent.run, headerMouseDown] using hw
      · simp [SessionEvent.run, headerMouseDown]
      · intro k
        obtain ⟨-, -, hw, hh, -, -⟩ := headerMouseDown_element o node client rect k
        simp only [SessionEvent.run]
        rw [hw, hh]
        exact ⟨id, id⟩
  | resizeDown node client offset =>
    apply sizesValid_step o _ _ _ _ h
    · intro w hw; simpa [SessionEvent.run, resizeMouseDown] using hw
    · simp [SessionEvent.run, resizeMouseDown]
    · intro k
      obtain ⟨-, -, hw, hh, -, -⟩ := resizeMouseDown_element o node client offset k
      simp only [SessionEvent.run]
      rw [hw, hh]
      exact ⟨id, id⟩
  | move client =>
    exact foldl_sizesValid _ (moveHandler_sizesValid client) _ o h
  | up =>
    exact foldl_sizesValid _ endHandler_sizesValid _ o h
  | frame =>
    have hf := foldl_sizesValid _ runFrameCallback_sizesValid o.frameQueue o h
    exact hf
  | minimize node =>
    apply sizesValid_step o _ _ _ _ h
    · intro w hw; simpa [SessionEvent.run, minimizeClick, saveLayout] using hw
    · simp [SessionEvent.run, minimizeClick, saveLayout]
    · intro k
      by_cases hk : k = node
      · subst hk; simp [SessionEvent.run, minimizeClick, saveLayout]
      · simp [SessionEvent.run, minimizeClick, saveLayout, Function.update_noteq hk]
  | maximize node =>
    apply sizesValid_step o _ _ _ _ h
    · intro w hw; simpa [SessionEvent.run, maximizeClick, saveLayout] using hw
    · simp [SessionEvent.run, maximizeClick, saveLayout]
    · intro k
      by_cases hk : k = node
      · subst hk; simp [SessionEvent.run, maximizeClick, saveLayout]
      · simp [SessionEvent.run, maximizeClick, saveLayout, Function.update_noteq hk]

/-- The style holds no negative size: in every state reached from the fresh
overlay by a session, every window stands on a created element and shows a
width and a height of at least 0. -/
theorem runSession_sizesValid (events : List SessionEvent) :
    ∀ w ∈ (runSession Overlay.fresh events).windows,
      0 ≤ ((runSession Overlay.fresh events).heap w.element).width
        ∧ 0 ≤ ((runSession Overlay.fresh events).heap w.element).height := by
  have key : ∀ (evs : List SessionEvent) (o : Overlay), o.SizesValid →
      (runSession o evs).SizesValid := by
    intro evs
    induction evs with
    | nil => intro o h; exact h
    | cons ev evs ih =>
      intro o h
      exact ih _ (sessionEvent_sizesValid o ev h)
  have hfresh : Overlay.fresh.SizesValid := by
    intro w hw
    simp [Overlay.fresh] at hw
  intro w hw
  exact (key events _ hfresh w hw).2

/-- The round trip of a layout from any state a session reaches: the size
condition of `applyLayout_saved_views` holds there. -/
theorem runSession_round_trip (events : List SessionEvent) (ent : Nat → Entropy) :
    (applyLayout Overlay.fresh
        (saveLayout (runSession Overlay.fresh events)).dispatched.getLast? ent).views
      = (runSession Overlay.fresh events).windows.map
          (fun w => (viewOf (runSession Overlay.fresh events) w).truncated) :=
  applyLayout_saved_views Overlay.fresh _ ent (runSession_sizesValid events)

/-! ## Calls that overlap -/

theorem twoWindows_windows_length : twoWindows.windows.length = 2 := by
  simp [twoWindows, addWindows, addWindow, canAddWindow_free, createWindow, saveLayout,
    Overlay.fresh]

/-- C1 at a failing input. With `'free'` cached and two windows held, two
`addWindow` calls made back to back both read the count 2 and both pass the
gate; when they resume, each pushes its window, and the registry holds four
windows. Made one after the other, the same two calls leave three. -/
theorem addWindow_capacity_exceeded :
    twoWindows.windows.length = 2
      ∧ addWindowStart ⟨some "free"⟩ none twoWindows "empty" none = ⟨true, "empty", none⟩
      ∧ addWindowStart ⟨some "free"⟩ none twoWindows "clock" none = ⟨true, "clock", none⟩
      ∧ (addWindowsBackToBack ⟨some "free"⟩ none twoWindows twoCalls).windows.length = 4
      ∧ ¬ ((addWindowsBackToBack ⟨some "free"⟩ none twoWindows twoCalls).windows.length ≤ 3)
      ∧ (addWindows ⟨some "free"⟩ none twoWindows twoCalls).windows.length = 3 := by
  have hlen := twoWindows_windows_length
  have h4 : (addWindowsBackToBack ⟨some "free"⟩ none twoWindows twoCalls).windows.length
      = 4 := by
    simp [addWindowsBackToBack, twoCalls, addWindowStart, addWindowResume, canAddWindow_free,
      hlen, createWindow, saveLayout]
  refine ⟨hlen, ?_, ?_, h4, ?_, ?_⟩
  · simp [addWindowStart, canAddWindow_free, hlen]
  · simp [addWindowStart, canAddWindow_free, hlen]
  · rw [h4]; decide
  · simp [addWindows, twoCalls, addWindow, canAddWindow_free, hlen, createWindow, saveLayout,
      showUpgradePrompt]

theorem splitPane_eq_resume (lm : LicenseManager) (stored : Option String) (o : Overlay)
    (direction : String) :
    splitPane lm stored o direction
      = splitPaneResume o (splitPaneStart lm stored o) direction := rfl

/-- C18 at a failing input. With `'free'` cached and no pane held, two
`splitPane` calls made back to back both read the count 0 and both pass the
gate; when they resume, each pushes its pane, and the panes list holds two
panes. Made one after the other, the same two calls leave one. -/
theorem splitPane_capacity_exceeded :
    Overlay.fresh.panes = []
      ∧ splitPaneStart ⟨some "free"⟩ none Overlay.fresh = true
      ∧ (splitPanesBackToBack ⟨some "free"⟩ none Overlay.fresh
          ["horizontal", "vertical"]).panes = [⟨1, "horizontal"⟩, ⟨2, "vertical"⟩]
      ∧ ¬ ((splitPanesBackToBack ⟨some "free"⟩ none Overlay.fresh
          ["horizontal", "vertical"]).panes.length ≤ 1)
      ∧ (splitPanes ⟨some "free"⟩ none Overlay.fresh
          ["horizontal", "vertical"]).panes = [⟨1, "horizontal"⟩] := by
  have h2 : (splitPanesBackToBack ⟨some "free"⟩ none Overlay.fresh
      ["horizontal", "vertical"]).panes = [⟨1, "horizontal"⟩, ⟨2, "vertical"⟩] := by
    simp [splitPanesBackToBack, splitPaneStart, splitPaneResume, canAddPane_free, saveLayout,
      Overlay.fresh]
  refine ⟨rfl, ?_, h2, ?_, ?_⟩
  · simp [splitPaneStart, canAddPane_free, Overlay.fresh]
  · rw [h2]; decide
  · simp [splitPanes, splitPane, canAddPane_free, saveLayout, showUpgradePrompt, Overlay.fresh]

end TabVerse
